import Mathlib

/-!
# Zombie Hunter: the combat core

A shallow embedding of the simulation core of the game (`Zombie.cpp`,
`Player.cpp`, `Bullet.h`, `Weapon.cpp` and the update section of `main.cpp`).

Conventions of the embedding.

* C++ `float` values are elements of an arbitrary linearly ordered field `F`
  with exact arithmetic (the rationals for concrete evaluation); rounding is
  not modelled.  C++ `int` values are integers.
* The raylib library is not part of the repository.  Its primitives are the
  fields of `Raylib`; the header-only `raymath` helpers are written out on top
  of `Raylib.sqrtf`.  Wherever a property needs the square root to be exact,
  that is a hypothesis about the one value the code takes the root of.
* A C++ method that mutates `this` is a function returning the new object; a
  reference parameter that is written (`float& playerHealth`) is returned
  next to it.
* Fields that are only drawn or played (colours, sounds) are left out.
-/

namespace ZombieHunter

/-! ## raylib types and primitives -/

/-- The raylib type of points and vectors of the plane. -/
structure Vector2 (F : Type) where
  x : F
  y : F

/-- The raylib type of axis-aligned rectangles: top-left corner and extent. -/
structure Rectangle (F : Type) where
  x : F
  y : F
  width : F
  height : F

/-- The raylib primitives the core calls.  They live in the library, so the
core is parameterised by them. -/
structure Raylib (F : Type) where
  sqrtf : F → F
  CheckCollisionCircleRec : Vector2 F → F → Rectangle F → Bool
  CheckCollisionPointRec : Vector2 F → Rectangle F → Bool
  GetScreenWidth : ℤ
  GetScreenHeight : ℤ

/-- The `CLAMP(value, min, max)` macro of `Zombie.cpp` and `Player.cpp`:
`(value < min) ? min : (value > max) ? max : value`. -/
def CLAMP {α : Type} [LinearOrder α] (value lo hi : α) : α :=
  if value < lo then lo else if value > hi then hi else value

section Core

variable {F : Type} [LinearOrderedField F]

/-! ## raymath helpers -/

/-- Componentwise sum (raymath). -/
def Vector2Add (v1 v2 : Vector2 F) : Vector2 F := ⟨v1.x + v2.x, v1.y + v2.y⟩

/-- Componentwise difference (raymath). -/
def Vector2Subtract (v1 v2 : Vector2 F) : Vector2 F := ⟨v1.x - v2.x, v1.y - v2.y⟩

/-- Scaling by a scalar (raymath). -/
def Vector2Scale (v : Vector2 F) (scale : F) : Vector2 F := ⟨v.x * scale, v.y * scale⟩

/-- Negation (raymath). -/
def Vector2Negate (v : Vector2 F) : Vector2 F := ⟨-v.x, -v.y⟩

/-- Squared Euclidean length; the argument raymath passes to `sqrtf`. -/
def Vector2LengthSqr (v : Vector2 F) : F := v.x * v.x + v.y * v.y

/-- Euclidean length (raymath): `sqrtf(v.x*v.x + v.y*v.y)`. -/
def Vector2Length (rl : Raylib F) (v : Vector2 F) : F := rl.sqrtf (v.x * v.x + v.y * v.y)

/-- Euclidean distance (raymath):
`sqrtf((v1.x - v2.x)*(v1.x - v2.x) + (v1.y - v2.y)*(v1.y - v2.y))`. -/
def Vector2Distance (rl : Raylib F) (v1 v2 : Vector2 F) : F :=
  rl.sqrtf ((v1.x - v2.x) * (v1.x - v2.x) + (v1.y - v2.y) * (v1.y - v2.y))

/-- Normalisation (raymath): the zero vector when the length is not positive,
otherwise each component times `1/length`. -/
def Vector2Normalize (rl : Raylib F) (v : Vector2 F) : Vector2 F :=
  let length := rl.sqrtf (v.x * v.x + v.y * v.y)
  if length > 0 then ⟨v.x * (1 / length), v.y * (1 / length)⟩ else ⟨0, 0⟩

/-! ## Zombie (`Zombie.h`, `Zombie.cpp`) -/

/-- The enum `Zombie::ZombieState`. -/
inductive ZombieState where
  | CHASING
  | ATTACKING
  | DYING
  | DEAD
deriving DecidableEq, Repr

/-- The data members of class `Zombie` (without `bodyColor`). -/
structure Zombie (F : Type) where
  pos : Vector2 F
  speed : F
  health : ℤ
  maxHealth : ℤ
  damage : ℤ
  size : F
  currentState : ZombieState
  attackCooldownTimer : F
  hitFlashTimer : F
  deathTimer : F
  explosionRadius : F
  explosionAlpha : F

/-- Constant `Zombie::ZOMBIE_ATTACK_COOLDOWN = 1.0f`. -/
def ZOMBIE_ATTACK_COOLDOWN : F := 1

/-- Constant `Zombie::ZOMBIE_HIT_FLASH_DURATION = 0.1f`. -/
def ZOMBIE_HIT_FLASH_DURATION : F := 1 / 10

/-- Constant `Zombie::ZOMBIE_DEATH_DURATION = 0.5f`. -/
def ZOMBIE_DEATH_DURATION : F := 1 / 2

/-- Constant `Zombie::ZOMBIE_ATTACK_RANGE_BUFFER = 5.0f`. -/
def ZOMBIE_ATTACK_RANGE_BUFFER : F := 5

/-- Constant `Zombie::ZOMBIE_EXPLOSION_MAX_RADIUS = 40.0f`. -/
def ZOMBIE_EXPLOSION_MAX_RADIUS : F := 40

/-- The constructor `Zombie::Zombie(pos, speed, health, damage, size, color)`. -/
def Zombie.new (pos : Vector2 F) (speed : F) (health damage : ℤ) (size : F) : Zombie F :=
  { pos := pos, speed := speed, health := health, maxHealth := health, damage := damage,
    size := size, currentState := ZombieState.CHASING, attackCooldownTimer := 0,
    hitFlashTimer := 0, deathTimer := 0, explosionRadius := 0, explosionAlpha := 0 }

/-- The kind `FastZombie` of `ZombieTypes.h`. -/
def FastZombie (pos : Vector2 F) : Zombie F := Zombie.new pos 120 50 5 15

/-- The kind `TankZombie` of `ZombieTypes.h`. -/
def TankZombie (pos : Vector2 F) : Zombie F := Zombie.new pos 40 200 20 25

/-- The query `Zombie::isDead`. -/
def Zombie.isDead (z : Zombie F) : Bool := z.currentState = ZombieState.DEAD

/-- The method `Zombie::takeDamage(int dmg)`. -/
def Zombie.takeDamage (z : Zombie F) (dmg : ℤ) : Zombie F :=
  if z.currentState = ZombieState.DYING ∨ z.currentState = ZombieState.DEAD then z
  else
    let z1 := { z with health := z.health - dmg }
    if z1.health ≤ 0 then { z1 with hitFlashTimer := 0 }
    else { z1 with hitFlashTimer := ZOMBIE_HIT_FLASH_DURATION }

/-- The method `Zombie::updateTimers(float deltaTime)`. -/
def Zombie.updateTimers (z : Zombie F) (deltaTime : F) : Zombie F :=
  let z1 :=
    if z.attackCooldownTimer > 0 then
      let t := z.attackCooldownTimer - deltaTime
      { z with attackCooldownTimer := if t < 0 then 0 else t }
    else z
  if z1.hitFlashTimer > 0 then
    let t := z1.hitFlashTimer - deltaTime
    { z1 with hitFlashTimer := if t < 0 then 0 else t }
  else z1

/-- The method `Zombie::resolveSingleWallCollision(circlePos, circleRadius, wall)`;
the result is the new value of the reference parameter `circlePos`. -/
def resolveSingleWallCollision (rl : Raylib F) (circlePos : Vector2 F) (circleRadius : F)
    (wall : Rectangle F) : Vector2 F :=
  if !rl.CheckCollisionCircleRec circlePos circleRadius wall then circlePos
  else
    let closestX := CLAMP circlePos.x wall.x (wall.x + wall.width)
    let closestY := CLAMP circlePos.y wall.y (wall.y + wall.height)
    let closestPoint : Vector2 F := ⟨closestX, closestY⟩
    let circleToClosest := Vector2Subtract closestPoint circlePos
    let distance := Vector2Length rl circleToClosest
    if distance < circleRadius then
      let overlap := circleRadius - distance
      if distance = 0 then
        let dx_min := closestX - circlePos.x
        let dy_min := closestY - circlePos.y
        let overlap_x := circleRadius - |dx_min|
        let overlap_y := circleRadius - |dy_min|
        if overlap_x < overlap_y then
          if dx_min < 0 then { circlePos with x := wall.x - circleRadius }
          else { circlePos with x := wall.x + wall.width + circleRadius }
        else
          if dy_min < 0 then { circlePos with y := wall.y - circleRadius }
          else { circlePos with y := wall.y + wall.height + circleRadius }
      else
        let normal := Vector2Normalize rl (Vector2Negate circleToClosest)
        Vector2Add circlePos (Vector2Scale normal overlap)
    else circlePos

/-- One sweep of the inner loop of `handleChasingState`: the circle is resolved
against every wall in order. -/
def resolveAllWalls (rl : Raylib F) (circlePos : Vector2 F) (circleRadius : F)
    (walls : List (Rectangle F)) : Vector2 F :=
  walls.foldl (fun p wall => resolveSingleWallCollision rl p circleRadius wall) circlePos

/-- The method `Zombie::handleChasingState`: the move towards the player, then
five sweeps of wall resolution. -/
def Zombie.handleChasingState (rl : Raylib F) (z : Zombie F) (playerPos : Vector2 F)
    (deltaTime : F) (walls : List (Rectangle F)) : Zombie F :=
  let dir := Vector2Normalize rl (Vector2Subtract playerPos z.pos)
  let currentSpeed := z.speed
  let desiredMove := Vector2Scale dir (currentSpeed * deltaTime)
  let pos1 := Vector2Add z.pos desiredMove
  { z with pos := (List.range 5).foldl (fun p _ => resolveAllWalls rl p z.size walls) pos1 }

/-- The method `Zombie::handleAttackingState`; the second component is the new
value of the reference parameter `playerHealth`. -/
def Zombie.handleAttackingState (rl : Raylib F) (z : Zombie F) (playerPos : Vector2 F)
    (playerHealth : F) : Zombie F × F :=
  let distToPlayer := Vector2Distance rl z.pos playerPos
  if distToPlayer < z.size + 20 - ZOMBIE_ATTACK_RANGE_BUFFER ∧ z.attackCooldownTimer ≤ 0 then
    ({ z with attackCooldownTimer := ZOMBIE_ATTACK_COOLDOWN }, playerHealth - (z.damage : F))
  else (z, playerHealth)

/-- The method `Zombie::handleDyingState(float deltaTime)`. -/
def Zombie.handleDyingState (z : Zombie F) (deltaTime : F) : Zombie F :=
  let deathTimer := z.deathTimer - deltaTime
  let t := CLAMP (1 - deathTimer / ZOMBIE_DEATH_DURATION) 0 1
  { z with deathTimer := deathTimer,
           explosionRadius := ZOMBIE_EXPLOSION_MAX_RADIUS * t,
           explosionAlpha := CLAMP (1 - t) 0 1 }

/-- The `switch (currentState)` of `Zombie::update`. -/
def Zombie.updateSwitch (rl : Raylib F) (z : Zombie F) (playerPos : Vector2 F) (deltaTime : F)
    (walls : List (Rectangle F)) (playerHealth : F) : Zombie F × F :=
  match z.currentState with
  | ZombieState.CHASING =>
    let z1 := z.handleChasingState rl playerPos deltaTime walls
    if Vector2Distance rl z1.pos playerPos < z1.size + 20 - ZOMBIE_ATTACK_RANGE_BUFFER
        ∧ z1.attackCooldownTimer ≤ 0 then
      ({ z1 with currentState := ZombieState.ATTACKING }, playerHealth)
    else (z1, playerHealth)
  | ZombieState.ATTACKING =>
    let r := z.handleAttackingState rl playerPos playerHealth
    if Vector2Distance rl r.1.pos playerPos ≥ r.1.size + 20 ∨ r.1.attackCooldownTimer > 0 then
      ({ r.1 with currentState := ZombieState.CHASING }, r.2)
    else r
  | ZombieState.DYING =>
    let z1 := z.handleDyingState deltaTime
    if z1.deathTimer ≤ 0 then ({ z1 with currentState := ZombieState.DEAD }, playerHealth)
    else (z1, playerHealth)
  | ZombieState.DEAD => (z, playerHealth)

/-- The tail of `Zombie::update`: the transition to `DYING` on `health <= 0`
and the clamp of `health` into `[0, maxHealth]`. -/
def Zombie.healthCheck (z : Zombie F) : Zombie F :=
  let z1 :=
    if z.health ≤ 0 ∧ z.currentState ≠ ZombieState.DYING ∧ z.currentState ≠ ZombieState.DEAD then
      { z with currentState := ZombieState.DYING, deathTimer := ZOMBIE_DEATH_DURATION,
               explosionRadius := 0, explosionAlpha := 1 }
    else z
  { z1 with health := CLAMP z1.health 0 z1.maxHealth }

/-- The method `Zombie::update(playerPos, deltaTime, walls, playerHealth)`; the
second component is the new value of the reference parameter `playerHealth`. -/
def Zombie.update (rl : Raylib F) (z : Zombie F) (playerPos : Vector2 F) (deltaTime : F)
    (walls : List (Rectangle F)) (playerHealth : F) : Zombie F × F :=
  if z.currentState = ZombieState.DEAD then (z, playerHealth)
  else
    let r := (z.updateTimers deltaTime).updateSwitch rl playerPos deltaTime walls playerHealth
    (r.1.healthCheck, r.2)

/-! ## Bullet (`Bullet.h`) and Weapon (`Weapon.h`, `Weapon.cpp`) -/

/-- The data members of class `Bullet`. -/
structure Bullet (F : Type) where
  pos : Vector2 F
  velocity : Vector2 F
  damage : ℤ
  radius : F
  active : Bool

/-- The constructor `Bullet::Bullet(pos, velocity, damage)`. -/
def Bullet.new (pos velocity : Vector2 F) (damage : ℤ) : Bullet F :=
  { pos := pos, velocity := velocity, damage := damage, radius := 3, active := true }

/-- The method `Bullet::update(float deltaTime)`. -/
def Bullet.update (b : Bullet F) (deltaTime : F) : Bullet F :=
  { b with pos := ⟨b.pos.x + b.velocity.x * deltaTime, b.pos.y + b.velocity.y * deltaTime⟩ }

/-- The simulation members of class `Weapon` (without `type` and `fireSound`). -/
structure Weapon (F : Type) where
  fireRate : F
  lastFireTime : F
  bulletSpeed : F
  damage : ℤ

/-- The method `Weapon::canFire(float currentTime)`; it returns the answer and
the weapon with `lastFireTime` updated on success. -/
def Weapon.canFire (w : Weapon F) (currentTime : F) : Bool × Weapon F :=
  if currentTime - w.lastFireTime ≥ 1 / w.fireRate then
    (true, { w with lastFireTime := currentTime })
  else (false, w)

/-! ## Player (`Player.h`, `Player.cpp`) -/

/-- The data members of class `Player`. -/
structure Player (F : Type) where
  pos : Vector2 F
  facing : Vector2 F
  size : F
  health : F
  maxHealth : F
  weapon : Weapon F
  bullets : List (Bullet F)
  invulnerabilityTimer : F
  muzzleFlashTimer : F
  damageTakenFlashTimer : F
  isDashing : Bool
  dashTimer : F
  dashDirection : Vector2 F
  timeSinceLastDamage : F
  regenTimer : F

/-- Constant `Player::INVULNERABILITY_DURATION = 0.5f`. -/
def INVULNERABILITY_DURATION : F := 1 / 2

/-- Constant `Player::MUZZLE_FLASH_DURATION = 0.05f`. -/
def MUZZLE_FLASH_DURATION : F := 1 / 20

/-- Constant `Player::DASH_DURATION = 0.15f`. -/
def DASH_DURATION : F := 3 / 20

/-- Constant `Player::DASH_SPEED_MULTIPLIER = 5.0f`. -/
def DASH_SPEED_MULTIPLIER : F := 5

/-- Constant `Player::REGEN_COOLDOWN = 3.0f`. -/
def REGEN_COOLDOWN : F := 3

/-- Constant `Player::REGEN_INTERVAL = 0.5f`. -/
def REGEN_INTERVAL : F := 1 / 2

/-- Constant `Player::REGEN_AMOUNT = 2.0f`. -/
def REGEN_AMOUNT : F := 2

/-- Constant `Player::DAMAGE_FLASH_DURATION = 0.1f`. -/
def DAMAGE_FLASH_DURATION : F := 1 / 10

/-- The constructor `Player::Player(startPos, startFacing, size, health, weapon)`. -/
def Player.new (rl : Raylib F) (startPos startFacing : Vector2 F) (size : F) (health : ℤ)
    (weapon : Weapon F) : Player F :=
  { pos := startPos,
    facing := if Vector2Length rl startFacing = 0 then ⟨1, 0⟩ else Vector2Normalize rl startFacing,
    size := size, health := (health : F), maxHealth := (health : F), weapon := weapon,
    bullets := [], invulnerabilityTimer := 0, muzzleFlashTimer := 0,
    damageTakenFlashTimer := 0, isDashing := false, dashTimer := 0, dashDirection := ⟨0, 0⟩,
    timeSinceLastDamage := 0, regenTimer := 0 }

/-- The method `Player::takeDamage(float amount)`. -/
def Player.takeDamage (p : Player F) (amount : F) : Player F :=
  if p.invulnerabilityTimer ≤ 0 ∧ p.health > 0 then
    { p with health := p.health - amount,
             invulnerabilityTimer := INVULNERABILITY_DURATION,
             damageTakenFlashTimer := DAMAGE_FLASH_DURATION,
             timeSinceLastDamage := 0 }
  else p

/-- The method `Player::dash(Vector2 direction)`. -/
def Player.dash (rl : Raylib F) (p : Player F) (direction : Vector2 F) : Player F :=
  if p.isDashing = false ∧ Vector2Length rl direction > 0 then
    { p with isDashing := true,
             dashTimer := DASH_DURATION,
             dashDirection := Vector2Normalize rl direction,
             invulnerabilityTimer := DASH_DURATION }
  else p

/-- The method `Player::shoot(float currentTime)`. -/
def Player.shoot (rl : Raylib F) (p : Player F) (currentTime : F) : Player F :=
  let r := p.weapon.canFire currentTime
  if r.1 then
    let bulletOrigin := Vector2Add p.pos (Vector2Scale (Vector2Normalize rl p.facing) (p.size * (4 / 5)))
    let n := Vector2Normalize rl p.facing
    let bulletVel : Vector2 F := ⟨n.x * r.2.bulletSpeed, n.y * r.2.bulletSpeed⟩
    { p with weapon := r.2,
             bullets := p.bullets ++ [Bullet.new bulletOrigin bulletVel r.2.damage],
             muzzleFlashTimer := MUZZLE_FLASH_DURATION }
  else { p with weapon := r.2 }

/-- The method `Player::updateInvulnerability(float deltaTime)`. -/
def Player.updateInvulnerability (p : Player F) (deltaTime : F) : Player F :=
  if p.invulnerabilityTimer > 0 then
    let t := p.invulnerabilityTimer - deltaTime
    { p with invulnerabilityTimer := if t < 0 then 0 else t }
  else p

/-- The method `Player::updateMuzzleFlash(float deltaTime)`. -/
def Player.updateMuzzleFlash (p : Player F) (deltaTime : F) : Player F :=
  if p.muzzleFlashTimer > 0 then
    let t := p.muzzleFlashTimer - deltaTime
    { p with muzzleFlashTimer := if t < 0 then 0 else t }
  else p

/-- The method `Player::updateDamageFlash(float deltaTime)`. -/
def Player.updateDamageFlash (p : Player F) (deltaTime : F) : Player F :=
  if p.damageTakenFlashTimer > 0 then
    let t := p.damageTakenFlashTimer - deltaTime
    { p with damageTakenFlashTimer := if t < 0 then 0 else t }
  else p

/-- The method `Player::updateDash(float deltaTime)`. -/
def Player.updateDash (p : Player F) (deltaTime : F) : Player F :=
  if p.isDashing then
    let t := p.dashTimer - deltaTime
    if t ≤ 0 then { p with isDashing := false, dashTimer := 0 }
    else
      { p with dashTimer := t,
               pos := Vector2Add p.pos
                 (Vector2Scale p.dashDirection (200 * DASH_SPEED_MULTIPLIER * deltaTime)) }
  else p

/-- The method `Player::updateHealthRegen(float deltaTime)`. -/
def Player.updateHealthRegen (p : Player F) (deltaTime : F) : Player F :=
  if p.health ≥ p.maxHealth then { p with timeSinceLastDamage := 0, regenTimer := 0 }
  else
    let p1 := { p with timeSinceLastDamage := p.timeSinceLastDamage + deltaTime }
    if p1.timeSinceLastDamage ≥ REGEN_COOLDOWN then
      let p2 := { p1 with regenTimer := p1.regenTimer + deltaTime }
      if p2.regenTimer ≥ REGEN_INTERVAL then
        let p3 := { p2 with health := p2.health + REGEN_AMOUNT,
                            regenTimer := p2.regenTimer - REGEN_INTERVAL }
        { p3 with health := CLAMP p3.health 0 p3.maxHealth }
      else p2
    else { p1 with regenTimer := 0 }

/-- The five timer and ability steps that open `Player::update`, in order. -/
def Player.updateTimers (p : Player F) (deltaTime : F) : Player F :=
  ((((p.updateInvulnerability deltaTime).updateMuzzleFlash deltaTime).updateDamageFlash
    deltaTime).updateDash deltaTime).updateHealthRegen deltaTime

/-- The contact loop of `Player::update`: one `takeDamage(20.0f * deltaTime)`
for every zombie closer than the sum of the radii. -/
def Player.contactDamage (rl : Raylib F) (p : Player F) (deltaTime : F)
    (zombies : List (Zombie F)) : Player F :=
  zombies.foldl
    (fun q zombie =>
      if Vector2Distance rl q.pos zombie.pos < q.size + zombie.size then
        q.takeDamage (20 * deltaTime)
      else q)
    p

/-- The bullet-zombie loop of `Player::update` for one bullet: the first zombie
within hit distance takes the damage and the bullet is switched off. -/
def bulletHitZombies (rl : Raylib F) (bullet : Bullet F) :
    List (Zombie F) → Bullet F × List (Zombie F)
  | [] => (bullet, [])
  | zombie :: rest =>
    if !bullet.active then (bullet, zombie :: rest)
    else if Vector2Distance rl bullet.pos zombie.pos < bullet.radius + zombie.size then
      ({ bullet with active := false }, zombie.takeDamage bullet.damage :: rest)
    else
      let r := bulletHitZombies rl bullet rest
      (r.1, zombie :: r.2)

/-- The body of the bullet loop of `Player::update` for one bullet: skip an
inactive bullet; otherwise integrate, test the zombies, then the walls, then the
screen bounds. -/
def updateBullet (rl : Raylib F) (deltaTime : F) (walls : List (Rectangle F))
    (bullet : Bullet F) (zombies : List (Zombie F)) : Bullet F × List (Zombie F) :=
  if !bullet.active then (bullet, zombies)
  else
    let r := bulletHitZombies rl (bullet.update deltaTime) zombies
    let b1 := r.1
    let b2 :=
      if b1.active ∧ walls.any (fun wall => rl.CheckCollisionPointRec b1.pos wall) then
        { b1 with active := false }
      else b1
    let b3 :=
      if b2.active ∧ (b2.pos.x < 0 ∨ b2.pos.y < 0 ∨ b2.pos.x > (rl.GetScreenWidth : F)
          ∨ b2.pos.y > (rl.GetScreenHeight : F)) then
        { b2 with active := false }
      else b2
    (b3, r.2)

/-- The bullet loop of `Player::update` over the whole collection, in index
order; the zombies are threaded through because a hit changes one of them. -/
def updateBullets (rl : Raylib F) (deltaTime : F) (walls : List (Rectangle F)) :
    List (Bullet F) → List (Zombie F) → List (Bullet F) × List (Zombie F)
  | [], zombies => ([], zombies)
  | bullet :: rest, zombies =>
    let r := updateBullet rl deltaTime walls bullet zombies
    let rs := updateBullets rl deltaTime walls rest r.2
    (r.1 :: rs.1, rs.2)

/-- The method `Player::update(deltaTime, zombies, walls)`; the second component
is the zombie collection, which the bullets may have damaged. -/
def Player.update (rl : Raylib F) (p : Player F) (deltaTime : F) (zombies : List (Zombie F))
    (walls : List (Rectangle F)) : Player F × List (Zombie F) :=
  let p1 := p.updateTimers deltaTime
  let p2 := p1.contactDamage rl deltaTime zombies
  let r := updateBullets rl deltaTime walls p2.bullets zombies
  let p3 := { p2 with bullets := r.1.filter (fun b => b.active) }
  ({ p3 with health := CLAMP p3.health 0 p3.maxHealth }, r.2)

/-! ## The update section of the game loop (`main.cpp`) -/

/-- The loop `for (auto& zombie : zombies) zombie.update(player.pos, deltaTime,
walls, player.health)`: every zombie is updated in order against the same player
position, the player health being handed from one update to the next. -/
def updateZombies (rl : Raylib F) (playerPos : Vector2 F) (deltaTime : F)
    (walls : List (Rectangle F)) : List (Zombie F) → F → List (Zombie F) × F
  | [], playerHealth => ([], playerHealth)
  | zombie :: rest, playerHealth =>
    let r := zombie.update rl playerPos deltaTime walls playerHealth
    let rs := updateZombies rl playerPos deltaTime walls rest r.2
    (r.1 :: rs.1, rs.2)

/-- The world the update section of the game loop works on. -/
structure Game (F : Type) where
  player : Player F
  zombies : List (Zombie F)
  zombiesKilled : ℤ

/-- The update section of the `PLAYING` case of `main`: `player.update`, the
zombie loop, then the removal of the dead zombies with the kill count. -/
def frameUpdate (rl : Raylib F) (g : Game F) (deltaTime : F) (walls : List (Rectangle F)) :
    Game F :=
  let r := g.player.update rl deltaTime g.zombies walls
  let rs := updateZombies rl r.1.pos deltaTime walls r.2 r.1.health
  let player := { r.1 with health := rs.2 }
  let zombies := rs.1.filter (fun z => !z.isDead)
  { player := player, zombies := zombies,
    zombiesKilled := g.zombiesKilled + ((rs.1.length : ℤ) - (zombies.length : ℤ)) }

/-! ## Geometry used to state the collision claims -/

/-- The point of the rectangle closest to `p`: each coordinate of `p` clamped to
the extent of the rectangle, as `resolveSingleWallCollision` computes it. -/
def closestPoint (p : Vector2 F) (wall : Rectangle F) : Vector2 F :=
  ⟨CLAMP p.x wall.x (wall.x + wall.width), CLAMP p.y wall.y (wall.y + wall.height)⟩

/-- The squared distance from `p` to the closest point of the rectangle; the
distance itself is at least `r > 0` exactly when this is at least `r * r`. -/
def distSqToRect (p : Vector2 F) (wall : Rectangle F) : F :=
  Vector2LengthSqr (Vector2Subtract (closestPoint p wall) p)

/-- The library square root is exact at `a`: it returns the non-negative root. -/
def SqrtExactAt (rl : Raylib F) (a : F) : Prop :=
  0 ≤ rl.sqrtf a ∧ rl.sqrtf a * rl.sqrtf a = a

/-! ## Call sequences -/

/-- One call on a zombie by its owner: `update` with its arguments, or
`takeDamage`. -/
inductive ZombieCall (F : Type) where
  | update (playerPos : Vector2 F) (deltaTime : F) (walls : List (Rectangle F))
  | takeDamage (dmg : ℤ)

/-- The frame time a call consumes: `deltaTime` for `update`, none for
`takeDamage`. -/
def ZombieCall.deltaTime : ZombieCall F → F
  | ZombieCall.update _ deltaTime _ => deltaTime
  | ZombieCall.takeDamage _ => 0

/-- One call applied to a zombie together with the player health it may write. -/
def Zombie.call (rl : Raylib F) (s : Zombie F × F) : ZombieCall F → Zombie F × F
  | ZombieCall.update playerPos deltaTime walls => s.1.update rl playerPos deltaTime walls s.2
  | ZombieCall.takeDamage dmg => (s.1.takeDamage dmg, s.2)

/-- A sequence of calls applied from left to right. -/
def Zombie.calls (rl : Raylib F) (s : Zombie F × F) (cs : List (ZombieCall F)) : Zombie F × F :=
  cs.foldl (Zombie.call rl) s

/-- The frame time a sequence of calls consumes. -/
def callsTime (cs : List (ZombieCall F)) : F := (cs.map ZombieCall.deltaTime).sum

/-- The number of calls of a sequence at which the zombie enters `DYING`, that
is, is not `DYING` before the call and is `DYING` after it. -/
def dyingEntries (rl : Raylib F) : Zombie F × F → List (ZombieCall F) → ℕ
  | _, [] => 0
  | s, c :: cs =>
    (if s.1.currentState ≠ ZombieState.DYING
        ∧ (Zombie.call rl s c).1.currentState = ZombieState.DYING then 1 else 0)
      + dyingEntries rl (Zombie.call rl s c) cs

/-- The arguments of one `Player::update` call. -/
structure Frame (F : Type) where
  deltaTime : F
  zombies : List (Zombie F)
  walls : List (Rectangle F)

/-- A sequence of `Player::update` calls applied from left to right. -/
def Player.updates (rl : Raylib F) (p : Player F) (frames : List (Frame F)) : Player F :=
  frames.foldl (fun q f => (q.update rl f.deltaTime f.zombies f.walls).1) p

/-- The total frame time of a sequence of `Player::update` calls. -/
def framesTime (frames : List (Frame F)) : F := (frames.map Frame.deltaTime).sum

/-- No zombie of the frame touches the player in the contact loop of that
`Player::update` call, so the loop calls `takeDamage` for none of them. -/
def Player.noContact (rl : Raylib F) (p : Player F) (f : Frame F) : Prop :=
  ∀ z ∈ f.zombies,
    ¬ (Vector2Distance rl (p.updateTimers f.deltaTime).pos z.pos
        < (p.updateTimers f.deltaTime).size + z.size)

/-- No frame of the sequence has a zombie in contact with the player. -/
def Player.noContacts (rl : Raylib F) : Player F → List (Frame F) → Prop
  | _, [] => True
  | p, f :: fs =>
    p.noContact rl f ∧ Player.noContacts rl (p.update rl f.deltaTime f.zombies f.walls).1 fs

/-- The regeneration bookkeeping of a player that started at health 50 of 100
and has since been updated for `T` seconds, at most 4, in steps shorter than
`REGEN_INTERVAL` without taking damage: before the cooldown nothing has
happened; after it the ticks so far (`(health - 50) / 2` of them) and the
accumulator together hold the time elapsed since the update before the one that
crossed the cooldown, which lies strictly between `T - 3` and `T - 5/2`. -/
def RegenInv (p : Player F) (T : F) : Prop :=
  p.maxHealth = 100 ∧ p.timeSinceLastDamage = T ∧
    ((T < 3 ∧ p.health = 50 ∧ p.regenTimer = 0)
      ∨ (3 ≤ T ∧ 0 ≤ p.regenTimer ∧ p.regenTimer < 1 / 2
          ∧ (p.health = 50 ∨ p.health = 52 ∨ p.health = 54)
          ∧ T - 3 < p.regenTimer + (p.health - 50) / 4
          ∧ p.regenTimer + (p.health - 50) / 4 < T - 5 / 2))

/-! ## Predicates used to state the bullet claims -/

/-- The bullet, at its current position, is within hit distance of the zombie:
the test of the bullet-zombie loop of `Player::update`. -/
def bulletHits (rl : Raylib F) (b : Bullet F) (z : Zombie F) : Bool :=
  decide (Vector2Distance rl b.pos z.pos < b.radius + z.size)

/-- The bullet, at its current position, is within hit distance of no zombie,
inside no wall and within the screen bounds `0 <= x <= W`, `0 <= y <= H`. -/
def bulletSurvives (rl : Raylib F) (zombies : List (Zombie F)) (walls : List (Rectangle F))
    (b : Bullet F) : Bool :=
  !(zombies.any (fun z => bulletHits rl b z))
    && !(walls.any (fun wall => rl.CheckCollisionPointRec b.pos wall))
    && decide (0 ≤ b.pos.x ∧ b.pos.x ≤ (rl.GetScreenWidth : F)
        ∧ 0 ≤ b.pos.y ∧ b.pos.y ≤ (rl.GetScreenHeight : F))

/-! ## Predicates used to state the zombie claims -/

/-- The test of `handleAttackingState` as `Zombie::update` reaches it: the
zombie starts the update in `ATTACKING`, the player is inside the attack range
and the cooldown, after `updateTimers`, is ready. Under it the update executes
`playerHealth -= damage`. -/
def Zombie.meleeHits (rl : Raylib F) (z : Zombie F) (playerPos : Vector2 F) (deltaTime : F) :
    Bool :=
  decide (z.currentState = ZombieState.ATTACKING
    ∧ Vector2Distance rl z.pos playerPos < z.size + 20 - ZOMBIE_ATTACK_RANGE_BUFFER
    ∧ (z.updateTimers deltaTime).attackCooldownTimer ≤ 0)

/-- The zombie keeps the `maxHealth` it was built with, and once `DEAD` its
health lies in `[0, maxHealth]`. -/
def ZombieHealthInv (h : ℤ) (z : Zombie F) : Prop :=
  z.maxHealth = h ∧ (z.currentState = ZombieState.DEAD → 0 ≤ z.health ∧ z.health ≤ h)

/-! ## Call sequences on the player -/

/-- One call on the player by its owner: `dash`, `takeDamage`, `shoot`, or
`update` with its arguments. -/
inductive PlayerCall (F : Type) where
  | dash (direction : Vector2 F)
  | takeDamage (amount : F)
  | shoot (currentTime : F)
  | update (deltaTime : F) (zombies : List (Zombie F)) (walls : List (Rectangle F))

/-- One call applied to a player. -/
def Player.call (rl : Raylib F) (p : Player F) : PlayerCall F → Player F
  | PlayerCall.dash direction => p.dash rl direction
  | PlayerCall.takeDamage amount => p.takeDamage amount
  | PlayerCall.shoot currentTime => p.shoot rl currentTime
  | PlayerCall.update deltaTime zombies walls => (p.update rl deltaTime zombies walls).1

/-- A sequence of calls applied to a player from left to right. -/
def Player.calls (rl : Raylib F) (p : Player F) (cs : List (PlayerCall F)) : Player F :=
  cs.foldl (Player.call rl) p

/-- While a dash is active the dash timer is positive and the invulnerability
timer is at least the dash timer. -/
def DashInv (p : Player F) : Prop :=
  p.isDashing = true → p.dashTimer ≤ p.invulnerabilityTimer ∧ 0 < p.dashTimer

/-! ## The path of a dash -/

/-- The player is on the path of one dash: it has come `s` along the dash
direction `D` from the point `P`, with `0 <= s` short of the full dash length,
and while the dash is active the dash timer holds what is left of
`DASH_DURATION` at the dash speed. -/
def DashPath (P D : Vector2 F) (p : Player F) (s : F) : Prop :=
  p.dashDirection = D ∧ p.pos = Vector2Add P (Vector2Scale D s) ∧ 0 ≤ s
    ∧ s < 200 * DASH_SPEED_MULTIPLIER * DASH_DURATION
    ∧ (p.isDashing = true →
        p.dashTimer = DASH_DURATION - s / (200 * DASH_SPEED_MULTIPLIER) ∧ 0 < p.dashTimer)

end Core

/-! ## A concrete library for evaluation -/

/-- The circle-rectangle overlap test as raylib 5 computes it. -/
def checkCollisionCircleRec (center : Vector2 ℚ) (radius : ℚ) (rec : Rectangle ℚ) : Bool :=
  let recCenterX := rec.x + rec.width / 2
  let recCenterY := rec.y + rec.height / 2
  let dx := |center.x - recCenterX|
  let dy := |center.y - recCenterY|
  if dx > rec.width / 2 + radius then false
  else if dy > rec.height / 2 + radius then false
  else if dx ≤ rec.width / 2 then true
  else if dy ≤ rec.height / 2 then true
  else
    decide ((dx - rec.width / 2) * (dx - rec.width / 2)
      + (dy - rec.height / 2) * (dy - rec.height / 2) ≤ radius * radius)

/-- The point-in-rectangle test as raylib 5 computes it. -/
def checkCollisionPointRec (point : Vector2 ℚ) (rec : Rectangle ℚ) : Bool :=
  decide (point.x ≥ rec.x ∧ point.x < rec.x + rec.width ∧ point.y ≥ rec.y
    ∧ point.y < rec.y + rec.height)

/-- A library over the rationals for evaluating the model on sample inputs: the
square root is `Rat.sqrt`, exact on squares of rationals, and the screen is the
1200 x 800 window `main` opens. -/
def sampleRaylib : Raylib ℚ :=
  { sqrtf := Rat.sqrt,
    CheckCollisionCircleRec := checkCollisionCircleRec,
    CheckCollisionPointRec := checkCollisionPointRec,
    GetScreenWidth := 1200,
    GetScreenHeight := 800 }

/-! ## Sample inputs -/

/-- The weapon `CreatePistol()` of `WeaponTypes.cpp`. -/
def CreatePistol : Weapon ℚ :=
  { fireRate := 3, lastFireTime := 0, bulletSpeed := 600, damage := 20 }

/-- The player as `main` constructs it: centre of the screen, facing right,
radius 20, health 100. -/
def freshPlayer : Player ℚ :=
  Player.new sampleRaylib ⟨600, 400⟩ ⟨1, 0⟩ 20 100 CreatePistol

/-- A tank zombie in ATTACKING, three pixels to the right of the fresh player. -/
def attackingTank : Zombie ℚ :=
  { TankZombie ⟨603, 400⟩ with currentState := ZombieState.ATTACKING }

/-- A game in which the player, at health 80, has a full invulnerability window
left and a tank zombie is attacking. -/
def invulnerableGame : Game ℚ :=
  { player := { freshPlayer with health := 80, invulnerabilityTimer := 1 / 2 },
    zombies := [attackingTank],
    zombiesKilled := 0 }

/-- A game in which the player is down to health 10 and a tank zombie is
attacking. -/
def woundedGame : Game ℚ :=
  { player := { freshPlayer with health := 10 },
    zombies := [attackingTank],
    zombiesKilled := 0 }

/-- A wall 100 wide and 10 high at the origin. -/
def flatWall : Rectangle ℚ := ⟨0, 0, 100, 10⟩

/-- A zombie of health 10 that has received `takeDamage(15)`. -/
def lethallyHitZombie : Zombie ℚ := (Zombie.new ⟨0, 0⟩ 120 10 5 15).takeDamage 15

/-- The lethally hit zombie after its next update: it has just entered DYING. -/
def dyingZombie : Zombie ℚ := (lethallyHitZombie.update sampleRaylib ⟨3, 4⟩ (1 / 60) [] 100).1

/-- Calls on a dying zombie that consume a quarter of a second. -/
def quarterSecondCalls : List (ZombieCall ℚ) :=
  [ZombieCall.takeDamage 7, ZombieCall.update ⟨3, 4⟩ (1 / 4) [], ZombieCall.takeDamage 3]

/-- The dying zombie after the quarter-second calls and one more update of a
quarter of a second: its death sequence is over. -/
def deadZombie : Zombie ℚ :=
  (Zombie.calls sampleRaylib (dyingZombie, 100)
    (quarterSecondCalls ++ [ZombieCall.update ⟨3, 4⟩ (1 / 4) []])).1

/-- The fresh player at health 50. -/
def halfHealthPlayer : Player ℚ := { freshPlayer with health := 50 }

/-- Two long frames without zombies: 3 seconds, then half a second. -/
def coarseFrames : List (Frame ℚ) := [⟨3, [], []⟩, ⟨1 / 2, [], []⟩]

/-- Frames of a quarter of a second without zombies. -/
def quarterFrames (n : ℕ) : List (Frame ℚ) := List.replicate n ⟨1 / 4, [], []⟩

/-- The fresh player with a tenth of a second of invulnerability left. -/
def brieflyInvulnerablePlayer : Player ℚ := { freshPlayer with invulnerabilityTimer := 1 / 10 }

/-- One frame of a fifth of a second without zombies. -/
def fifthSecondFrame : List (Frame ℚ) := [⟨1 / 5, [], []⟩]

/-- The fresh player right after an accepted `takeDamage(10)`: health 90 and a
full invulnerability window. -/
def justHitPlayer : Player ℚ := freshPlayer.takeDamage 10

/-- A fast zombie in ATTACKING, 32 to the right of the fresh player: outside the
engagement threshold 15 + 20 - 5 = 30 but inside 15 + 20 = 35. -/
def hoveringFast : Zombie ℚ :=
  { FastZombie ⟨632, 400⟩ with currentState := ZombieState.ATTACKING }

/-- The attacking tank with its attack cooldown still running. -/
def coolingTank : Zombie ℚ := { attackingTank with attackCooldownTimer := 1 }

/-- A fast zombie in CHASING that already stands 3 to the right of the fresh
player. -/
def arrivingFast : Zombie ℚ := FastZombie ⟨603, 400⟩

/-- A bullet fired to the right from the centre of the screen. -/
def flyingBullet : Bullet ℚ := Bullet.new ⟨600, 400⟩ ⟨600, 0⟩ 20

/-- Three fast zombies: one 18 above the point (610, 400), out of hit distance,
then two within hit distance of it. -/
def zombieRow : List (Zombie ℚ) :=
  [FastZombie ⟨610, 382⟩, FastZombie ⟨613, 400⟩, FastZombie ⟨610, 404⟩]

/-- A wall that contains the point (610, 400). -/
def coveringWall : Rectangle ℚ := ⟨600, 390, 20, 20⟩

/-- A small zombie (radius 2) at (13, 10). -/
def smallZombie : Zombie ℚ := Zombie.new ⟨13, 10⟩ 120 50 5 2

/-- A player at (10, 10) with three bullets in flight: the first reaches (11, 10),
within hit distance of the small zombie; the second reaches (-1, 1), left of the
screen; the third reaches (20, 11), clear of everything. -/
def shootingPlayer : Player ℚ :=
  { freshPlayer with
      pos := ⟨10, 10⟩,
      bullets := [Bullet.new ⟨10, 10⟩ ⟨60, 0⟩ 20, Bullet.new ⟨1, 1⟩ ⟨-120, 0⟩ 20,
        Bullet.new ⟨20, 10⟩ ⟨0, 60⟩ 20] }

/-- A game in which the player took contact damage 0.4 s ago (health 80, a
tenth of a second of invulnerability left, `timeSinceLastDamage` 0.4) and a tank
zombie is attacking. -/
def recentlyHitGame : Game ℚ :=
  { player := { freshPlayer with health := 80, invulnerabilityTimer := 1 / 10,
                                 timeSinceLastDamage := 2 / 5 },
    zombies := [attackingTank],
    zombiesKilled := 0 }

/-- Frames of 0.7 s without zombies. -/
def longFrames (n : ℕ) : List (Frame ℚ) := List.replicate n ⟨7 / 10, [], []⟩

/-- A tank zombie in `ATTACKING`, three units from the player position
`(600, 400)`, that a bullet has just taken to health `-50`; it has not been
updated since. -/
def lethallyHitTank : Zombie ℚ := attackingTank.takeDamage 250

/-- The tank zombie after it has hit the player (which re-arms its attack
cooldown), been killed by a bullet and been updated once more: it is `DYING`
with the attack cooldown still counting down. -/
def dyingCoolingTank : Zombie ℚ :=
  (Zombie.calls sampleRaylib (attackingTank, 100)
    [ZombieCall.update ⟨600, 400⟩ (1 / 60) [], ZombieCall.takeDamage 250,
      ZombieCall.update ⟨600, 400⟩ (1 / 60) []]).1

/-- A lethal hit on a zombie of health 10, the update that starts its death
sequence and a long update that ends it. -/
def lethalCalls : List (ZombieCall ℚ) :=
  [ZombieCall.takeDamage 15, ZombieCall.update ⟨3, 4⟩ (1 / 60) [],
    ZombieCall.update ⟨3, 4⟩ 1 []]

/-- Two half-second updates of a zombie against the player position
`(600, 400)`. -/
def halfSecondCalls : List (ZombieCall ℚ) :=
  [ZombieCall.update ⟨600, 400⟩ (1 / 2) [], ZombieCall.update ⟨600, 400⟩ (1 / 2) []]

/-- The fresh player at health 80. -/
def scratchedPlayer : Player ℚ := { freshPlayer with health := 80 }

/-- The calls `takeDamage(150)`, `dash`, `shoot`. -/
def roughCalls : List (PlayerCall ℚ) :=
  [PlayerCall.takeDamage 150, PlayerCall.dash ⟨1, 0⟩, PlayerCall.shoot 1]

/-- A dash to the right, a hundredth of a second of update next to the
attacking tank, and a hit. -/
def dashCalls : List (PlayerCall ℚ) :=
  [PlayerCall.dash ⟨1, 0⟩, PlayerCall.update (1 / 100) [attackingTank] [],
    PlayerCall.takeDamage 10]

/-- A fast zombie that stood at (613, 400), was killed by a bullet and has
entered `DYING` in its next update. -/
def dyingFast : Zombie ℚ :=
  (((FastZombie ⟨613, 400⟩).takeDamage 50).update sampleRaylib ⟨613, 400⟩ (1 / 60) [] 100).1

/-- Three zombies: one 18 above the point (610, 400), out of hit distance, then
the dying one and a healthy one, both within hit distance of it. -/
def dyingRow : List (Zombie ℚ) :=
  [FastZombie ⟨610, 382⟩, dyingFast, FastZombie ⟨610, 404⟩]

/-- Four frames of a twentieth of a second without zombies, the covering wall
standing in the path of the dash. -/
def dashFrames : List (Frame ℚ) := List.replicate 4 ⟨1 / 20, [], [coveringWall]⟩

/-! ## Zombie: structural facts about `takeDamage` and `update` -/

section ZombieFacts

variable {F : Type} [LinearOrderedField F]

lemma Zombie.updateTimers_currentState (z : Zombie F) (dt : F) :
    (z.updateTimers dt).currentState = z.currentState := by
  unfold Zombie.updateTimers; simp only; split_ifs <;> rfl

lemma Zombie.updateTimers_health (z : Zombie F) (dt : F) :
    (z.updateTimers dt).health = z.health := by
  unfold Zombie.updateTimers; simp only; split_ifs <;> rfl

lemma Zombie.updateTimers_maxHealth (z : Zombie F) (dt : F) :
    (z.updateTimers dt).maxHealth = z.maxHealth := by
  unfold Zombie.updateTimers; simp only; split_ifs <;> rfl

lemma Zombie.updateTimers_deathTimer (z : Zombie F) (dt : F) :
    (z.updateTimers dt).deathTimer = z.deathTimer := by
  unfold Zombie.updateTimers; simp only; split_ifs <;> rfl

lemma Zombie.updateTimers_pos (z : Zombie F) (dt : F) :
    (z.updateTimers dt).pos = z.pos := by
  unfold Zombie.updateTimers; simp only; split_ifs <;> rfl

lemma Zombie.updateSwitch_health (rl : Raylib F) (z : Zombie F) (pp : Vector2 F) (dt : F)
    (walls : List (Rectangle F)) (ph : F) :
    (z.updateSwitch rl pp dt walls ph).1.health = z.health := by
  unfold Zombie.updateSwitch Zombie.handleChasingState Zombie.handleAttackingState
    Zombie.handleDyingState
  split <;> simp only <;> split_ifs <;> rfl

lemma Zombie.updateSwitch_maxHealth (rl : Raylib F) (z : Zombie F) (pp : Vector2 F) (dt : F)
    (walls : List (Rectangle F)) (ph : F) :
    (z.updateSwitch rl pp dt walls ph).1.maxHealth = z.maxHealth := by
  unfold Zombie.updateSwitch Zombie.handleChasingState Zombie.handleAttackingState
    Zombie.handleDyingState
  split <;> simp only <;> split_ifs <;> rfl

lemma Zombie.updateSwitch_alive (rl : Raylib F) (z : Zombie F) (pp : Vector2 F) (dt : F)
    (walls : List (Rectangle F)) (ph : F)
    (hs : z.currentState = ZombieState.CHASING ∨ z.currentState = ZombieState.ATTACKING) :
    (z.updateSwitch rl pp dt walls ph).1.currentState = ZombieState.CHASING
      ∨ (z.updateSwitch rl pp dt walls ph).1.currentState = ZombieState.ATTACKING := by
  unfold Zombie.updateSwitch Zombie.handleChasingState Zombie.handleAttackingState
  split <;> rename_i h <;> simp only [h] at hs ⊢ <;> first
    | (split_ifs <;> simp_all)
    | simp_all

lemma CLAMP_of_nonpos {lo hi v : ℤ} (hv : v ≤ lo) (hm : lo ≤ hi) : CLAMP v lo hi = lo := by
  unfold CLAMP
  split_ifs with h1 h2
  · rfl
  · omega
  · omega

lemma Zombie.update_dead (rl : Raylib F) (z : Zombie F) (pp : Vector2 F) (dt : F)
    (walls : List (Rectangle F)) (ph : F) (h : z.currentState = ZombieState.DEAD) :
    z.update rl pp dt walls ph = (z, ph) := by
  unfold Zombie.update; simp [h]

lemma Zombie.takeDamage_of_dying_or_dead (z : Zombie F) (dmg : ℤ)
    (h : z.currentState = ZombieState.DYING ∨ z.currentState = ZombieState.DEAD) :
    z.takeDamage dmg = z := by
  unfold Zombie.takeDamage; simp [h]

lemma Zombie.update_dying_fields (rl : Raylib F) (z : Zombie F) (pp : Vector2 F) (dt : F)
    (walls : List (Rectangle F)) (ph : F) (h : z.currentState = ZombieState.DYING) :
    (z.update rl pp dt walls ph).2 = ph
      ∧ (z.update rl pp dt walls ph).1.deathTimer = z.deathTimer - dt
      ∧ (z.update rl pp dt walls ph).1.currentState
          = (if z.deathTimer - dt ≤ 0 then ZombieState.DEAD else ZombieState.DYING)
      ∧ (z.update rl pp dt walls ph).1.pos = z.pos := by
  have hT := z.updateTimers_currentState dt
  have hD := z.updateTimers_deathTimer dt
  have hP := z.updateTimers_pos dt
  rw [h] at hT
  unfold Zombie.update Zombie.updateSwitch Zombie.healthCheck Zombie.handleDyingState
  simp only [h, hT, hD, hP]
  simp only [reduceCtorEq, if_false]
  split_ifs <;> simp_all

lemma Zombie.healthCheck_lethal (z : Zombie F) (hhealth : z.health ≤ 0)
    (hstate : z.currentState = ZombieState.CHASING ∨ z.currentState = ZombieState.ATTACKING) :
    z.healthCheck.currentState = ZombieState.DYING
      ∧ z.healthCheck.deathTimer = ZOMBIE_DEATH_DURATION
      ∧ z.healthCheck.explosionRadius = 0
      ∧ z.healthCheck.explosionAlpha = 1
      ∧ z.healthCheck.health = CLAMP z.health 0 z.maxHealth := by
  have hcond : z.health ≤ 0 ∧ z.currentState ≠ ZombieState.DYING
      ∧ z.currentState ≠ ZombieState.DEAD := by
    refine ⟨hhealth, ?_, ?_⟩ <;> rcases hstate with h | h <;> simp [h]
  unfold Zombie.healthCheck
  rw [if_pos hcond]
  exact ⟨rfl, rfl, rfl, rfl, rfl⟩

lemma callsTime_cons (c : ZombieCall F) (cs : List (ZombieCall F)) :
    callsTime (c :: cs) = c.deltaTime + callsTime cs := by
  simp [callsTime]

lemma callsTime_append (cs ds : List (ZombieCall F)) :
    callsTime (cs ++ ds) = callsTime cs + callsTime ds := by
  simp [callsTime]

lemma callsTime_nonneg (cs : List (ZombieCall F)) (h : ∀ c ∈ cs, 0 ≤ c.deltaTime) :
    0 ≤ callsTime cs := by
  unfold callsTime
  apply List.sum_nonneg
  intro x hx
  obtain ⟨c, hc, rfl⟩ := List.mem_map.1 hx
  exact h c hc

lemma Zombie.calls_cons (rl : Raylib F) (s : Zombie F × F) (c : ZombieCall F)
    (cs : List (ZombieCall F)) :
    Zombie.calls rl s (c :: cs) = Zombie.calls rl (Zombie.call rl s c) cs := rfl

lemma Zombie.calls_append (rl : Raylib F) (s : Zombie F × F) (cs ds : List (ZombieCall F)) :
    Zombie.calls rl s (cs ++ ds) = Zombie.calls rl (Zombie.calls rl s cs) ds := by
  simp [Zombie.calls, List.foldl_append]

lemma Zombie.call_of_dead (rl : Raylib F) (s : Zombie F × F) (c : ZombieCall F)
    (h : s.1.currentState = ZombieState.DEAD) : Zombie.call rl s c = s := by
  cases c with
  | update pp dt walls => exact Zombie.update_dead rl s.1 pp dt walls s.2 h
  | takeDamage dmg =>
    show (s.1.takeDamage dmg, s.2) = s
    rw [Zombie.takeDamage_of_dying_or_dead s.1 dmg (Or.inr h)]

lemma Zombie.call_takeDamage_of_dying (rl : Raylib F) (s : Zombie F × F) (dmg : ℤ)
    (h : s.1.currentState = ZombieState.DYING) :
    Zombie.call rl s (ZombieCall.takeDamage dmg) = s := by
  show (s.1.takeDamage dmg, s.2) = s
  rw [Zombie.takeDamage_of_dying_or_dead s.1 dmg (Or.inl h)]

lemma Zombie.call_dying_or_dead (rl : Raylib F) (s : Zombie F × F) (c : ZombieCall F)
    (h : s.1.currentState = ZombieState.DYING ∨ s.1.currentState = ZombieState.DEAD) :
    (Zombie.call rl s c).1.currentState = ZombieState.DYING
      ∨ (Zombie.call rl s c).1.currentState = ZombieState.DEAD := by
  rcases h with h | h
  · cases c with
    | update pp dt walls =>
      obtain ⟨-, -, h3, -⟩ := Zombie.update_dying_fields rl s.1 pp dt walls s.2 h
      have e : Zombie.call rl s (ZombieCall.update pp dt walls)
          = s.1.update rl pp dt walls s.2 := rfl
      rw [e, h3]
      split_ifs
      · exact Or.inr rfl
      · exact Or.inl rfl
    | takeDamage dmg =>
      rw [Zombie.call_takeDamage_of_dying rl s dmg h]
      exact Or.inl h
  · rw [Zombie.call_of_dead rl s c h]
    exact Or.inr h

lemma Zombie.calls_dying_or_dead (rl : Raylib F) (cs : List (ZombieCall F)) :
    ∀ s : Zombie F × F,
      s.1.currentState = ZombieState.DYING ∨ s.1.currentState = ZombieState.DEAD →
      (Zombie.calls rl s cs).1.currentState = ZombieState.DYING
        ∨ (Zombie.calls rl s cs).1.currentState = ZombieState.DEAD := by
  induction cs with
  | nil => intro s h; exact h
  | cons c cs ih =>
    intro s h
    rw [Zombie.calls_cons]
    exact ih _ (Zombie.call_dying_or_dead rl s c h)

lemma Zombie.calls_dying (rl : Raylib F) (cs : List (ZombieCall F)) :
    ∀ s : Zombie F × F, s.1.currentState = ZombieState.DYING →
      (∀ c ∈ cs, 0 ≤ c.deltaTime) → callsTime cs < s.1.deathTimer →
      (Zombie.calls rl s cs).1.currentState = ZombieState.DYING
        ∧ (Zombie.calls rl s cs).1.deathTimer = s.1.deathTimer - callsTime cs := by
  induction cs with
  | nil => intro s h _ _; simp [Zombie.calls, callsTime, h]
  | cons c cs ih =>
    intro s h hdt hlt
    have hc : 0 ≤ c.deltaTime := hdt c (List.mem_cons_self _ _)
    have hcs : ∀ d ∈ cs, 0 ≤ d.deltaTime := fun d hd => hdt d (List.mem_cons_of_mem _ hd)
    have hnn := callsTime_nonneg cs hcs
    rw [callsTime_cons] at hlt
    rw [Zombie.calls_cons, callsTime_cons]
    cases c with
    | update pp dt walls =>
      obtain ⟨-, h2, h3, -⟩ := Zombie.update_dying_fields rl s.1 pp dt walls s.2 h
      have hpos : ¬ (s.1.deathTimer - dt ≤ 0) := by
        have : callsTime cs < s.1.deathTimer - dt := by
          have e : (ZombieCall.update pp dt walls).deltaTime = dt := rfl
          rw [e] at hlt; linarith
        linarith
      rw [if_neg hpos] at h3
      have := ih (Zombie.call rl s (ZombieCall.update pp dt walls)) h3
        hcs (by
          show callsTime cs < (s.1.update rl pp dt walls s.2).1.deathTimer
          rw [h2]
          have e : (ZombieCall.update pp dt walls).deltaTime = dt := rfl
          rw [e] at hlt; linarith)
      refine ⟨this.1, ?_⟩
      rw [this.2]
      show (s.1.update rl pp dt walls s.2).1.deathTimer - callsTime cs = _
      rw [h2]
      have e : (ZombieCall.update pp dt walls).deltaTime = dt := rfl
      rw [e]; ring
    | takeDamage dmg =>
      rw [Zombie.call_takeDamage_of_dying rl s dmg h]
      have e : (ZombieCall.takeDamage dmg : ZombieCall F).deltaTime = 0 := rfl
      rw [e] at hlt ⊢
      have := ih s h hcs (by linarith)
      refine ⟨this.1, ?_⟩
      rw [this.2]; ring

lemma dyingEntries_of_dying_or_dead (rl : Raylib F) (cs : List (ZombieCall F)) :
    ∀ s : Zombie F × F,
      s.1.currentState = ZombieState.DYING ∨ s.1.currentState = ZombieState.DEAD →
      dyingEntries rl s cs = 0 := by
  induction cs with
  | nil => intro s _; rfl
  | cons c cs ih =>
    intro s h
    unfold dyingEntries
    rw [ih _ (Zombie.call_dying_or_dead rl s c h)]
    rcases h with h | h
    · simp [h]
    · rw [Zombie.call_of_dead rl s c h]
      simp [h]

lemma dyingEntries_le_one (rl : Raylib F) (cs : List (ZombieCall F)) :
    ∀ s : Zombie F × F, dyingEntries rl s cs ≤ 1 := by
  induction cs with
  | nil => intro s; simp [dyingEntries]
  | cons c cs ih =>
    intro s
    unfold dyingEntries
    split_ifs with h
    · rw [dyingEntries_of_dying_or_dead rl cs _ (Or.inl h.2)]
    · have := ih (Zombie.call rl s c)
      omega

end ZombieFacts

/-! ## The collision resolver -/

section Resolver

variable {F : Type} [LinearOrderedField F]

lemma CLAMP_mem {lo hi : F} (x : F) (h : lo ≤ hi) : lo ≤ CLAMP x lo hi ∧ CLAMP x lo hi ≤ hi := by
  unfold CLAMP
  split_ifs with h1 h2
  · exact ⟨le_refl _, h⟩
  · exact ⟨h, le_refl _⟩
  · exact ⟨not_lt.1 h1, not_lt.1 h2⟩

lemma CLAMP_of_mem {lo hi x : F} (h1 : lo ≤ x) (h2 : x ≤ hi) : CLAMP x lo hi = x := by
  unfold CLAMP
  rw [if_neg (not_lt.2 h1), if_neg (not_lt.2 h2)]

lemma CLAMP_push (lo hi x k : F) (h : lo ≤ hi) (hk : 0 ≤ k) :
    CLAMP (x + (x - CLAMP x lo hi) * k) lo hi = CLAMP x lo hi := by
  unfold CLAMP
  by_cases h1 : x < lo
  · have hneg : (x - lo) * k ≤ 0 := mul_nonpos_of_nonpos_of_nonneg (by linarith) hk
    rw [if_pos h1, if_pos (by linarith)]
  · rw [if_neg h1]
    by_cases h2 : x > hi
    · have hpos : 0 ≤ (x - hi) * k := mul_nonneg (by linarith) hk
      rw [if_pos h2, if_neg (by linarith), if_pos (by linarith)]
    · rw [if_neg h2]
      simp only [sub_self, zero_mul, add_zero]
      rw [if_neg h1, if_neg h2]

lemma resolve_of_no_check (rl : Raylib F) (c : Vector2 F) (r : F) (wall : Rectangle F)
    (h : rl.CheckCollisionCircleRec c r wall = false) :
    resolveSingleWallCollision rl c r wall = c := by
  unfold resolveSingleWallCollision; simp [h]

lemma resolve_of_far (rl : Raylib F) (c : Vector2 F) (r : F) (wall : Rectangle F)
    (h : ¬ rl.sqrtf (distSqToRect c wall) < r) :
    resolveSingleWallCollision rl c r wall = c := by
  unfold resolveSingleWallCollision
  split_ifs with h1
  · rfl
  · simp only [Vector2Length]
    rw [if_neg]
    exact h

lemma resolve_of_inside (rl : Raylib F) (c : Vector2 F) (r : F) (wall : Rectangle F)
    (hchk : rl.CheckCollisionCircleRec c r wall = true)
    (hlt : rl.sqrtf (distSqToRect c wall) < r) (hzero : rl.sqrtf (distSqToRect c wall) = 0)
    (hx : CLAMP c.x wall.x (wall.x + wall.width) = c.x)
    (hy : CLAMP c.y wall.y (wall.y + wall.height) = c.y) :
    resolveSingleWallCollision rl c r wall = ⟨c.x, wall.y + wall.height + r⟩ := by
  have hlt2 : Vector2Length rl (Vector2Subtract
      ⟨CLAMP c.x wall.x (wall.x + wall.width), CLAMP c.y wall.y (wall.y + wall.height)⟩ c) < r :=
    hlt
  have hzero2 : Vector2Length rl (Vector2Subtract
      ⟨CLAMP c.x wall.x (wall.x + wall.width), CLAMP c.y wall.y (wall.y + wall.height)⟩ c) = 0 :=
    hzero
  unfold resolveSingleWallCollision
  simp only [hchk, Bool.not_true, Bool.false_eq_true, if_false, if_pos hlt2, if_pos hzero2]
  simp only [hx, hy, sub_self, abs_zero, sub_zero, lt_self_iff_false, if_false]

lemma resolve_of_near (rl : Raylib F) (c : Vector2 F) (r : F) (wall : Rectangle F)
    (hchk : rl.CheckCollisionCircleRec c r wall = true)
    (hlt : rl.sqrtf (distSqToRect c wall) < r) (hpos : 0 < rl.sqrtf (distSqToRect c wall)) :
    resolveSingleWallCollision rl c r wall
      = ⟨c.x + (c.x - (closestPoint c wall).x)
            * ((r - rl.sqrtf (distSqToRect c wall)) / rl.sqrtf (distSqToRect c wall)),
          c.y + (c.y - (closestPoint c wall).y)
            * ((r - rl.sqrtf (distSqToRect c wall)) / rl.sqrtf (distSqToRect c wall))⟩ := by
  have hlt2 : Vector2Length rl (Vector2Subtract
      ⟨CLAMP c.x wall.x (wall.x + wall.width), CLAMP c.y wall.y (wall.y + wall.height)⟩ c) < r :=
    hlt
  have hne : ¬ Vector2Length rl (Vector2Subtract
      ⟨CLAMP c.x wall.x (wall.x + wall.width), CLAMP c.y wall.y (wall.y + wall.height)⟩ c) = 0 :=
    ne_of_gt hpos
  have harg : (-(CLAMP c.x wall.x (wall.x + wall.width) - c.x))
        * (-(CLAMP c.x wall.x (wall.x + wall.width) - c.x))
      + (-(CLAMP c.y wall.y (wall.y + wall.height) - c.y))
        * (-(CLAMP c.y wall.y (wall.y + wall.height) - c.y)) = distSqToRect c wall := by
    simp only [distSqToRect, Vector2LengthSqr, Vector2Subtract, closestPoint]; ring
  unfold resolveSingleWallCollision
  simp only [hchk, Bool.not_true, Bool.false_eq_true, if_false, if_pos hlt2, if_neg hne]
  simp only [Vector2Normalize, Vector2Negate, Vector2Subtract, harg, gt_iff_lt, if_pos hpos,
    Vector2Add, Vector2Scale, Vector2Length, closestPoint]
  have harg2 : (CLAMP c.x wall.x (wall.x + wall.width) - c.x)
        * (CLAMP c.x wall.x (wall.x + wall.width) - c.x)
      + (CLAMP c.y wall.y (wall.y + wall.height) - c.y)
        * (CLAMP c.y wall.y (wall.y + wall.height) - c.y) = distSqToRect c wall := by
    simp only [distSqToRect, Vector2LengthSqr, Vector2Subtract, closestPoint]
  rw [harg2]
  congr 1 <;> field_simp

lemma sq_sum_eq_zero {a b : F} (h : a * a + b * b = 0) : a = 0 ∧ b = 0 := by
  have ha : 0 ≤ a * a := mul_self_nonneg a
  have hb : 0 ≤ b * b := mul_self_nonneg b
  have ha0 : a * a = 0 := by linarith
  have hb0 : b * b = 0 := by linarith
  exact ⟨mul_self_eq_zero.1 ha0, mul_self_eq_zero.1 hb0⟩

lemma distSqToRect_nonneg (c : Vector2 F) (wall : Rectangle F) : 0 ≤ distSqToRect c wall := by
  simp only [distSqToRect, Vector2LengthSqr]
  exact add_nonneg (mul_self_nonneg _) (mul_self_nonneg _)

lemma closestPoint_eq_of_distSq_zero (c : Vector2 F) (wall : Rectangle F)
    (h : distSqToRect c wall = 0) :
    CLAMP c.x wall.x (wall.x + wall.width) = c.x
      ∧ CLAMP c.y wall.y (wall.y + wall.height) = c.y := by
  simp only [distSqToRect, Vector2LengthSqr, Vector2Subtract, closestPoint] at h
  obtain ⟨h1, h2⟩ := sq_sum_eq_zero h
  exact ⟨by linarith, by linarith⟩

lemma distSq_after_inside (c : Vector2 F) (r : F) (wall : Rectangle F) (hr : 0 < r)
    (hh : 0 ≤ wall.height) (hx : CLAMP c.x wall.x (wall.x + wall.width) = c.x) :
    distSqToRect ⟨c.x, wall.y + wall.height + r⟩ wall = r * r := by
  have hy : CLAMP (wall.y + wall.height + r) wall.y (wall.y + wall.height)
      = wall.y + wall.height := by
    unfold CLAMP
    rw [if_neg (by linarith), if_pos (by linarith)]
  simp only [distSqToRect, Vector2LengthSqr, Vector2Subtract, closestPoint, hx, hy]
  ring

lemma distSq_after_near (c : Vector2 F) (r d : F) (wall : Rectangle F)
    (hw : 0 ≤ wall.width) (hh : 0 ≤ wall.height) (hd : 0 < d) (hdr : d < r)
    (hdd : d * d = distSqToRect c wall) :
    distSqToRect ⟨c.x + (c.x - (closestPoint c wall).x) * ((r - d) / d),
      c.y + (c.y - (closestPoint c wall).y) * ((r - d) / d)⟩ wall = r * r := by
  have hk : 0 ≤ (r - d) / d := div_nonneg (by linarith) (le_of_lt hd)
  have hx := CLAMP_push wall.x (wall.x + wall.width) c.x ((r - d) / d)
    (by linarith) hk
  have hy := CLAMP_push wall.y (wall.y + wall.height) c.y ((r - d) / d)
    (by linarith) hk
  have hdd2 : (CLAMP c.x wall.x (wall.x + wall.width) - c.x)
        * (CLAMP c.x wall.x (wall.x + wall.width) - c.x)
      + (CLAMP c.y wall.y (wall.y + wall.height) - c.y)
        * (CLAMP c.y wall.y (wall.y + wall.height) - c.y) = d * d := by
    rw [hdd]; simp only [distSqToRect, Vector2LengthSqr, Vector2Subtract, closestPoint]
  simp only [distSqToRect, Vector2LengthSqr, Vector2Subtract, closestPoint] at hx hy ⊢
  rw [hx, hy]
  have hne : d ≠ 0 := ne_of_gt hd
  have e : ∀ a b : F, (a - (b + (b - a) * ((r - d) / d))) * (a - (b + (b - a) * ((r - d) / d)))
      = (a - b) * (a - b) * (r * r) / (d * d) := by
    intro a b; field_simp; ring
  rw [e, e, ← add_div, ← add_mul, hdd2]
  field_simp

lemma CLAMP_gap {F : Type} [LinearOrderedField F] (x lo w : F) (hw : 0 ≤ w) :
    |x - (lo + w / 2)| - w / 2 ≤ |CLAMP x lo (lo + w) - x| := by
  unfold CLAMP
  by_cases h1 : x < lo
  · rw [if_pos h1, abs_of_nonneg (by linarith : 0 ≤ lo - x),
      abs_of_nonpos (by linarith : x - (lo + w / 2) ≤ 0)]
    linarith
  · rw [if_neg h1]
    by_cases h2 : x > lo + w
    · rw [if_pos h2, abs_of_nonpos (by linarith : lo + w - x ≤ 0),
        abs_of_nonneg (by linarith : 0 ≤ x - (lo + w / 2))]
      linarith
    · rw [if_neg h2, sub_self, abs_zero]
      have : |x - (lo + w / 2)| ≤ w / 2 := abs_le.2 ⟨by linarith, by linarith⟩
      linarith

lemma sq_le_sq_of_le_abs {F : Type} [LinearOrderedField F] {g a : F} (hg : 0 ≤ g)
    (h : g ≤ |a|) : g * g ≤ a * a := by
  rw [← abs_mul_abs_self a]
  exact mul_le_mul h h hg (le_trans hg h)

/-- The overlap test of raylib 5 does not miss an overlap: it satisfies the
assumption of the push-out theorem at every input. -/
lemma checkCollisionCircleRec_sound (c : Vector2 ℚ) (r : ℚ) (wall : Rectangle ℚ)
    (hr : 0 ≤ r) (hw : 0 ≤ wall.width) (hh : 0 ≤ wall.height)
    (h : checkCollisionCircleRec c r wall = false) : r * r ≤ distSqToRect c wall := by
  have gx := CLAMP_gap c.x wall.x wall.width hw
  have gy := CLAMP_gap c.y wall.y wall.height hh
  have nx : 0 ≤ (CLAMP c.x wall.x (wall.x + wall.width) - c.x)
      * (CLAMP c.x wall.x (wall.x + wall.width) - c.x) := mul_self_nonneg _
  have ny : 0 ≤ (CLAMP c.y wall.y (wall.y + wall.height) - c.y)
      * (CLAMP c.y wall.y (wall.y + wall.height) - c.y) := mul_self_nonneg _
  simp only [distSqToRect, Vector2LengthSqr, Vector2Subtract, closestPoint]
  unfold checkCollisionCircleRec at h
  simp only at h
  split_ifs at h with h1 h2 h3 h4
  · have := sq_le_sq_of_le_abs hr (le_trans (by linarith) gx)
    linarith
  · have := sq_le_sq_of_le_abs hr (le_trans (by linarith) gy)
    linarith
  · have h5 := of_decide_eq_false h
    have ax := sq_le_sq_of_le_abs (by linarith : 0 ≤ |c.x - (wall.x + wall.width / 2)|
      - wall.width / 2) gx
    have ay := sq_le_sq_of_le_abs (by linarith : 0 ≤ |c.y - (wall.y + wall.height / 2)|
      - wall.height / 2) gy
    linarith

/-- Over the reals the square root is exact at every non-negative value. -/
lemma SqrtExactAt_real (rl : Raylib ℝ) (h : rl.sqrtf = Real.sqrt) (a : ℝ) (ha : 0 ≤ a) :
    SqrtExactAt rl a := by
  unfold SqrtExactAt
  rw [h]
  exact ⟨Real.sqrt_nonneg a, Real.mul_self_sqrt ha⟩

end Resolver

/-! ## Player: structural facts about `takeDamage` and `update` -/

section PlayerFacts

variable {F : Type} [LinearOrderedField F]

lemma Player.takeDamage_of_invulnerable (p : Player F) (amount : F)
    (h : 0 < p.invulnerabilityTimer) : p.takeDamage amount = p := by
  unfold Player.takeDamage
  rw [if_neg]
  rintro ⟨h1, -⟩
  exact absurd h (not_lt.2 h1)

lemma Player.contactDamage_of_invulnerable (rl : Raylib F) (dt : F) (zs : List (Zombie F)) :
    ∀ p : Player F, 0 < p.invulnerabilityTimer → p.contactDamage rl dt zs = p := by
  induction zs with
  | nil => intro p _; rfl
  | cons z zs ih =>
    intro p h
    unfold Player.contactDamage
    rw [List.foldl_cons]
    have e : (if Vector2Distance rl p.pos z.pos < p.size + z.size then p.takeDamage (20 * dt)
        else p) = p := by
      split_ifs
      · exact Player.takeDamage_of_invulnerable p _ h
      · rfl
    rw [e]
    exact ih p h

lemma Player.contactDamage_of_noContact (rl : Raylib F) (dt : F) (zs : List (Zombie F)) :
    ∀ p : Player F, (∀ z ∈ zs, ¬ (Vector2Distance rl p.pos z.pos < p.size + z.size)) →
      p.contactDamage rl dt zs = p := by
  induction zs with
  | nil => intro p _; rfl
  | cons z zs ih =>
    intro p h
    unfold Player.contactDamage
    rw [List.foldl_cons, if_neg (h z (List.mem_cons_self _ _))]
    exact ih p (fun w hw => h w (List.mem_cons_of_mem _ hw))

lemma Player.update_fst_of_contactDamage (rl : Raylib F) (p : Player F) (dt : F)
    (zs : List (Zombie F)) (walls : List (Rectangle F))
    (h : (p.updateTimers dt).contactDamage rl dt zs = p.updateTimers dt) :
    (p.update rl dt zs walls).1.health
        = CLAMP (p.updateTimers dt).health 0 (p.updateTimers dt).maxHealth
      ∧ (p.update rl dt zs walls).1.maxHealth = (p.updateTimers dt).maxHealth
      ∧ (p.update rl dt zs walls).1.timeSinceLastDamage = (p.updateTimers dt).timeSinceLastDamage
      ∧ (p.update rl dt zs walls).1.regenTimer = (p.updateTimers dt).regenTimer
      ∧ (p.update rl dt zs walls).1.invulnerabilityTimer
          = (p.updateTimers dt).invulnerabilityTimer := by
  unfold Player.update
  simp only [h]
  simp

lemma Player.updateHealthRegen_invulnerabilityTimer (p : Player F) (dt : F) :
    (p.updateHealthRegen dt).invulnerabilityTimer = p.invulnerabilityTimer := by
  unfold Player.updateHealthRegen; simp only; split_ifs <;> rfl

lemma Player.updateDash_invulnerabilityTimer (p : Player F) (dt : F) :
    (p.updateDash dt).invulnerabilityTimer = p.invulnerabilityTimer := by
  unfold Player.updateDash; simp only; split_ifs <;> rfl

lemma Player.updateDamageFlash_invulnerabilityTimer (p : Player F) (dt : F) :
    (p.updateDamageFlash dt).invulnerabilityTimer = p.invulnerabilityTimer := by
  unfold Player.updateDamageFlash; simp only; split_ifs <;> rfl

lemma Player.updateMuzzleFlash_invulnerabilityTimer (p : Player F) (dt : F) :
    (p.updateMuzzleFlash dt).invulnerabilityTimer = p.invulnerabilityTimer := by
  unfold Player.updateMuzzleFlash; simp only; split_ifs <;> rfl

lemma Player.updateTimers_invulnerabilityTimer (p : Player F) (dt : F)
    (h0 : 0 ≤ dt) (h : dt < p.invulnerabilityTimer) :
    (p.updateTimers dt).invulnerabilityTimer = p.invulnerabilityTimer - dt := by
  unfold Player.updateTimers
  rw [Player.updateHealthRegen_invulnerabilityTimer, Player.updateDash_invulnerabilityTimer,
    Player.updateDamageFlash_invulnerabilityTimer, Player.updateMuzzleFlash_invulnerabilityTimer]
  unfold Player.updateInvulnerability
  rw [if_pos (by linarith : p.invulnerabilityTimer > 0)]
  simp only
  rw [if_neg (by linarith)]

lemma Player.update_invulnerabilityTimer (rl : Raylib F) (p : Player F) (dt : F)
    (zs : List (Zombie F)) (walls : List (Rectangle F))
    (h0 : 0 ≤ dt) (h : dt < p.invulnerabilityTimer) :
    (p.update rl dt zs walls).1.invulnerabilityTimer = p.invulnerabilityTimer - dt := by
  have ht := Player.updateTimers_invulnerabilityTimer p dt h0 h
  have hc := Player.contactDamage_of_invulnerable rl dt zs (p.updateTimers dt)
    (by rw [ht]; linarith)
  rw [(Player.update_fst_of_contactDamage rl p dt zs walls hc).2.2.2.2, ht]

lemma framesTime_cons (f : Frame F) (fs : List (Frame F)) :
    framesTime (f :: fs) = f.deltaTime + framesTime fs := by
  simp [framesTime]

lemma framesTime_nonneg (fs : List (Frame F)) (h : ∀ f ∈ fs, 0 ≤ f.deltaTime) :
    0 ≤ framesTime fs := by
  unfold framesTime
  apply List.sum_nonneg
  intro x hx
  obtain ⟨f, hf, rfl⟩ := List.mem_map.1 hx
  exact h f hf

lemma Player.updates_cons (rl : Raylib F) (p : Player F) (f : Frame F) (fs : List (Frame F)) :
    p.updates rl (f :: fs)
      = Player.updates rl (p.update rl f.deltaTime f.zombies f.walls).1 fs := rfl

lemma Player.updates_invulnerabilityTimer (rl : Raylib F) (fs : List (Frame F)) :
    ∀ p : Player F, (∀ f ∈ fs, 0 ≤ f.deltaTime) → framesTime fs < p.invulnerabilityTimer →
      (p.updates rl fs).invulnerabilityTimer = p.invulnerabilityTimer - framesTime fs := by
  induction fs with
  | nil => intro p _ _; simp [Player.updates, framesTime]
  | cons f fs ih =>
    intro p hdt hlt
    have hf : 0 ≤ f.deltaTime := hdt f (List.mem_cons_self _ _)
    have hfs : ∀ g ∈ fs, 0 ≤ g.deltaTime := fun g hg => hdt g (List.mem_cons_of_mem _ hg)
    have hnn := framesTime_nonneg fs hfs
    rw [framesTime_cons] at hlt
    have h1 := Player.update_invulnerabilityTimer rl p f.deltaTime f.zombies f.walls hf
      (by linarith)
    rw [Player.updates_cons, framesTime_cons, ih _ hfs (by rw [h1]; linarith), h1]
    ring

lemma Player.updateInvulnerability_regen (p : Player F) (dt : F) :
    (p.updateInvulnerability dt).health = p.health
      ∧ (p.updateInvulnerability dt).maxHealth = p.maxHealth
      ∧ (p.updateInvulnerability dt).timeSinceLastDamage = p.timeSinceLastDamage
      ∧ (p.updateInvulnerability dt).regenTimer = p.regenTimer := by
  unfold Player.updateInvulnerability; simp only; split_ifs <;> exact ⟨rfl, rfl, rfl, rfl⟩

lemma Player.updateMuzzleFlash_regen (p : Player F) (dt : F) :
    (p.updateMuzzleFlash dt).health = p.health
      ∧ (p.updateMuzzleFlash dt).maxHealth = p.maxHealth
      ∧ (p.updateMuzzleFlash dt).timeSinceLastDamage = p.timeSinceLastDamage
      ∧ (p.updateMuzzleFlash dt).regenTimer = p.regenTimer := by
  unfold Player.updateMuzzleFlash; simp only; split_ifs <;> exact ⟨rfl, rfl, rfl, rfl⟩

lemma Player.updateDamageFlash_regen (p : Player F) (dt : F) :
    (p.updateDamageFlash dt).health = p.health
      ∧ (p.updateDamageFlash dt).maxHealth = p.maxHealth
      ∧ (p.updateDamageFlash dt).timeSinceLastDamage = p.timeSinceLastDamage
      ∧ (p.updateDamageFlash dt).regenTimer = p.regenTimer := by
  unfold Player.updateDamageFlash; simp only; split_ifs <;> exact ⟨rfl, rfl, rfl, rfl⟩

lemma Player.updateDash_regen (p : Player F) (dt : F) :
    (p.updateDash dt).health = p.health
      ∧ (p.updateDash dt).maxHealth = p.maxHealth
      ∧ (p.updateDash dt).timeSinceLastDamage = p.timeSinceLastDamage
      ∧ (p.updateDash dt).regenTimer = p.regenTimer := by
  unfold Player.updateDash; simp only; split_ifs <;> exact ⟨rfl, rfl, rfl, rfl⟩

lemma RegenInv.updateHealthRegen (q : Player F) (T dt : F) (hinv : RegenInv q T)
    (h0 : 0 ≤ dt) (h1 : dt < 1 / 2) (hT : T + dt ≤ 4) :
    RegenInv (q.updateHealthRegen dt) (T + dt) := by
  obtain ⟨hm, ht, hcase⟩ := hinv
  unfold Player.updateHealthRegen
  simp only [REGEN_COOLDOWN, REGEN_INTERVAL, REGEN_AMOUNT, ge_iff_le]
  rcases hcase with ⟨hlt, hh, hg⟩ | ⟨hge, hg0, hg1, hh, hlo, hhi⟩
  · rw [if_neg (by rw [hm, hh]; norm_num)]
    by_cases hc : 3 ≤ q.timeSinceLastDamage + dt
    · rw [if_pos hc, if_neg (by rw [hg]; linarith)]
      refine ⟨hm, by simp only [ht], Or.inr ⟨by rw [← ht]; exact hc, ?_, ?_, Or.inl hh, ?_, ?_⟩⟩
      · simp only [hg]; linarith
      · simp only [hg]; linarith
      · simp only [hg, hh]; linarith
      · simp only [hg, hh]; rw [ht] at hc; linarith
    · rw [if_neg hc]
      refine ⟨hm, by simp only [ht], Or.inl ⟨by rw [← ht]; exact not_le.1 hc, hh, rfl⟩⟩
  · have hhlt : ¬ q.maxHealth ≤ q.health := by
      rw [hm]; rcases hh with h | h | h <;> rw [h] <;> norm_num
    rw [if_neg hhlt, if_pos (by rw [ht]; linarith)]
    by_cases hc : 1 / 2 ≤ q.regenTimer + dt
    · rw [if_pos hc]
      have hh2 : q.health = 50 ∨ q.health = 52 := by
        rcases hh with h | h | h
        · exact Or.inl h
        · exact Or.inr h
        · exfalso; rw [h] at hhi; linarith
      have hcl : CLAMP (q.health + 2) 0 q.maxHealth = q.health + 2 := by
        apply CLAMP_of_mem <;> rcases hh2 with h | h <;> rw [h] <;> try rw [hm]
        all_goals norm_num
      simp only [hcl]
      refine ⟨hm, by simp only [ht], Or.inr ⟨by linarith, by linarith, by linarith, ?_, ?_, ?_⟩⟩
      · rcases hh2 with h | h
        · right; left; rw [h]; norm_num
        · right; right; rw [h]; norm_num
      · linarith
      · linarith
    · rw [if_neg hc]
      refine ⟨hm, by simp only [ht], Or.inr ⟨by linarith, ?_, ?_, hh, ?_, ?_⟩⟩
      · simp only; linarith
      · simp only; linarith
      · simp only; linarith
      · simp only; linarith

lemma RegenInv.updateTimers (p : Player F) (T dt : F) (hinv : RegenInv p T)
    (h0 : 0 ≤ dt) (h1 : dt < 1 / 2) (hT : T + dt ≤ 4) :
    RegenInv (p.updateTimers dt) (T + dt) := by
  unfold Player.updateTimers
  apply RegenInv.updateHealthRegen _ T dt _ h0 h1 hT
  obtain ⟨a1, a2, a3, a4⟩ := Player.updateInvulnerability_regen p dt
  obtain ⟨b1, b2, b3, b4⟩ := Player.updateMuzzleFlash_regen (p.updateInvulnerability dt) dt
  obtain ⟨c1, c2, c3, c4⟩ := Player.updateDamageFlash_regen
    ((p.updateInvulnerability dt).updateMuzzleFlash dt) dt
  obtain ⟨d1, d2, d3, d4⟩ := Player.updateDash_regen
    (((p.updateInvulnerability dt).updateMuzzleFlash dt).updateDamageFlash dt) dt
  unfold RegenInv at hinv ⊢
  rw [d1, d2, d3, d4, c1, c2, c3, c4, b1, b2, b3, b4, a1, a2, a3, a4]
  exact hinv

lemma RegenInv.health_bounds (p : Player F) (T : F) (hinv : RegenInv p T) :
    0 ≤ p.health ∧ p.health ≤ p.maxHealth := by
  obtain ⟨hm, -, hcase⟩ := hinv
  rw [hm]
  rcases hcase with ⟨-, hh, -⟩ | ⟨-, -, -, hh, -, -⟩
  · rw [hh]; norm_num
  · rcases hh with h | h | h <;> rw [h] <;> norm_num

lemma RegenInv.update (rl : Raylib F) (p : Player F) (T : F) (f : Frame F)
    (hinv : RegenInv p T) (h0 : 0 ≤ f.deltaTime) (h1 : f.deltaTime < 1 / 2)
    (hT : T + f.deltaTime ≤ 4) (hnc : p.noContact rl f) :
    RegenInv (p.update rl f.deltaTime f.zombies f.walls).1 (T + f.deltaTime) := by
  have hq := RegenInv.updateTimers p T f.deltaTime hinv h0 h1 hT
  have hc := Player.contactDamage_of_noContact rl f.deltaTime f.zombies
    (p.updateTimers f.deltaTime) hnc
  obtain ⟨e1, e2, e3, e4, -⟩ := Player.update_fst_of_contactDamage rl p f.deltaTime f.zombies
    f.walls hc
  obtain ⟨hb0, hb1⟩ := RegenInv.health_bounds _ _ hq
  rw [CLAMP_of_mem hb0 hb1] at e1
  unfold RegenInv at hq ⊢
  rw [e1, e2, e3, e4]
  exact hq

lemma RegenInv.updates (rl : Raylib F) (fs : List (Frame F)) :
    ∀ (p : Player F) (T : F), RegenInv p T →
      (∀ f ∈ fs, 0 ≤ f.deltaTime ∧ f.deltaTime < 1 / 2) → p.noContacts rl fs →
      T + framesTime fs ≤ 4 → RegenInv (p.updates rl fs) (T + framesTime fs) := by
  induction fs with
  | nil =>
    intro p T hinv _ _ _
    simpa [Player.updates, framesTime] using hinv
  | cons f fs ih =>
    intro p T hinv hdt hnc hT
    obtain ⟨hf0, hf1⟩ := hdt f (List.mem_cons_self _ _)
    have hfs : ∀ g ∈ fs, 0 ≤ g.deltaTime ∧ g.deltaTime < 1 / 2 :=
      fun g hg => hdt g (List.mem_cons_of_mem _ hg)
    have hnn := framesTime_nonneg fs (fun g hg => (hfs g hg).1)
    rw [framesTime_cons] at hT
    have hstep := RegenInv.update rl p T f hinv hf0 hf1 (by linarith) hnc.1
    have := ih _ _ hstep hfs hnc.2 (by linarith)
    rw [Player.updates_cons, framesTime_cons, ← add_assoc]
    exact this

lemma Player.noContacts_of_no_zombies (rl : Raylib F) (fs : List (Frame F)) :
    ∀ p : Player F, (∀ f ∈ fs, f.zombies = []) → p.noContacts rl fs := by
  induction fs with
  | nil => intro p _; trivial
  | cons f fs ih =>
    intro p h
    refine ⟨?_, ih _ (fun g hg => h g (List.mem_cons_of_mem _ hg))⟩
    intro z hz
    rw [h f (List.mem_cons_self _ _)] at hz
    exact absurd hz (List.not_mem_nil z)

end PlayerFacts

/-! ## Claims about the collision resolver -/

section ResolverClaims

variable {F : Type} [LinearOrderedField F]

/-- C3. For a circle of radius > 0 and a rectangle of width, height >= 0, after
one call of `resolveSingleWallCollision` the distance from the centre to the
closest point of the rectangle is >= radius, and it is exactly radius whenever the
circle overlapped the rectangle before the call, the centre inside the rectangle
included.  Distances are compared through their squares; the library test is
assumed not to miss an overlap and the square root to be exact at the squared
distance the code takes the root of. -/
theorem resolve_single_wall_pushes_out (rl : Raylib F) (c : Vector2 F) (r : F)
    (wall : Rectangle F) (hr : 0 < r) (hw : 0 ≤ wall.width) (hh : 0 ≤ wall.height)
    (hchk : rl.CheckCollisionCircleRec c r wall = false → r * r ≤ distSqToRect c wall)
    (hsqrt : SqrtExactAt rl (distSqToRect c wall)) :
    r * r ≤ distSqToRect (resolveSingleWallCollision rl c r wall) wall
      ∧ (distSqToRect c wall < r * r →
          distSqToRect (resolveSingleWallCollision rl c r wall) wall = r * r) := by
  obtain ⟨hd0, hdd⟩ := hsqrt
  by_cases hc : rl.CheckCollisionCircleRec c r wall = false
  · rw [resolve_of_no_check rl c r wall hc]
    exact ⟨hchk hc, fun h => absurd (hchk hc) (not_le.2 h)⟩
  · have hc1 : rl.CheckCollisionCircleRec c r wall = true := by simpa using hc
    by_cases hlt : rl.sqrtf (distSqToRect c wall) < r
    · rcases eq_or_lt_of_le hd0 with hz | hpos
      · have hz0 : rl.sqrtf (distSqToRect c wall) = 0 := hz.symm
        have hsq : distSqToRect c wall = 0 := by rw [← hdd, hz0]; ring
        obtain ⟨hx, hy⟩ := closestPoint_eq_of_distSq_zero c wall hsq
        rw [resolve_of_inside rl c r wall hc1 hlt hz0 hx hy,
          distSq_after_inside c r wall hr hh hx]
        exact ⟨le_refl _, fun _ => rfl⟩
      · rw [resolve_of_near rl c r wall hc1 hlt hpos,
          distSq_after_near c r _ wall hw hh hpos hlt hdd]
        exact ⟨le_refl _, fun _ => rfl⟩
    · rw [resolve_of_far rl c r wall hlt]
      have hge : r ≤ rl.sqrtf (distSqToRect c wall) := not_lt.1 hlt
      have : r * r ≤ distSqToRect c wall := by
        rw [← hdd]; exact mul_le_mul hge hge (le_of_lt hr) hd0
      exact ⟨this, fun h => absurd this (not_le.2 h)⟩

/-- Witness for C3: a circle of radius 10 centred 3 to the left of the flat wall
overlaps it and is pushed to distance exactly 10. -/
theorem resolve_single_wall_pushes_out_witness :
    (0 : ℚ) < 10 ∧ 0 ≤ flatWall.width ∧ 0 ≤ flatWall.height
      ∧ (sampleRaylib.CheckCollisionCircleRec ⟨-3, 5⟩ 10 flatWall = false →
          (10 : ℚ) * 10 ≤ distSqToRect ⟨-3, 5⟩ flatWall)
      ∧ SqrtExactAt sampleRaylib (distSqToRect ⟨-3, 5⟩ flatWall)
      ∧ distSqToRect ⟨-3, 5⟩ flatWall < 10 * 10
      ∧ distSqToRect (resolveSingleWallCollision sampleRaylib ⟨-3, 5⟩ 10 flatWall) flatWall
          = 10 * 10 := by
  have h1 : (0 : ℚ) < 10 := by decide!
  have h2 : 0 ≤ flatWall.width := by decide!
  have h3 : 0 ≤ flatWall.height := by decide!
  have h4 : sampleRaylib.CheckCollisionCircleRec ⟨-3, 5⟩ 10 flatWall = false →
      (10 : ℚ) * 10 ≤ distSqToRect ⟨-3, 5⟩ flatWall := by decide!
  have h5 : SqrtExactAt sampleRaylib (distSqToRect ⟨-3, 5⟩ flatWall) := by
    unfold SqrtExactAt; decide!
  have h6 : distSqToRect ⟨-3, 5⟩ flatWall < 10 * 10 := by decide!
  exact ⟨h1, h2, h3, h4, h5, h6,
    (resolve_single_wall_pushes_out sampleRaylib ⟨-3, 5⟩ 10 flatWall h1 h2 h3 h4 h5).2 h6⟩

/-- C4 (the code at a failing input). A circle of radius 10 whose centre (50, 1)
lies inside the flat wall, 1 below its top edge and 9 above its bottom edge, is
not moved to the nearer top edge (y = -10): the call leaves x at 50 and puts y at
20, radius below the bottom edge. -/
theorem inside_push_ignores_nearest_edge :
    (resolveSingleWallCollision sampleRaylib ⟨50, 1⟩ 10 flatWall).x = 50
      ∧ (resolveSingleWallCollision sampleRaylib ⟨50, 1⟩ 10 flatWall).y = 20
      ∧ (resolveSingleWallCollision sampleRaylib ⟨50, 1⟩ 10 flatWall).y
          ≠ flatWall.y - 10 := by
  decide!

end ResolverClaims

/-! ## Claims about the zombie state machine -/

section ZombieClaims

variable {F : Type} [LinearOrderedField F]

/-- C5. A zombie that is CHASING or ATTACKING and has health <= 0 when
`Zombie::update` is called (for example health 10 followed by `takeDamage(15)`)
is DYING after that one update, with `deathTimer` equal to
`ZOMBIE_DEATH_DURATION`, `explosionRadius` 0, `explosionAlpha` 1 and `health`
clamped: it is `CLAMP(health, 0, maxHealth)`, which is 0 whenever `maxHealth`
is not negative. -/
theorem zombie_lethal_transition (rl : Raylib F) (z : Zombie F) (playerPos : Vector2 F)
    (deltaTime : F) (walls : List (Rectangle F)) (playerHealth : F)
    (hstate : z.currentState = ZombieState.CHASING ∨ z.currentState = ZombieState.ATTACKING)
    (hhealth : z.health ≤ 0) :
    (z.update rl playerPos deltaTime walls playerHealth).1.currentState = ZombieState.DYING
      ∧ (z.update rl playerPos deltaTime walls playerHealth).1.deathTimer = ZOMBIE_DEATH_DURATION
      ∧ (z.update rl playerPos deltaTime walls playerHealth).1.explosionRadius = 0
      ∧ (z.update rl playerPos deltaTime walls playerHealth).1.explosionAlpha = 1
      ∧ (z.update rl playerPos deltaTime walls playerHealth).1.health
          = CLAMP z.health 0 z.maxHealth
      ∧ (0 ≤ z.maxHealth →
          (z.update rl playerPos deltaTime walls playerHealth).1.health = 0) := by
  have hnd : z.currentState ≠ ZombieState.DEAD := by
    rcases hstate with h | h <;> simp [h]
  have hT := z.updateTimers_currentState deltaTime
  have hsw := Zombie.updateSwitch_alive rl (z.updateTimers deltaTime) playerPos deltaTime walls
    playerHealth (by rw [hT]; exact hstate)
  have hh := Zombie.updateSwitch_health rl (z.updateTimers deltaTime) playerPos deltaTime walls
    playerHealth
  have hm := Zombie.updateSwitch_maxHealth rl (z.updateTimers deltaTime) playerPos deltaTime walls
    playerHealth
  rw [z.updateTimers_health] at hh
  rw [z.updateTimers_maxHealth] at hm
  have key := Zombie.healthCheck_lethal
    ((z.updateTimers deltaTime).updateSwitch rl playerPos deltaTime walls playerHealth).1
    (by rw [hh]; exact hhealth) hsw
  rw [hh, hm] at key
  have e : z.update rl playerPos deltaTime walls playerHealth
      = ((((z.updateTimers deltaTime).updateSwitch rl playerPos deltaTime walls
            playerHealth).1).healthCheck,
          ((z.updateTimers deltaTime).updateSwitch rl playerPos deltaTime walls
            playerHealth).2) := by
    unfold Zombie.update
    rw [if_neg hnd]
  rw [e]
  refine ⟨key.1, key.2.1, key.2.2.1, key.2.2.2.1, key.2.2.2.2, fun hmax => ?_⟩
  show (((z.updateTimers deltaTime).updateSwitch rl playerPos deltaTime walls
    playerHealth).1).healthCheck.health = 0
  rw [key.2.2.2.2]
  exact CLAMP_of_nonpos hhealth hmax

/-- C6. A zombie that has just entered DYING (`deathTimer` equal to
`ZOMBIE_DEATH_DURATION`) is still DYING after any sequence of `update` and
`takeDamage` calls with non-negative frame times whose accumulated time is below
`ZOMBIE_DEATH_DURATION`, and is DEAD after the first `update` with which the
accumulated time reaches `ZOMBIE_DEATH_DURATION`. -/
theorem dying_lasts_death_duration (rl : Raylib F) (z : Zombie F) (playerHealth : F)
    (cs : List (ZombieCall F)) (hstate : z.currentState = ZombieState.DYING)
    (htimer : z.deathTimer = ZOMBIE_DEATH_DURATION) (hdt : ∀ c ∈ cs, 0 ≤ c.deltaTime)
    (hlt : callsTime cs < ZOMBIE_DEATH_DURATION) :
    (Zombie.calls rl (z, playerHealth) cs).1.currentState = ZombieState.DYING
      ∧ ∀ (playerPos : Vector2 F) (deltaTime : F) (walls : List (Rectangle F)),
          ZOMBIE_DEATH_DURATION ≤ callsTime cs + deltaTime →
          (Zombie.calls rl (z, playerHealth)
            (cs ++ [ZombieCall.update playerPos deltaTime walls])).1.currentState
            = ZombieState.DEAD := by
  have key := Zombie.calls_dying rl cs (z, playerHealth) hstate hdt (by rw [htimer]; exact hlt)
  refine ⟨key.1, ?_⟩
  intro pp dt walls hge
  rw [Zombie.calls_append]
  obtain ⟨-, -, h3, -⟩ := Zombie.update_dying_fields rl
    (Zombie.calls rl (z, playerHealth) cs).1 pp dt walls
    (Zombie.calls rl (z, playerHealth) cs).2 key.1
  show ((Zombie.calls rl (z, playerHealth) cs).1.update rl pp dt walls
    (Zombie.calls rl (z, playerHealth) cs).2).1.currentState = ZombieState.DEAD
  rw [h3, key.2, if_pos]
  show z.deathTimer - callsTime cs - dt ≤ 0
  rw [htimer]; linarith

/-- C7. Once a zombie is DYING or DEAD, no sequence of `update` and `takeDamage`
calls brings it back to CHASING or ATTACKING; over any sequence of calls from any
state DYING is entered at most once; and on a DEAD zombie `update` and
`takeDamage` return the zombie unchanged and `update` leaves the player health
unchanged. -/
theorem zombie_state_monotone (rl : Raylib F) (z : Zombie F) (playerHealth : F)
    (cs : List (ZombieCall F)) :
    (z.currentState = ZombieState.DYING ∨ z.currentState = ZombieState.DEAD →
        (Zombie.calls rl (z, playerHealth) cs).1.currentState = ZombieState.DYING
          ∨ (Zombie.calls rl (z, playerHealth) cs).1.currentState = ZombieState.DEAD)
      ∧ dyingEntries rl (z, playerHealth) cs ≤ 1
      ∧ (z.currentState = ZombieState.DEAD →
          ∀ (playerPos : Vector2 F) (deltaTime : F) (walls : List (Rectangle F)) (dmg : ℤ),
            z.update rl playerPos deltaTime walls playerHealth = (z, playerHealth)
              ∧ z.takeDamage dmg = z) := by
  refine ⟨Zombie.calls_dying_or_dead rl cs (z, playerHealth),
    dyingEntries_le_one rl cs (z, playerHealth), ?_⟩
  intro h pp dt walls dmg
  exact ⟨Zombie.update_dead rl z pp dt walls playerHealth h,
    Zombie.takeDamage_of_dying_or_dead z dmg (Or.inr h)⟩

/-- Witness for C5: the zombie of health 10 that received `takeDamage(15)` is
DYING after its next update, with health 0. -/
theorem zombie_lethal_transition_witness :
    (lethallyHitZombie.currentState = ZombieState.CHASING
        ∨ lethallyHitZombie.currentState = ZombieState.ATTACKING)
      ∧ lethallyHitZombie.health ≤ 0 ∧ 0 ≤ lethallyHitZombie.maxHealth
      ∧ (lethallyHitZombie.update sampleRaylib ⟨3, 4⟩ (1 / 60) [] 100).1.currentState
          = ZombieState.DYING
      ∧ (lethallyHitZombie.update sampleRaylib ⟨3, 4⟩ (1 / 60) [] 100).1.health = 0 := by
  have h1 : lethallyHitZombie.currentState = ZombieState.CHASING
      ∨ lethallyHitZombie.currentState = ZombieState.ATTACKING := by decide!
  have h2 : lethallyHitZombie.health ≤ 0 := by decide!
  have h3 : 0 ≤ lethallyHitZombie.maxHealth := by decide!
  have key := zombie_lethal_transition sampleRaylib lethallyHitZombie ⟨3, 4⟩ (1 / 60) [] 100
    h1 h2
  exact ⟨h1, h2, h3, key.1, key.2.2.2.2.2 h3⟩

/-- Witness for C6: the dying zombie is still DYING after a quarter of a second
of calls and DEAD after a further update of a quarter of a second. -/
theorem dying_lasts_death_duration_witness :
    dyingZombie.currentState = ZombieState.DYING
      ∧ dyingZombie.deathTimer = ZOMBIE_DEATH_DURATION
      ∧ (∀ c ∈ quarterSecondCalls, 0 ≤ c.deltaTime)
      ∧ callsTime quarterSecondCalls < ZOMBIE_DEATH_DURATION
      ∧ ZOMBIE_DEATH_DURATION ≤ callsTime quarterSecondCalls + 1 / 4
      ∧ (Zombie.calls sampleRaylib (dyingZombie, 100) quarterSecondCalls).1.currentState
          = ZombieState.DYING
      ∧ (Zombie.calls sampleRaylib (dyingZombie, 100)
          (quarterSecondCalls ++ [ZombieCall.update ⟨3, 4⟩ (1 / 4) []])).1.currentState
          = ZombieState.DEAD := by
  have h1 : dyingZombie.currentState = ZombieState.DYING := by decide!
  have h2 : dyingZombie.deathTimer = ZOMBIE_DEATH_DURATION := by decide!
  have h3 : ∀ c ∈ quarterSecondCalls, 0 ≤ c.deltaTime := by decide!
  have h4 : callsTime quarterSecondCalls < ZOMBIE_DEATH_DURATION := by decide!
  have h5 : ZOMBIE_DEATH_DURATION ≤ callsTime quarterSecondCalls + 1 / 4 := by decide!
  have key := dying_lasts_death_duration sampleRaylib dyingZombie 100 quarterSecondCalls
    h1 h2 h3 h4
  exact ⟨h1, h2, h3, h4, h5, key.1, key.2 ⟨3, 4⟩ (1 / 4) [] h5⟩

/-- Witness for C7: the dead zombie stays DEAD through further calls and is
returned unchanged by `update` and `takeDamage`. -/
theorem zombie_state_monotone_witness :
    deadZombie.currentState = ZombieState.DEAD
      ∧ ((Zombie.calls sampleRaylib (deadZombie, 100) quarterSecondCalls).1.currentState
            = ZombieState.DYING
          ∨ (Zombie.calls sampleRaylib (deadZombie, 100) quarterSecondCalls).1.currentState
            = ZombieState.DEAD)
      ∧ deadZombie.update sampleRaylib ⟨3, 4⟩ (1 / 4) [] 100 = (deadZombie, 100)
      ∧ deadZombie.takeDamage 7 = deadZombie := by
  have h1 : deadZombie.currentState = ZombieState.DEAD := by decide!
  have key := zombie_state_monotone sampleRaylib deadZombie 100 quarterSecondCalls
  exact ⟨h1, key.1 (Or.inr h1), (key.2.2 h1 ⟨3, 4⟩ (1 / 4) [] 7).1,
    (key.2.2 h1 ⟨3, 4⟩ (1 / 4) [] 7).2⟩

end ZombieClaims

/-! ## Claims about the player controller -/

section PlayerClaims

variable {F : Type} [LinearOrderedField F]

/-- C8, amended. Starting from health 50, maxHealth 100, `timeSinceLastDamage` 0
and `regenTimer` 0, for every sequence of `Player::update` calls whose frame times
all lie in `[0, REGEN_INTERVAL)` and in which no zombie touches the player: when
the total elapsed time equals `REGEN_COOLDOWN + REGEN_INTERVAL` the health is
exactly 52, and when it equals `REGEN_COOLDOWN + 2 * REGEN_INTERVAL` it is
exactly 54. -/
theorem regen_timing_short_frames (rl : Raylib F) (p : Player F) (frames : List (Frame F))
    (hhealth : p.health = 50) (hmax : p.maxHealth = 100) (hsince : p.timeSinceLastDamage = 0)
    (hregen : p.regenTimer = 0)
    (hdt : ∀ f ∈ frames, 0 ≤ f.deltaTime ∧ f.deltaTime < REGEN_INTERVAL)
    (hnc : p.noContacts rl frames) :
    (framesTime frames = REGEN_COOLDOWN + REGEN_INTERVAL → (p.updates rl frames).health = 52)
      ∧ (framesTime frames = REGEN_COOLDOWN + 2 * REGEN_INTERVAL →
          (p.updates rl frames).health = 54) := by
  have hinv : RegenInv p 0 := ⟨hmax, hsince, Or.inl ⟨by norm_num, hhealth, hregen⟩⟩
  simp only [REGEN_COOLDOWN, REGEN_INTERVAL] at hdt ⊢
  constructor
  · intro ht
    have key := RegenInv.updates rl frames p 0 hinv hdt hnc (by rw [ht]; norm_num)
    rw [ht] at key
    obtain ⟨-, -, hcase⟩ := key
    rcases hcase with ⟨hlt, -, -⟩ | ⟨-, hg0, hg1, hh, hlo, hhi⟩
    · norm_num at hlt
    · rcases hh with h | h | h
      · rw [h] at hlo; norm_num at hlo; linarith
      · exact h
      · rw [h] at hhi; norm_num at hhi; linarith
  · intro ht
    have key := RegenInv.updates rl frames p 0 hinv hdt hnc (by rw [ht]; norm_num)
    rw [ht] at key
    obtain ⟨-, -, hcase⟩ := key
    rcases hcase with ⟨hlt, -, -⟩ | ⟨-, hg0, hg1, hh, hlo, hhi⟩
    · norm_num at hlt
    · rcases hh with h | h | h
      · rw [h] at hlo; norm_num at hlo; linarith
      · rw [h] at hlo; norm_num at hlo; linarith
      · exact h

/-- Witness for C8: in frames of a quarter of a second the health is 52 after 14
frames (3.5 s) and 54 after 16 frames (4 s). -/
theorem regen_timing_short_frames_witness :
    halfHealthPlayer.health = 50 ∧ halfHealthPlayer.maxHealth = 100
      ∧ halfHealthPlayer.timeSinceLastDamage = 0 ∧ halfHealthPlayer.regenTimer = 0
      ∧ (∀ f ∈ quarterFrames 14, 0 ≤ f.deltaTime ∧ f.deltaTime < REGEN_INTERVAL)
      ∧ halfHealthPlayer.noContacts sampleRaylib (quarterFrames 14)
      ∧ framesTime (quarterFrames 14) = REGEN_COOLDOWN + REGEN_INTERVAL
      ∧ (halfHealthPlayer.updates sampleRaylib (quarterFrames 14)).health = 52 := by
  have h1 : halfHealthPlayer.health = 50 := by decide!
  have h2 : halfHealthPlayer.maxHealth = 100 := by decide!
  have h3 : halfHealthPlayer.timeSinceLastDamage = 0 := by decide!
  have h4 : halfHealthPlayer.regenTimer = 0 := by decide!
  have h5 : ∀ f ∈ quarterFrames 14, 0 ≤ f.deltaTime ∧ f.deltaTime < REGEN_INTERVAL := by
    decide!
  have h6 : halfHealthPlayer.noContacts sampleRaylib (quarterFrames 14) :=
    Player.noContacts_of_no_zombies sampleRaylib _ _
      (fun f hf => by rw [List.eq_of_mem_replicate hf])
  have h7 : framesTime (quarterFrames 14) = REGEN_COOLDOWN + REGEN_INTERVAL := by decide!
  exact ⟨h1, h2, h3, h4, h5, h6, h7,
    (regen_timing_short_frames sampleRaylib halfHealthPlayer (quarterFrames 14)
      h1 h2 h3 h4 h5 h6).1 h7⟩

/-- C8 (counterexample). From health 50 of 100 with both regeneration clocks at
0 and no zombie present, an update of 3 s followed by one of 0.5 s brings the
total elapsed time to `REGEN_COOLDOWN + REGEN_INTERVAL`, and the health is then
54, not 52: the update that reaches the cooldown already ticks. -/
theorem regen_timing_counterexample :
    halfHealthPlayer.health = 50 ∧ halfHealthPlayer.maxHealth = 100
      ∧ halfHealthPlayer.timeSinceLastDamage = 0 ∧ halfHealthPlayer.regenTimer = 0
      ∧ (∀ f ∈ coarseFrames, 0 ≤ f.deltaTime ∧ f.zombies = [])
      ∧ framesTime coarseFrames = REGEN_COOLDOWN + REGEN_INTERVAL
      ∧ (halfHealthPlayer.updates sampleRaylib coarseFrames).health = 54
      ∧ (halfHealthPlayer.updates sampleRaylib coarseFrames).health ≠ 52 := by
  refine ⟨by decide!, by decide!, by decide!, by decide!, ?_, by decide!, by decide!,
    by decide!⟩
  intro f hf
  simp only [coarseFrames, List.mem_cons, List.mem_singleton, List.not_mem_nil, or_false] at hf
  rcases hf with rfl | rfl <;> exact ⟨by norm_num, rfl⟩

/-- C9, amended. If a first `takeDamage(a1)` is accepted (the player is not
invulnerable and has health > 0), then after any sequence of `Player::update`
calls with non-negative frame times totalling less than
`INVULNERABILITY_DURATION`, a second `takeDamage(a2)` returns the player
unchanged; in particular it leaves the health unchanged. -/
theorem second_damage_rejected (rl : Raylib F) (p : Player F) (a1 a2 : F)
    (frames : List (Frame F)) (hinv : p.invulnerabilityTimer ≤ 0) (hhealth : 0 < p.health)
    (hdt : ∀ f ∈ frames, 0 ≤ f.deltaTime)
    (htotal : framesTime frames < INVULNERABILITY_DURATION) :
    ((p.takeDamage a1).updates rl frames).takeDamage a2 = (p.takeDamage a1).updates rl frames
      ∧ (((p.takeDamage a1).updates rl frames).takeDamage a2).health
          = ((p.takeDamage a1).updates rl frames).health := by
  have h1 : (p.takeDamage a1).invulnerabilityTimer = INVULNERABILITY_DURATION := by
    unfold Player.takeDamage
    rw [if_pos ⟨hinv, hhealth⟩]
  have h2 := Player.updates_invulnerabilityTimer rl frames (p.takeDamage a1) hdt
    (by rw [h1]; exact htotal)
  have h3 : 0 < ((p.takeDamage a1).updates rl frames).invulnerabilityTimer := by
    rw [h2, h1]; linarith
  have h4 := Player.takeDamage_of_invulnerable _ a2 h3
  exact ⟨h4, by rw [h4]⟩

/-- Witness for C9: the fresh player takes 10 damage, a quarter of a second
passes, and a second `takeDamage(10)` changes nothing. -/
theorem second_damage_rejected_witness :
    freshPlayer.invulnerabilityTimer ≤ 0 ∧ 0 < freshPlayer.health
      ∧ (∀ f ∈ quarterFrames 1, 0 ≤ f.deltaTime)
      ∧ framesTime (quarterFrames 1) < INVULNERABILITY_DURATION
      ∧ (((freshPlayer.takeDamage 10).updates sampleRaylib (quarterFrames 1)).takeDamage
          10).health
          = ((freshPlayer.takeDamage 10).updates sampleRaylib (quarterFrames 1)).health := by
  have h1 : freshPlayer.invulnerabilityTimer ≤ 0 := by decide!
  have h2 : 0 < freshPlayer.health := by decide!
  have h3 : ∀ f ∈ quarterFrames 1, 0 ≤ f.deltaTime := by decide!
  have h4 : framesTime (quarterFrames 1) < INVULNERABILITY_DURATION := by decide!
  exact ⟨h1, h2, h3, h4,
    (second_damage_rejected sampleRaylib freshPlayer 10 10 (quarterFrames 1) h1 h2 h3 h4).2⟩

/-- C9 (counterexample). A player with a tenth of a second of invulnerability
left: the first `takeDamage(10)` is rejected, an update of a fifth of a second
(less than `INVULNERABILITY_DURATION`) lets the invulnerability lapse, and the
second `takeDamage(10)` lowers the health from 100 to 90. -/
theorem second_damage_counterexample :
    (∀ f ∈ fifthSecondFrame, 0 ≤ f.deltaTime)
      ∧ framesTime fifthSecondFrame < INVULNERABILITY_DURATION
      ∧ ((brieflyInvulnerablePlayer.takeDamage 10).updates sampleRaylib
          fifthSecondFrame).health = 100
      ∧ (((brieflyInvulnerablePlayer.takeDamage 10).updates sampleRaylib
          fifthSecondFrame).takeDamage 10).health = 90 := by
  decide!

/-- C10. `Player::dash(direction)` changes the player exactly when `isDashing` is
false and `direction` is not the zero vector: then `isDashing` becomes true,
`dashTimer` is `DASH_DURATION`, `dashDirection` is `direction` scaled to unit
length, `invulnerabilityTimer` is at least `DASH_DURATION` and no other field
changes; when the player is already dashing or `direction` is the zero vector the
player is returned unchanged.  The square root is assumed exact at the squared
length of `direction`. -/
theorem dash_effect (rl : Raylib F) (p : Player F) (direction : Vector2 F)
    (hsqrt : SqrtExactAt rl (Vector2LengthSqr direction)) :
    (p.isDashing = false ∧ ¬ (direction.x = 0 ∧ direction.y = 0) →
        p.dash rl direction
            = { p with isDashing := true,
                       dashTimer := DASH_DURATION,
                       dashDirection := Vector2Normalize rl direction,
                       invulnerabilityTimer := DASH_DURATION }
          ∧ p.dash rl direction ≠ p
          ∧ (p.dash rl direction).isDashing = true
          ∧ (p.dash rl direction).dashTimer = DASH_DURATION
          ∧ Vector2LengthSqr (p.dash rl direction).dashDirection = 1
          ∧ 0 < Vector2Length rl direction
          ∧ Vector2Scale (p.dash rl direction).dashDirection (Vector2Length rl direction)
              = direction
          ∧ DASH_DURATION ≤ (p.dash rl direction).invulnerabilityTimer
          ∧ (p.dash rl direction).pos = p.pos
          ∧ (p.dash rl direction).health = p.health)
      ∧ (p.isDashing = true ∨ (direction.x = 0 ∧ direction.y = 0) →
          p.dash rl direction = p) := by
  obtain ⟨hd0, hdd⟩ := hsqrt
  simp only [Vector2LengthSqr] at hd0 hdd
  constructor
  · rintro ⟨hnd, hnz⟩
    have hne : direction.x * direction.x + direction.y * direction.y ≠ 0 := by
      intro h
      exact hnz (sq_sum_eq_zero h)
    have hpos : 0 < rl.sqrtf (direction.x * direction.x + direction.y * direction.y) := by
      rcases eq_or_lt_of_le hd0 with hz | hp
      · exfalso; apply hne; rw [← hdd, ← hz]; ring
      · exact hp
    have hlen : Vector2Length rl direction > 0 := hpos
    have e : p.dash rl direction
        = { p with isDashing := true,
                   dashTimer := DASH_DURATION,
                   dashDirection := Vector2Normalize rl direction,
                   invulnerabilityTimer := DASH_DURATION } := by
      unfold Player.dash
      rw [if_pos ⟨hnd, hlen⟩]
    have hn : Vector2Normalize rl direction
        = ⟨direction.x * (1 / rl.sqrtf (direction.x * direction.x + direction.y * direction.y)),
            direction.y
              * (1 / rl.sqrtf (direction.x * direction.x + direction.y * direction.y))⟩ := by
      unfold Vector2Normalize
      simp only [gt_iff_lt, if_pos hpos]
    refine ⟨e, ?_, by rw [e], by rw [e], ?_, hpos, ?_, by rw [e], by rw [e], by rw [e]⟩
    · intro h
      have : (p.dash rl direction).isDashing = p.isDashing := by rw [h]
      rw [e, hnd] at this
      exact Bool.noConfusion this
    · rw [e]
      simp only [hn, Vector2LengthSqr]
      have hs := ne_of_gt hpos
      field_simp
      rw [hdd]
    · rw [e]
      simp only [hn, Vector2Scale, Vector2Length]
      have hs := ne_of_gt hpos
      cases direction with
      | mk x y =>
        simp only at hs ⊢
        congr 1 <;> field_simp
  · intro h
    unfold Player.dash
    rw [if_neg]
    rintro ⟨hnd, hlen⟩
    rcases h with h | ⟨hx, hy⟩
    · rw [h] at hnd; exact Bool.noConfusion hnd
    · have hz : rl.sqrtf (direction.x * direction.x + direction.y * direction.y) = 0 := by
        have h0 : direction.x * direction.x + direction.y * direction.y = 0 := by
          rw [hx, hy]; ring
        rw [h0] at hdd ⊢
        exact mul_self_eq_zero.1 hdd
      have : Vector2Length rl direction = 0 := hz
      rw [this] at hlen
      exact lt_irrefl _ hlen

/-- Witness for C10: the fresh player dashes along (3, 4); the stored direction
is (3/5, 4/5). -/
theorem dash_effect_witness :
    SqrtExactAt sampleRaylib (Vector2LengthSqr (⟨3, 4⟩ : Vector2 ℚ))
      ∧ freshPlayer.isDashing = false
      ∧ (freshPlayer.dash sampleRaylib ⟨3, 4⟩).isDashing = true
      ∧ (freshPlayer.dash sampleRaylib ⟨3, 4⟩).dashTimer = DASH_DURATION
      ∧ Vector2LengthSqr (freshPlayer.dash sampleRaylib ⟨3, 4⟩).dashDirection = 1
      ∧ DASH_DURATION ≤ (freshPlayer.dash sampleRaylib ⟨3, 4⟩).invulnerabilityTimer
      ∧ (freshPlayer.dash sampleRaylib ⟨3, 4⟩).dash sampleRaylib ⟨1, 0⟩
          = freshPlayer.dash sampleRaylib ⟨3, 4⟩ := by
  have h1 : SqrtExactAt sampleRaylib (Vector2LengthSqr (⟨3, 4⟩ : Vector2 ℚ)) := by
    unfold SqrtExactAt; decide!
  have h2 : freshPlayer.isDashing = false := by decide!
  have h3 : ¬ ((3 : ℚ) = 0 ∧ (4 : ℚ) = 0) := by decide!
  have h4 : SqrtExactAt sampleRaylib (Vector2LengthSqr (⟨1, 0⟩ : Vector2 ℚ)) := by
    unfold SqrtExactAt; decide!
  have key := (dash_effect sampleRaylib freshPlayer ⟨3, 4⟩ h1).1 ⟨h2, h3⟩
  exact ⟨h1, h2, key.2.2.1, key.2.2.2.1, key.2.2.2.2.1, key.2.2.2.2.2.2.2.1,
    (dash_effect sampleRaylib (freshPlayer.dash sampleRaylib ⟨3, 4⟩) ⟨1, 0⟩ h4).2
      (Or.inl key.2.2.1)⟩

end PlayerClaims

/-! ## Claims about the frame -/

section FrameClaims

/-- C1 (the code at a failing input). The player has health 80 and half a second
of invulnerability; a tank zombie in ATTACKING stands 3 away with its cooldown
ready.  `Player::update` leaves the health at 80 and the invulnerability timer
positive (the contact damage is rejected), yet the zombie update that follows
writes 60 into the player health. -/
theorem melee_ignores_invulnerability :
    0 < (invulnerableGame.player.update sampleRaylib (1 / 60) invulnerableGame.zombies
          []).1.invulnerabilityTimer
      ∧ (invulnerableGame.player.update sampleRaylib (1 / 60) invulnerableGame.zombies
          []).1.health = 80
      ∧ (attackingTank.update sampleRaylib ⟨600, 400⟩ (1 / 60) [] 80).2 = 60
      ∧ (frameUpdate sampleRaylib invulnerableGame (1 / 60) []).player.health = 60
      ∧ 0 < (frameUpdate sampleRaylib invulnerableGame (1 / 60)
          []).player.invulnerabilityTimer := by
  decide!

/-- C2 (the code at a failing input). The player starts the frame with health 10
of 100; after `Player::update`, the zombie update and the removal of dead
zombies the health is -31/3, below 0. -/
theorem frame_end_health_negative :
    0 ≤ woundedGame.player.health
      ∧ woundedGame.player.health ≤ woundedGame.player.maxHealth
      ∧ (frameUpdate sampleRaylib woundedGame (1 / 60) []).player.health = -31 / 3
      ∧ (frameUpdate sampleRaylib woundedGame (1 / 60) []).player.health < 0 := by
  decide!

end FrameClaims

/-! ## Claims about damage intake and the dash timer -/

section DamageClaims

variable {F : Type} [LinearOrderedField F]

/-- C11, amended. After `Player::dash(direction)` the `invulnerabilityTimer` is
either `DASH_DURATION` (a successful dash sets it to exactly that, not to the
maximum with its previous value) or its previous value (a rejected dash); so it is
>= its value before the call whenever that value was at most `DASH_DURATION` or
the dash was rejected because the player was already dashing. -/
theorem dash_invulnerability_timer (rl : Raylib F) (p : Player F) (direction : Vector2 F) :
    ((p.dash rl direction).invulnerabilityTimer = DASH_DURATION
        ∨ (p.dash rl direction).invulnerabilityTimer = p.invulnerabilityTimer)
      ∧ ((p.dash rl direction).isDashing = true ∧ p.isDashing = false →
          (p.dash rl direction).invulnerabilityTimer = DASH_DURATION)
      ∧ (p.invulnerabilityTimer ≤ DASH_DURATION →
          p.invulnerabilityTimer ≤ (p.dash rl direction).invulnerabilityTimer)
      ∧ (p.isDashing = true →
          (p.dash rl direction).invulnerabilityTimer = p.invulnerabilityTimer) := by
  unfold Player.dash
  split_ifs with h
  · refine ⟨Or.inl rfl, fun _ => rfl, fun hle => hle, fun hd => ?_⟩
    rw [h.1] at hd
    exact Bool.noConfusion hd
  · refine ⟨Or.inr rfl, fun hd => ?_, fun _ => le_refl _, fun _ => rfl⟩
    rw [hd.2] at hd
    exact Bool.noConfusion hd.1

/-- Witness for C11: the fresh player (invulnerability timer 0) dashes and the
timer becomes `DASH_DURATION`. -/
theorem dash_invulnerability_timer_witness :
    freshPlayer.invulnerabilityTimer ≤ DASH_DURATION
      ∧ freshPlayer.invulnerabilityTimer
          ≤ (freshPlayer.dash sampleRaylib ⟨1, 0⟩).invulnerabilityTimer
      ∧ (freshPlayer.dash sampleRaylib ⟨1, 0⟩).invulnerabilityTimer = DASH_DURATION := by
  have h1 : freshPlayer.invulnerabilityTimer ≤ DASH_DURATION := by decide!
  have h2 : (freshPlayer.dash sampleRaylib ⟨1, 0⟩).isDashing = true
      ∧ freshPlayer.isDashing = false := by decide!
  have key := dash_invulnerability_timer sampleRaylib freshPlayer ⟨1, 0⟩
  exact ⟨h1, key.2.2.1 h1, key.2.1 h2⟩

/-- C11 (counterexample). The player has just taken damage, so the
invulnerability timer is 1/2; a dash to the right succeeds and leaves the timer
at 3/20, below its value before the call. -/
theorem dash_shortens_invulnerability :
    justHitPlayer.invulnerabilityTimer = 1 / 2
      ∧ (justHitPlayer.dash sampleRaylib ⟨1, 0⟩).isDashing = true
      ∧ (justHitPlayer.dash sampleRaylib ⟨1, 0⟩).invulnerabilityTimer = 3 / 20
      ∧ (justHitPlayer.dash sampleRaylib ⟨1, 0⟩).invulnerabilityTimer
          < justHitPlayer.invulnerabilityTimer := by
  decide!

/-- C12. `Player::takeDamage(amount)` returns the player unchanged when
`invulnerabilityTimer > 0` or `health <= 0`; otherwise it sets `health` to
`health - amount`, `invulnerabilityTimer` to `INVULNERABILITY_DURATION`,
`damageTakenFlashTimer` to `DAMAGE_FLASH_DURATION` and `timeSinceLastDamage` to 0
and changes no other field (position, dash state, `regenTimer`,
`muzzleFlashTimer`, bullets among them). -/
theorem player_takeDamage_effect (p : Player F) (amount : F) :
    (0 < p.invulnerabilityTimer ∨ p.health ≤ 0 → p.takeDamage amount = p)
      ∧ (p.invulnerabilityTimer ≤ 0 ∧ 0 < p.health →
          p.takeDamage amount
              = { p with health := p.health - amount,
                         invulnerabilityTimer := INVULNERABILITY_DURATION,
                         damageTakenFlashTimer := DAMAGE_FLASH_DURATION,
                         timeSinceLastDamage := 0 }
            ∧ (p.takeDamage amount).health = p.health - amount
            ∧ (p.takeDamage amount).invulnerabilityTimer = INVULNERABILITY_DURATION
            ∧ (p.takeDamage amount).damageTakenFlashTimer = DAMAGE_FLASH_DURATION
            ∧ (p.takeDamage amount).timeSinceLastDamage = 0
            ∧ (p.takeDamage amount).pos = p.pos
            ∧ (p.takeDamage amount).isDashing = p.isDashing
            ∧ (p.takeDamage amount).dashTimer = p.dashTimer
            ∧ (p.takeDamage amount).dashDirection = p.dashDirection
            ∧ (p.takeDamage amount).regenTimer = p.regenTimer
            ∧ (p.takeDamage amount).muzzleFlashTimer = p.muzzleFlashTimer
            ∧ (p.takeDamage amount).bullets = p.bullets) := by
  constructor
  · intro h
    unfold Player.takeDamage
    rw [if_neg]
    rintro ⟨h1, h2⟩
    rcases h with h | h
    · exact absurd h (not_lt.2 h1)
    · exact absurd h2 (not_lt.2 h)
  · intro h
    have e : p.takeDamage amount
        = { p with health := p.health - amount,
                   invulnerabilityTimer := INVULNERABILITY_DURATION,
                   damageTakenFlashTimer := DAMAGE_FLASH_DURATION,
                   timeSinceLastDamage := 0 } := by
      unfold Player.takeDamage
      rw [if_pos ⟨h.1, h.2⟩]
    rw [e]
    refine ⟨rfl, ?_⟩
    simp only [and_self]

/-- Witness for C12: the fresh player accepts `takeDamage(10)` and is then
invulnerable, so a second `takeDamage(10)` changes nothing. -/
theorem player_takeDamage_effect_witness :
    freshPlayer.invulnerabilityTimer ≤ 0 ∧ 0 < freshPlayer.health
      ∧ (freshPlayer.takeDamage 10).health = freshPlayer.health - 10
      ∧ (freshPlayer.takeDamage 10).timeSinceLastDamage = 0
      ∧ 0 < justHitPlayer.invulnerabilityTimer
      ∧ justHitPlayer.takeDamage 10 = justHitPlayer := by
  have h1 : freshPlayer.invulnerabilityTimer ≤ 0 := by decide!
  have h2 : 0 < freshPlayer.health := by decide!
  have h3 : 0 < justHitPlayer.invulnerabilityTimer := by decide!
  have key := (player_takeDamage_effect freshPlayer 10).2 ⟨h1, h2⟩
  exact ⟨h1, h2, key.2.1, key.2.2.2.2.1, h3,
    (player_takeDamage_effect justHitPlayer 10).1 (Or.inl h3)⟩

/-- C13. `Zombie::takeDamage(dmg)` returns the zombie unchanged when the state
is DYING or DEAD; otherwise it sets `health` to `health - dmg` and `hitFlashTimer`
to `ZOMBIE_HIT_FLASH_DURATION` if the new health is > 0 and to 0 if it is <= 0,
and changes no other field (state, position and the other timers among them). -/
theorem zombie_takeDamage_effect (z : Zombie F) (dmg : ℤ) :
    (z.currentState = ZombieState.DYING ∨ z.currentState = ZombieState.DEAD →
        z.takeDamage dmg = z)
      ∧ (z.currentState = ZombieState.CHASING ∨ z.currentState = ZombieState.ATTACKING →
          z.takeDamage dmg
              = { z with health := z.health - dmg,
                         hitFlashTimer :=
                           if 0 < z.health - dmg then ZOMBIE_HIT_FLASH_DURATION else 0 }
            ∧ (z.takeDamage dmg).health = z.health - dmg
            ∧ (0 < z.health - dmg →
                (z.takeDamage dmg).hitFlashTimer = ZOMBIE_HIT_FLASH_DURATION)
            ∧ (z.health - dmg ≤ 0 → (z.takeDamage dmg).hitFlashTimer = 0)
            ∧ (z.takeDamage dmg).currentState = z.currentState
            ∧ (z.takeDamage dmg).pos = z.pos
            ∧ (z.takeDamage dmg).attackCooldownTimer = z.attackCooldownTimer
            ∧ (z.takeDamage dmg).deathTimer = z.deathTimer) := by
  constructor
  · intro h
    unfold Zombie.takeDamage
    rw [if_pos h]
  · intro h
    have hn : ¬ (z.currentState = ZombieState.DYING ∨ z.currentState = ZombieState.DEAD) := by
      rcases h with h | h <;> simp [h]
    have e : z.takeDamage dmg
        = { z with health := z.health - dmg,
                   hitFlashTimer :=
                     if 0 < z.health - dmg then ZOMBIE_HIT_FLASH_DURATION else 0 } := by
      unfold Zombie.takeDamage
      rw [if_neg hn]
      simp only
      split_ifs with h1 h2 h2
      · exact absurd h2 (not_lt.2 h1)
      · rfl
      · rfl
      · exact absurd (not_lt.1 h2) h1
    rw [e]
    refine ⟨rfl, rfl, fun hp => ?_, fun hnp => ?_, rfl, rfl, rfl, rfl⟩
    · simp only [if_pos hp]
    · simp only [if_neg (not_lt.2 hnp)]

/-- Witness for C13: a fast zombie (health 50) takes 20 damage and flashes; the
dying zombie ignores the call. -/
theorem zombie_takeDamage_effect_witness :
    ((FastZombie ⟨0, 0⟩ : Zombie ℚ).currentState = ZombieState.CHASING
        ∨ (FastZombie ⟨0, 0⟩ : Zombie ℚ).currentState = ZombieState.ATTACKING)
      ∧ ((FastZombie ⟨0, 0⟩ : Zombie ℚ).takeDamage 20).health = 30
      ∧ ((FastZombie ⟨0, 0⟩ : Zombie ℚ).takeDamage 20).hitFlashTimer
          = ZOMBIE_HIT_FLASH_DURATION
      ∧ (dyingZombie.currentState = ZombieState.DYING
          ∨ dyingZombie.currentState = ZombieState.DEAD)
      ∧ dyingZombie.takeDamage 20 = dyingZombie := by
  have h1 : (FastZombie ⟨0, 0⟩ : Zombie ℚ).currentState = ZombieState.CHASING
      ∨ (FastZombie ⟨0, 0⟩ : Zombie ℚ).currentState = ZombieState.ATTACKING := by decide!
  have h2 : dyingZombie.currentState = ZombieState.DYING
      ∨ dyingZombie.currentState = ZombieState.DEAD := by decide!
  have key := (zombie_takeDamage_effect (FastZombie ⟨0, 0⟩ : Zombie ℚ) 20).2 h1
  exact ⟨h1, key.2.1, key.2.2.1 (by decide!), h2, (zombie_takeDamage_effect dyingZombie 20).1 h2⟩

end DamageClaims

/-! ## Zombie: the CHASING and ATTACKING branches of `update` -/

section ZombieBranches

variable {F : Type} [LinearOrderedField F]

lemma Zombie.updateTimers_size (z : Zombie F) (dt : F) : (z.updateTimers dt).size = z.size := by
  unfold Zombie.updateTimers; simp only; split_ifs <;> rfl

lemma Zombie.updateTimers_damage (z : Zombie F) (dt : F) :
    (z.updateTimers dt).damage = z.damage := by
  unfold Zombie.updateTimers; simp only; split_ifs <;> rfl

lemma Zombie.healthCheck_pos (z : Zombie F) : z.healthCheck.pos = z.pos := by
  unfold Zombie.healthCheck; simp only; split_ifs <;> rfl

lemma Zombie.healthCheck_attackCooldownTimer (z : Zombie F) :
    z.healthCheck.attackCooldownTimer = z.attackCooldownTimer := by
  unfold Zombie.healthCheck; simp only; split_ifs <;> rfl

lemma Zombie.healthCheck_currentState (z : Zombie F) (h : 0 < z.health) :
    z.healthCheck.currentState = z.currentState := by
  unfold Zombie.healthCheck
  simp only
  rw [if_neg]
  rintro ⟨h1, -⟩
  exact absurd h (not_lt.2 h1)

lemma Zombie.update_of_not_dead (rl : Raylib F) (z : Zombie F) (pp : Vector2 F) (dt : F)
    (walls : List (Rectangle F)) (ph : F) (h : z.currentState ≠ ZombieState.DEAD) :
    z.update rl pp dt walls ph
      = (((z.updateTimers dt).updateSwitch rl pp dt walls ph).1.healthCheck,
          ((z.updateTimers dt).updateSwitch rl pp dt walls ph).2) := by
  unfold Zombie.update
  rw [if_neg h]

lemma Zombie.updateSwitch_attacking (rl : Raylib F) (z : Zombie F) (pp : Vector2 F) (dt : F)
    (walls : List (Rectangle F)) (ph : F) (hs : z.currentState = ZombieState.ATTACKING) :
    z.updateSwitch rl pp dt walls ph
      = if Vector2Distance rl z.pos pp < z.size + 20 - ZOMBIE_ATTACK_RANGE_BUFFER
            ∧ z.attackCooldownTimer ≤ 0 then
          ({ z with attackCooldownTimer := ZOMBIE_ATTACK_COOLDOWN,
                    currentState := ZombieState.CHASING }, ph - (z.damage : F))
        else if Vector2Distance rl z.pos pp ≥ z.size + 20 ∨ z.attackCooldownTimer > 0 then
          ({ z with currentState := ZombieState.CHASING }, ph)
        else (z, ph) := by
  have hcd : (0 : F) < ZOMBIE_ATTACK_COOLDOWN := by
    unfold ZOMBIE_ATTACK_COOLDOWN
    exact one_pos
  unfold Zombie.updateSwitch
  simp only [hs]
  by_cases h1 : Vector2Distance rl z.pos pp < z.size + 20 - ZOMBIE_ATTACK_RANGE_BUFFER
      ∧ z.attackCooldownTimer ≤ 0
  · have hr : z.handleAttackingState rl pp ph
        = ({ z with attackCooldownTimer := ZOMBIE_ATTACK_COOLDOWN }, ph - (z.damage : F)) := by
      unfold Zombie.handleAttackingState
      simp only
      rw [if_pos h1]
    rw [hr, if_pos h1]
    simp only
    rw [if_pos (Or.inr hcd)]
  · have hr : z.handleAttackingState rl pp ph = (z, ph) := by
      unfold Zombie.handleAttackingState
      simp only
      rw [if_neg h1]
    rw [hr, if_neg h1]

lemma Zombie.updateSwitch_chasing (rl : Raylib F) (z : Zombie F) (pp : Vector2 F) (dt : F)
    (walls : List (Rectangle F)) (ph : F) (hs : z.currentState = ZombieState.CHASING) :
    z.updateSwitch rl pp dt walls ph
      = if Vector2Distance rl (z.handleChasingState rl pp dt walls).pos pp
              < z.size + 20 - ZOMBIE_ATTACK_RANGE_BUFFER
            ∧ z.attackCooldownTimer ≤ 0 then
          ({ z.handleChasingState rl pp dt walls with currentState := ZombieState.ATTACKING },
            ph)
        else (z.handleChasingState rl pp dt walls, ph) := by
  unfold Zombie.updateSwitch
  simp only [hs]
  rfl

lemma Zombie.update_attacking (rl : Raylib F) (z : Zombie F) (pp : Vector2 F) (dt : F)
    (walls : List (Rectangle F)) (ph : F) (hs : z.currentState = ZombieState.ATTACKING) :
    (z.update rl pp dt walls ph).2
        = (if Vector2Distance rl z.pos pp < z.size + 20 - ZOMBIE_ATTACK_RANGE_BUFFER
              ∧ (z.updateTimers dt).attackCooldownTimer ≤ 0 then ph - (z.damage : F) else ph)
      ∧ (z.update rl pp dt walls ph).1.pos = z.pos
      ∧ (z.update rl pp dt walls ph).1.attackCooldownTimer
          = (if Vector2Distance rl z.pos pp < z.size + 20 - ZOMBIE_ATTACK_RANGE_BUFFER
                ∧ (z.updateTimers dt).attackCooldownTimer ≤ 0 then ZOMBIE_ATTACK_COOLDOWN
              else (z.updateTimers dt).attackCooldownTimer)
      ∧ (0 < z.health →
          (z.update rl pp dt walls ph).1.currentState
            = (if Vector2Distance rl z.pos pp < z.size + 20 - ZOMBIE_ATTACK_RANGE_BUFFER
                  ∧ (z.updateTimers dt).attackCooldownTimer ≤ 0 then ZombieState.CHASING
                else if Vector2Distance rl z.pos pp ≥ z.size + 20
                  ∨ (z.updateTimers dt).attackCooldownTimer > 0 then ZombieState.CHASING
                else ZombieState.ATTACKING)) := by
  have hnd : z.currentState ≠ ZombieState.DEAD := by simp [hs]
  have hT : (z.updateTimers dt).currentState = ZombieState.ATTACKING := by
    rw [z.updateTimers_currentState, hs]
  have hsw := Zombie.updateSwitch_attacking rl (z.updateTimers dt) pp dt walls ph hT
  rw [z.updateTimers_pos, z.updateTimers_size, z.updateTimers_damage] at hsw
  have hh := Zombie.updateSwitch_health rl (z.updateTimers dt) pp dt walls ph
  rw [z.updateTimers_health] at hh
  rw [Zombie.update_of_not_dead rl z pp dt walls ph hnd]
  refine ⟨?_, ?_, ?_, ?_⟩
  · show ((z.updateTimers dt).updateSwitch rl pp dt walls ph).2 = _
    rw [hsw]
    split_ifs <;> rfl
  · show ((z.updateTimers dt).updateSwitch rl pp dt walls ph).1.healthCheck.pos = _
    rw [Zombie.healthCheck_pos, hsw]
    split_ifs <;> first | rfl | exact z.updateTimers_pos dt
  · show ((z.updateTimers dt).updateSwitch rl pp dt walls ph).1.healthCheck.attackCooldownTimer
      = _
    rw [Zombie.healthCheck_attackCooldownTimer, hsw]
    split_ifs <;> rfl
  · intro hpos
    show ((z.updateTimers dt).updateSwitch rl pp dt walls ph).1.healthCheck.currentState = _
    rw [Zombie.healthCheck_currentState _ (by rw [hh]; exact hpos), hsw]
    split_ifs
    · rfl
    · rfl
    · exact hT

lemma Zombie.update_chasing (rl : Raylib F) (z : Zombie F) (pp : Vector2 F) (dt : F)
    (walls : List (Rectangle F)) (ph : F) (hs : z.currentState = ZombieState.CHASING) :
    (z.update rl pp dt walls ph).2 = ph
      ∧ (z.update rl pp dt walls ph).1.pos
          = ((z.updateTimers dt).handleChasingState rl pp dt walls).pos
      ∧ (0 < z.health →
          (z.update rl pp dt walls ph).1.currentState
            = (if Vector2Distance rl
                    ((z.updateTimers dt).handleChasingState rl pp dt walls).pos pp
                    < z.size + 20 - ZOMBIE_ATTACK_RANGE_BUFFER
                  ∧ (z.updateTimers dt).attackCooldownTimer ≤ 0 then ZombieState.ATTACKING
                else ZombieState.CHASING)) := by
  have hnd : z.currentState ≠ ZombieState.DEAD := by simp [hs]
  have hT : (z.updateTimers dt).currentState = ZombieState.CHASING := by
    rw [z.updateTimers_currentState, hs]
  have hsw := Zombie.updateSwitch_chasing rl (z.updateTimers dt) pp dt walls ph hT
  rw [z.updateTimers_size] at hsw
  have hh := Zombie.updateSwitch_health rl (z.updateTimers dt) pp dt walls ph
  rw [z.updateTimers_health] at hh
  have hc : ((z.updateTimers dt).handleChasingState rl pp dt walls).currentState
      = ZombieState.CHASING := hT
  rw [Zombie.update_of_not_dead rl z pp dt walls ph hnd]
  refine ⟨?_, ?_, ?_⟩
  · show ((z.updateTimers dt).updateSwitch rl pp dt walls ph).2 = _
    rw [hsw]
    split_ifs <;> rfl
  · show ((z.updateTimers dt).updateSwitch rl pp dt walls ph).1.healthCheck.pos = _
    rw [Zombie.healthCheck_pos, hsw]
    split_ifs <;> rfl
  · intro hpos
    show ((z.updateTimers dt).updateSwitch rl pp dt walls ph).1.healthCheck.currentState = _
    rw [Zombie.healthCheck_currentState _ (by rw [hh]; exact hpos), hsw]
    split_ifs
    · rfl
    · exact hc

end ZombieBranches

/-! ## Claims about the CHASING and ATTACKING transitions -/

section TransitionClaims

variable {F : Type} [LinearOrderedField F]

/-- C14, amended. For a zombie in ATTACKING with health > 0: if, after the timer
decrement of the update, the distance to the player is >= size + 20 or the attack
cooldown is still > 0, then `Zombie::update` ends in CHASING; it also ends in
CHASING after an attack (distance < size + 20 - `ZOMBIE_ATTACK_RANGE_BUFFER`,
cooldown ready), because the attack re-arms the cooldown.  At a distance from
size + 20 - `ZOMBIE_ATTACK_RANGE_BUFFER` up to, but excluding, size + 20 with the
cooldown ready the zombie stays ATTACKING. -/
theorem attacking_to_chasing (rl : Raylib F) (z : Zombie F) (playerPos : Vector2 F)
    (deltaTime : F) (walls : List (Rectangle F)) (playerHealth : F)
    (hstate : z.currentState = ZombieState.ATTACKING) (hhealth : 0 < z.health) :
    (Vector2Distance rl z.pos playerPos ≥ z.size + 20
          ∨ (z.updateTimers deltaTime).attackCooldownTimer > 0 →
        (z.update rl playerPos deltaTime walls playerHealth).1.currentState
          = ZombieState.CHASING)
      ∧ (Vector2Distance rl z.pos playerPos < z.size + 20 - ZOMBIE_ATTACK_RANGE_BUFFER
            ∧ (z.updateTimers deltaTime).attackCooldownTimer ≤ 0 →
          (z.update rl playerPos deltaTime walls playerHealth).1.currentState
            = ZombieState.CHASING)
      ∧ (z.size + 20 - ZOMBIE_ATTACK_RANGE_BUFFER ≤ Vector2Distance rl z.pos playerPos
            ∧ Vector2Distance rl z.pos playerPos < z.size + 20
            ∧ (z.updateTimers deltaTime).attackCooldownTimer ≤ 0 →
          (z.update rl playerPos deltaTime walls playerHealth).1.currentState
            = ZombieState.ATTACKING) := by
  have key := (Zombie.update_attacking rl z playerPos deltaTime walls playerHealth
    hstate).2.2.2 hhealth
  rw [key]
  refine ⟨fun h => ?_, fun h => ?_, fun h => ?_⟩
  · split_ifs <;> rfl
  · rw [if_pos h]
  · rw [if_neg (fun hc => absurd hc.1 (not_lt.2 h.1)),
      if_neg (fun hc => hc.elim (fun h1 => absurd h.2.1 (not_lt.2 h1))
        (fun h2 => absurd h2 (not_lt.2 h.2.2)))]

/-- Witness for C14: the tank whose cooldown is still running goes back to
CHASING. -/
theorem attacking_to_chasing_witness :
    coolingTank.currentState = ZombieState.ATTACKING ∧ 0 < coolingTank.health
      ∧ (coolingTank.updateTimers (1 / 60)).attackCooldownTimer > 0
      ∧ (coolingTank.update sampleRaylib ⟨600, 400⟩ (1 / 60) [] 100).1.currentState
          = ZombieState.CHASING := by
  have h1 : coolingTank.currentState = ZombieState.ATTACKING := by decide!
  have h2 : 0 < coolingTank.health := by decide!
  have h3 : (coolingTank.updateTimers (1 / 60)).attackCooldownTimer > 0 := by decide!
  exact ⟨h1, h2, h3,
    (attacking_to_chasing sampleRaylib coolingTank ⟨600, 400⟩ (1 / 60) [] 100 h1 h2).1
      (Or.inr h3)⟩

/-- C14 (counterexample). A fast zombie (size 15) in ATTACKING with health 50 and
its cooldown ready stands 32 from the player: not within the engagement threshold
30, yet short of 35.  After the update it is still ATTACKING, not CHASING. -/
theorem attacking_stays_in_buffer_band :
    hoveringFast.currentState = ZombieState.ATTACKING ∧ 0 < hoveringFast.health
      ∧ Vector2Distance sampleRaylib hoveringFast.pos ⟨600, 400⟩
          ≥ hoveringFast.size + 20 - ZOMBIE_ATTACK_RANGE_BUFFER
      ∧ (hoveringFast.update sampleRaylib ⟨600, 400⟩ (1 / 60) [] 100).1.currentState
          = ZombieState.ATTACKING
      ∧ (hoveringFast.update sampleRaylib ⟨600, 400⟩ (1 / 60) [] 100).1.currentState
          ≠ ZombieState.CHASING := by
  have hd : Vector2Distance sampleRaylib hoveringFast.pos ⟨600, 400⟩ = 32 := by
    show Rat.sqrt ((632 - 600) * (632 - 600) + (400 - 400) * (400 - 400)) = 32
    rw [show ((632 : ℚ) - 600) * (632 - 600) + (400 - 400) * (400 - 400) = 32 * 32 by norm_num,
      Rat.sqrt_eq]
    norm_num
  have hsize : hoveringFast.size = 15 := rfl
  have hcd : (hoveringFast.updateTimers (1 / 60)).attackCooldownTimer = 0 := by decide!
  have h1 : hoveringFast.currentState = ZombieState.ATTACKING := rfl
  have h2 : 0 < hoveringFast.health := by decide!
  have key := (Zombie.update_attacking sampleRaylib hoveringFast ⟨600, 400⟩ (1 / 60) [] 100
    h1).2.2.2 h2
  rw [hd, hsize, hcd] at key
  have e : (hoveringFast.update sampleRaylib ⟨600, 400⟩ (1 / 60) [] 100).1.currentState
      = ZombieState.ATTACKING := by
    rw [key]
    unfold ZOMBIE_ATTACK_RANGE_BUFFER
    norm_num
  refine ⟨h1, h2, ?_, e, ?_⟩
  · rw [hd, hsize]
    unfold ZOMBIE_ATTACK_RANGE_BUFFER
    norm_num
  · rw [e]
    decide

/-- C15. For a zombie in CHASING with health > 0, the state after
`Zombie::update` is ATTACKING if and only if the distance to the player, measured
from the position after the move and the wall resolution (the position the
update returns), is < size + 20 - `ZOMBIE_ATTACK_RANGE_BUFFER` and
`attackCooldownTimer` after its decrement is <= 0; otherwise the state is still
CHASING. -/
theorem chasing_to_attacking (rl : Raylib F) (z : Zombie F) (playerPos : Vector2 F)
    (deltaTime : F) (walls : List (Rectangle F)) (playerHealth : F)
    (hstate : z.currentState = ZombieState.CHASING) (hhealth : 0 < z.health) :
    ((z.update rl playerPos deltaTime walls playerHealth).1.currentState
          = ZombieState.ATTACKING
        ↔ Vector2Distance rl (z.update rl playerPos deltaTime walls playerHealth).1.pos
              playerPos < z.size + 20 - ZOMBIE_ATTACK_RANGE_BUFFER
            ∧ (z.updateTimers deltaTime).attackCooldownTimer ≤ 0)
      ∧ (¬ (Vector2Distance rl (z.update rl playerPos deltaTime walls playerHealth).1.pos
                playerPos < z.size + 20 - ZOMBIE_ATTACK_RANGE_BUFFER
              ∧ (z.updateTimers deltaTime).attackCooldownTimer ≤ 0) →
          (z.update rl playerPos deltaTime walls playerHealth).1.currentState
            = ZombieState.CHASING)
      ∧ (z.update rl playerPos deltaTime walls playerHealth).1.pos
          = ((z.updateTimers deltaTime).handleChasingState rl playerPos deltaTime walls).pos := by
  obtain ⟨-, hpos, hst⟩ := Zombie.update_chasing rl z playerPos deltaTime walls playerHealth
    hstate
  have key := hst hhealth
  rw [hpos, key]
  refine ⟨⟨fun h => ?_, fun h => by rw [if_pos h]⟩, fun h => by rw [if_neg h], rfl⟩
  by_contra hc
  rw [if_neg hc] at h
  exact ZombieState.noConfusion h

/-- Witness for C15: a fast zombie in CHASING that, after its move, stands 1 from
the player with its cooldown ready ends the update in ATTACKING. -/
theorem chasing_to_attacking_witness :
    arrivingFast.currentState = ZombieState.CHASING ∧ 0 < arrivingFast.health
      ∧ Vector2Distance sampleRaylib
          (arrivingFast.update sampleRaylib ⟨600, 400⟩ (1 / 60) [] 100).1.pos ⟨600, 400⟩
          < arrivingFast.size + 20 - ZOMBIE_ATTACK_RANGE_BUFFER
      ∧ (arrivingFast.updateTimers (1 / 60)).attackCooldownTimer ≤ 0
      ∧ (arrivingFast.update sampleRaylib ⟨600, 400⟩ (1 / 60) [] 100).1.currentState
          = ZombieState.ATTACKING := by
  have h1 : arrivingFast.currentState = ZombieState.CHASING := by decide!
  have h2 : 0 < arrivingFast.health := by decide!
  have h3 : Vector2Distance sampleRaylib
      (arrivingFast.update sampleRaylib ⟨600, 400⟩ (1 / 60) [] 100).1.pos ⟨600, 400⟩
      < arrivingFast.size + 20 - ZOMBIE_ATTACK_RANGE_BUFFER := by decide!
  have h4 : (arrivingFast.updateTimers (1 / 60)).attackCooldownTimer ≤ 0 := by decide!
  exact ⟨h1, h2, h3, h4,
    (chasing_to_attacking sampleRaylib arrivingFast ⟨600, 400⟩ (1 / 60) [] 100 h1 h2).1.2
      ⟨h3, h4⟩⟩

/-- C16. For a zombie in ATTACKING, `Zombie::update` does not change the
position.  If after the timer decrement the distance to the player is
< size + 20 - `ZOMBIE_ATTACK_RANGE_BUFFER` and `attackCooldownTimer` <= 0, the
player health decreases by exactly the damage of the zombie and
`attackCooldownTimer` becomes `ZOMBIE_ATTACK_COOLDOWN`; otherwise the update
returns the player health it was given and the cooldown as the timer decrement
left it. -/
theorem attacking_update_effect (rl : Raylib F) (z : Zombie F) (playerPos : Vector2 F)
    (deltaTime : F) (walls : List (Rectangle F)) (playerHealth : F)
    (hstate : z.currentState = ZombieState.ATTACKING) :
    (z.update rl playerPos deltaTime walls playerHealth).1.pos = z.pos
      ∧ (Vector2Distance rl z.pos playerPos < z.size + 20 - ZOMBIE_ATTACK_RANGE_BUFFER
            ∧ (z.updateTimers deltaTime).attackCooldownTimer ≤ 0 →
          (z.update rl playerPos deltaTime walls playerHealth).2
              = playerHealth - (z.damage : F)
            ∧ (z.update rl playerPos deltaTime walls playerHealth).1.attackCooldownTimer
              = ZOMBIE_ATTACK_COOLDOWN)
      ∧ (¬ (Vector2Distance rl z.pos playerPos < z.size + 20 - ZOMBIE_ATTACK_RANGE_BUFFER
              ∧ (z.updateTimers deltaTime).attackCooldownTimer ≤ 0) →
          (z.update rl playerPos deltaTime walls playerHealth).2 = playerHealth
            ∧ (z.update rl playerPos deltaTime walls playerHealth).1.attackCooldownTimer
              = (z.updateTimers deltaTime).attackCooldownTimer) := by
  obtain ⟨h2, hpos, hcd, -⟩ := Zombie.update_attacking rl z playerPos deltaTime walls
    playerHealth hstate
  rw [h2, hcd]
  exact ⟨hpos, fun h => by rw [if_pos h, if_pos h]; exact ⟨rfl, rfl⟩,
    fun h => by rw [if_neg h, if_neg h]; exact ⟨rfl, rfl⟩⟩

/-- Witness for C16: the attacking tank, 3 from the player with its cooldown
ready, takes 20 off a player health of 80 and re-arms its cooldown. -/
theorem attacking_update_effect_witness :
    attackingTank.currentState = ZombieState.ATTACKING
      ∧ (Vector2Distance sampleRaylib attackingTank.pos ⟨600, 400⟩
            < attackingTank.size + 20 - ZOMBIE_ATTACK_RANGE_BUFFER
          ∧ (attackingTank.updateTimers (1 / 60)).attackCooldownTimer ≤ 0)
      ∧ (attackingTank.update sampleRaylib ⟨600, 400⟩ (1 / 60) [] 80).2
          = 80 - (attackingTank.damage : ℚ)
      ∧ (attackingTank.update sampleRaylib ⟨600, 400⟩ (1 / 60) [] 80).1.attackCooldownTimer
          = ZOMBIE_ATTACK_COOLDOWN
      ∧ (attackingTank.update sampleRaylib ⟨600, 400⟩ (1 / 60) [] 80).1.pos
          = attackingTank.pos := by
  have h1 : attackingTank.currentState = ZombieState.ATTACKING := by decide!
  have h2 : Vector2Distance sampleRaylib attackingTank.pos ⟨600, 400⟩
        < attackingTank.size + 20 - ZOMBIE_ATTACK_RANGE_BUFFER
      ∧ (attackingTank.updateTimers (1 / 60)).attackCooldownTimer ≤ 0 := by decide!
  have key := attacking_update_effect sampleRaylib attackingTank ⟨600, 400⟩ (1 / 60) [] 80 h1
  exact ⟨h1, h2, (key.2.1 h2).1, (key.2.1 h2).2, key.1⟩

end TransitionClaims

/-! ## Bullets: structural facts about the bullet loop -/

section BulletFacts

variable {F : Type} [LinearOrderedField F]

lemma bulletHits_iff (rl : Raylib F) (b : Bullet F) (z : Zombie F) :
    bulletHits rl b z = true ↔ Vector2Distance rl b.pos z.pos < b.radius + z.size := by
  unfold bulletHits
  exact decide_eq_true_iff

lemma bulletHits_eq_false_iff (rl : Raylib F) (b : Bullet F) (z : Zombie F) :
    bulletHits rl b z = false ↔ ¬ Vector2Distance rl b.pos z.pos < b.radius + z.size := by
  unfold bulletHits
  exact decide_eq_false_iff_not

lemma bulletHitZombies_cons_hit (rl : Raylib F) (b : Bullet F) (hb : b.active = true)
    (z : Zombie F) (post : List (Zombie F)) (hz : bulletHits rl b z = true) :
    bulletHitZombies rl b (z :: post)
      = ({ b with active := false }, z.takeDamage b.damage :: post) := by
  unfold bulletHitZombies
  rw [if_neg (by simp [hb]), if_pos ((bulletHits_iff rl b z).1 hz)]

lemma bulletHitZombies_cons_miss (rl : Raylib F) (b : Bullet F) (hb : b.active = true)
    (z : Zombie F) (post : List (Zombie F)) (hz : bulletHits rl b z = false) :
    bulletHitZombies rl b (z :: post)
      = ((bulletHitZombies rl b post).1, z :: (bulletHitZombies rl b post).2) := by
  conv_lhs => unfold bulletHitZombies
  rw [if_neg (by simp [hb]), if_neg ((bulletHits_eq_false_iff rl b z).1 hz)]

lemma bulletHitZombies_first_hit (rl : Raylib F) (b : Bullet F) (hb : b.active = true)
    (pre : List (Zombie F)) (z : Zombie F) (post : List (Zombie F))
    (hpre : ∀ w ∈ pre, bulletHits rl b w = false) (hz : bulletHits rl b z = true) :
    bulletHitZombies rl b (pre ++ z :: post)
      = ({ b with active := false }, pre ++ z.takeDamage b.damage :: post) := by
  induction pre with
  | nil => exact bulletHitZombies_cons_hit rl b hb z post hz
  | cons w pre ih =>
    rw [List.cons_append,
      bulletHitZombies_cons_miss rl b hb w _ (hpre w (List.mem_cons_self _ _)),
      ih (fun v hv => hpre v (List.mem_cons_of_mem _ hv))]
    rfl

lemma exists_first_hit (rl : Raylib F) (b : Bullet F) (zs : List (Zombie F))
    (h : ∃ z ∈ zs, bulletHits rl b z = true) :
    ∃ pre z post, zs = pre ++ z :: post ∧ (∀ w ∈ pre, bulletHits rl b w = false)
      ∧ bulletHits rl b z = true := by
  induction zs with
  | nil =>
    obtain ⟨z, hz, -⟩ := h
    exact absurd hz (List.not_mem_nil z)
  | cons w zs ih =>
    by_cases hw : bulletHits rl b w = true
    · exact ⟨[], w, zs, rfl, fun v hv => absurd hv (List.not_mem_nil v), hw⟩
    · have hw2 : bulletHits rl b w = false := by simpa using hw
      obtain ⟨z, hz, hzh⟩ := h
      have hz2 : z ∈ zs := by
        rcases List.mem_cons.1 hz with e | e
        · rw [e] at hzh; exact absurd hzh hw
        · exact e
      obtain ⟨pre, y, post, e, hpre, hy⟩ := ih ⟨z, hz2, hzh⟩
      refine ⟨w :: pre, y, post, by rw [e]; rfl, ?_, hy⟩
      intro v hv
      rcases List.mem_cons.1 hv with e2 | e2
      · rw [e2]; exact hw2
      · exact hpre v e2

lemma updateBullet_of_hit (rl : Raylib F) (dt : F) (walls : List (Rectangle F)) (b : Bullet F)
    (hb : b.active = true) (pre : List (Zombie F)) (z : Zombie F) (post : List (Zombie F))
    (hpre : ∀ w ∈ pre, bulletHits rl (b.update dt) w = false)
    (hz : bulletHits rl (b.update dt) z = true) :
    updateBullet rl dt walls b (pre ++ z :: post)
      = ({ b.update dt with active := false }, pre ++ z.takeDamage b.damage :: post) := by
  have hb2 : (b.update dt).active = true := hb
  unfold updateBullet
  rw [if_neg (by simp [hb]), bulletHitZombies_first_hit rl (b.update dt) hb2 pre z post hpre hz]
  simp [Bullet.update]

lemma Zombie.takeDamage_shape (z : Zombie F) (dmg : ℤ) :
    ((z.takeDamage dmg).pos, (z.takeDamage dmg).size) = (z.pos, z.size) := by
  unfold Zombie.takeDamage
  simp only
  split_ifs <;> rfl

lemma bulletHitZombies_shape (rl : Raylib F) (b : Bullet F) (zs : List (Zombie F)) :
    (bulletHitZombies rl b zs).2.map (fun z => (z.pos, z.size))
      = zs.map (fun z => (z.pos, z.size)) := by
  induction zs with
  | nil => rfl
  | cons z zs ih =>
    unfold bulletHitZombies
    split_ifs
    · rfl
    · simp only [List.map_cons, Zombie.takeDamage_shape]
    · simp only [List.map_cons, ih]

lemma bulletHitZombies_fst (rl : Raylib F) (b : Bullet F) (hb : b.active = true)
    (zs : List (Zombie F)) :
    (bulletHitZombies rl b zs).1
      = if zs.any (fun z => bulletHits rl b z) = true then { b with active := false } else b := by
  induction zs with
  | nil => simp [bulletHitZombies]
  | cons z zs ih =>
    by_cases hz : bulletHits rl b z = true
    · rw [bulletHitZombies_cons_hit rl b hb z zs hz]
      simp [hz]
    · have hz2 : bulletHits rl b z = false := by simpa using hz
      rw [bulletHitZombies_cons_miss rl b hb z zs hz2]
      simp only [List.any_cons, hz2, Bool.false_or]
      exact ih

lemma any_bulletHits_congr (rl : Raylib F) (b : Bullet F) (zs zs0 : List (Zombie F))
    (h : zs.map (fun z => (z.pos, z.size)) = zs0.map (fun z => (z.pos, z.size))) :
    zs.any (fun z => bulletHits rl b z) = zs0.any (fun z => bulletHits rl b z) := by
  have e : ∀ l : List (Zombie F), l.any (fun z => bulletHits rl b z)
      = (l.map (fun z => (z.pos, z.size))).any
          (fun s => decide (Vector2Distance rl b.pos s.1 < b.radius + s.2)) := by
    intro l
    induction l with
    | nil => rfl
    | cons z l ih => simp only [List.any_cons, List.map_cons, ih]; rfl
  rw [e zs, e zs0, h]

lemma bulletSurvives_congr (rl : Raylib F) (b : Bullet F) (walls : List (Rectangle F))
    (zs zs0 : List (Zombie F))
    (h : zs.map (fun z => (z.pos, z.size)) = zs0.map (fun z => (z.pos, z.size))) :
    bulletSurvives rl zs walls b = bulletSurvives rl zs0 walls b := by
  unfold bulletSurvives
  rw [any_bulletHits_congr rl b zs zs0 h]

lemma updateBullet_inactive (rl : Raylib F) (dt : F) (walls : List (Rectangle F)) (b : Bullet F)
    (zs : List (Zombie F)) (hb : b.active = false) : updateBullet rl dt walls b zs = (b, zs) := by
  unfold updateBullet
  rw [if_pos (by simp [hb])]

lemma updateBullet_shape (rl : Raylib F) (dt : F) (walls : List (Rectangle F)) (b : Bullet F)
    (zs : List (Zombie F)) :
    (updateBullet rl dt walls b zs).2.map (fun z => (z.pos, z.size))
      = zs.map (fun z => (z.pos, z.size)) := by
  unfold updateBullet
  split_ifs
  · rfl
  · exact bulletHitZombies_shape rl (b.update dt) zs

lemma updateBullet_active (rl : Raylib F) (dt : F) (walls : List (Rectangle F)) (b : Bullet F)
    (zs : List (Zombie F)) (hb : b.active = true) :
    (updateBullet rl dt walls b zs).1
      = if bulletSurvives rl zs walls (b.update dt) = true then b.update dt
        else { b.update dt with active := false } := by
  have hb2 : (b.update dt).active = true := hb
  have hfst := bulletHitZombies_fst rl (b.update dt) hb2 zs
  unfold updateBullet
  rw [if_neg (by simp [hb])]
  simp only [hfst]
  unfold bulletSurvives
  by_cases h1 : zs.any (fun z => bulletHits rl (b.update dt) z) = true
  · simp [h1]
  · have h1f : zs.any (fun z => bulletHits rl (b.update dt) z) = false := by simpa using h1
    simp only [h1f, Bool.false_eq_true, if_false, hb2, true_and, Bool.not_false, Bool.true_and]
    by_cases h2 : walls.any (fun wall => rl.CheckCollisionPointRec (b.update dt).pos wall) = true
    · simp [h2]
    · have h2f : walls.any (fun wall => rl.CheckCollisionPointRec (b.update dt).pos wall)
          = false := by simpa using h2
      simp only [h2f, Bool.false_eq_true, if_false, hb2, true_and, Bool.not_false,
        Bool.true_and, decide_eq_true_eq]
      by_cases h3 : (b.update dt).pos.x < 0 ∨ (b.update dt).pos.y < 0
          ∨ (b.update dt).pos.x > (rl.GetScreenWidth : F)
          ∨ (b.update dt).pos.y > (rl.GetScreenHeight : F)
      · rw [if_pos h3, if_neg]
        rintro ⟨a1, a2, a3, a4⟩
        rcases h3 with h | h | h | h
        · exact absurd a1 (not_le.2 h)
        · exact absurd a3 (not_le.2 h)
        · exact absurd a2 (not_le.2 h)
        · exact absurd a4 (not_le.2 h)
      · rw [if_neg h3, if_pos]
        refine ⟨?_, ?_, ?_, ?_⟩
        · exact not_lt.1 (fun h => h3 (Or.inl h))
        · exact not_lt.1 (fun h => h3 (Or.inr (Or.inr (Or.inl h))))
        · exact not_lt.1 (fun h => h3 (Or.inr (Or.inl h)))
        · exact not_lt.1 (fun h => h3 (Or.inr (Or.inr (Or.inr h))))

lemma updateBullets_filter (rl : Raylib F) (dt : F) (walls : List (Rectangle F))
    (zs0 : List (Zombie F)) (bs : List (Bullet F)) :
    ∀ zs : List (Zombie F),
      zs.map (fun z => (z.pos, z.size)) = zs0.map (fun z => (z.pos, z.size)) →
      (updateBullets rl dt walls bs zs).1.filter (fun b => b.active)
          = ((bs.filter (fun b => b.active)).map (fun b => b.update dt)).filter
              (bulletSurvives rl zs0 walls)
        ∧ (updateBullets rl dt walls bs zs).2.map (fun z => (z.pos, z.size))
            = zs0.map (fun z => (z.pos, z.size)) := by
  induction bs with
  | nil => intro zs h; exact ⟨rfl, h⟩
  | cons b bs ih =>
    intro zs h
    have hshape := updateBullet_shape rl dt walls b zs
    obtain ⟨ih1, ih2⟩ := ih (updateBullet rl dt walls b zs).2 (by rw [hshape, h])
    unfold updateBullets
    refine ⟨?_, ih2⟩
    simp only [List.filter_cons]
    by_cases hb : b.active = true
    · rw [updateBullet_active rl dt walls b zs hb, bulletSurvives_congr rl (b.update dt) walls
        zs zs0 h]
      simp only [hb, if_true, List.map_cons, List.filter_cons]
      by_cases hs : bulletSurvives rl zs0 walls (b.update dt) = true
      · have hb2 : (b.update dt).active = true := hb
        simp only [hs, if_true, hb2, ih1]
      · simp only [hs, if_false, Bool.false_eq_true, ih1]
    · have hbf : b.active = false := by simpa using hb
      rw [updateBullet_inactive rl dt walls b zs hbf] at ih1 ⊢
      simp only [hbf, Bool.false_eq_true, if_false, ih1]

lemma Player.takeDamage_bullets (p : Player F) (amount : F) :
    (p.takeDamage amount).bullets = p.bullets := by
  unfold Player.takeDamage; split_ifs <;> rfl

lemma Player.contactDamage_bullets (rl : Raylib F) (dt : F) (zs : List (Zombie F)) :
    ∀ p : Player F, (p.contactDamage rl dt zs).bullets = p.bullets := by
  induction zs with
  | nil => intro p; rfl
  | cons z zs ih =>
    intro p
    unfold Player.contactDamage
    rw [List.foldl_cons]
    have e := ih (if Vector2Distance rl p.pos z.pos < p.size + z.size then
      p.takeDamage (20 * dt) else p)
    unfold Player.contactDamage at e
    rw [e]
    split_ifs
    · exact Player.takeDamage_bullets p _
    · rfl

lemma Player.updateTimers_bullets (p : Player F) (dt : F) :
    (p.updateTimers dt).bullets = p.bullets := by
  have h1 : ∀ q : Player F, (q.updateInvulnerability dt).bullets = q.bullets := by
    intro q; unfold Player.updateInvulnerability; simp only; split_ifs <;> rfl
  have h2 : ∀ q : Player F, (q.updateMuzzleFlash dt).bullets = q.bullets := by
    intro q; unfold Player.updateMuzzleFlash; simp only; split_ifs <;> rfl
  have h3 : ∀ q : Player F, (q.updateDamageFlash dt).bullets = q.bullets := by
    intro q; unfold Player.updateDamageFlash; simp only; split_ifs <;> rfl
  have h4 : ∀ q : Player F, (q.updateDash dt).bullets = q.bullets := by
    intro q; unfold Player.updateDash; simp only; split_ifs <;> rfl
  have h5 : ∀ q : Player F, (q.updateHealthRegen dt).bullets = q.bullets := by
    intro q; unfold Player.updateHealthRegen; simp only; split_ifs <;> rfl
  unfold Player.updateTimers
  rw [h5, h4, h3, h2, h1]

lemma Player.update_bullets (rl : Raylib F) (p : Player F) (dt : F) (zs : List (Zombie F))
    (walls : List (Rectangle F)) :
    (p.update rl dt zs walls).1.bullets
      = ((p.bullets.filter (fun b => b.active)).map (fun b => b.update dt)).filter
          (bulletSurvives rl zs walls) := by
  have h := (updateBullets_filter rl dt walls zs
    ((p.updateTimers dt).contactDamage rl dt zs).bullets zs rfl).1
  rw [Player.contactDamage_bullets, Player.updateTimers_bullets] at h
  unfold Player.update
  simp only
  rw [Player.contactDamage_bullets, Player.updateTimers_bullets]
  exact h

lemma bulletSurvives_iff (rl : Raylib F) (zs : List (Zombie F)) (walls : List (Rectangle F))
    (b : Bullet F) :
    bulletSurvives rl zs walls b = true
      ↔ (∀ z ∈ zs, ¬ Vector2Distance rl b.pos z.pos < b.radius + z.size)
        ∧ (∀ wall ∈ walls, rl.CheckCollisionPointRec b.pos wall = false)
        ∧ 0 ≤ b.pos.x ∧ b.pos.x ≤ (rl.GetScreenWidth : F)
        ∧ 0 ≤ b.pos.y ∧ b.pos.y ≤ (rl.GetScreenHeight : F) := by
  unfold bulletSurvives bulletHits
  simp only [Bool.and_eq_true, Bool.not_eq_true', List.any_eq_false, decide_eq_true_eq,
    Bool.not_eq_true, and_assoc]

end BulletFacts

/-! ## Claims about firing and bullets -/

section BulletClaims

variable {F : Type} [LinearOrderedField F]

/-- C18. In the bullet loop of `Player::update`, for an active bullet whose
position has been integrated: if some zombie of the collection is at distance
< bullet.radius + zombie.size, then `takeDamage(bullet.damage)` is applied to the
first such zombie in collection order, every other zombie is left as it was, and
the bullet is deactivated.  The walls are arbitrary, so the hit takes place also
when the bullet lies inside a wall. -/
theorem bullet_hits_first_zombie (rl : Raylib F) (deltaTime : F) (walls : List (Rectangle F))
    (bullet : Bullet F) (zombies : List (Zombie F)) (hactive : bullet.active = true)
    (hsome : ∃ z ∈ zombies,
      Vector2Distance rl (bullet.update deltaTime).pos z.pos < bullet.radius + z.size) :
    ∃ pre z post, zombies = pre ++ z :: post
      ∧ (∀ w ∈ pre,
          ¬ Vector2Distance rl (bullet.update deltaTime).pos w.pos < bullet.radius + w.size)
      ∧ Vector2Distance rl (bullet.update deltaTime).pos z.pos < bullet.radius + z.size
      ∧ updateBullet rl deltaTime walls bullet zombies
          = ({ bullet.update deltaTime with active := false },
              pre ++ z.takeDamage bullet.damage :: post)
      ∧ (updateBullet rl deltaTime walls bullet zombies).1.active = false := by
  obtain ⟨z0, hz0, hd0⟩ := hsome
  obtain ⟨pre, z, post, e, hpre, hz⟩ := exists_first_hit rl (bullet.update deltaTime) zombies
    ⟨z0, hz0, (bulletHits_iff rl (bullet.update deltaTime) z0).2 hd0⟩
  have hu := updateBullet_of_hit rl deltaTime walls bullet hactive pre z post hpre hz
  refine ⟨pre, z, post, e,
    fun w hw => (bulletHits_eq_false_iff rl (bullet.update deltaTime) w).1 (hpre w hw),
    (bulletHits_iff rl (bullet.update deltaTime) z).1 hz, by rw [e]; exact hu, ?_⟩
  rw [e, hu]

/-- Witness for C18: the bullet flies to (610, 400), inside the covering wall; the
first zombie of the row is out of hit distance, the second and third are within
it.  Only the second loses health and the bullet is switched off. -/
theorem bullet_hits_first_zombie_witness :
    flyingBullet.active = true
      ∧ (∃ z ∈ zombieRow,
          Vector2Distance sampleRaylib (flyingBullet.update (1 / 60)).pos z.pos
            < flyingBullet.radius + z.size)
      ∧ sampleRaylib.CheckCollisionPointRec (flyingBullet.update (1 / 60)).pos coveringWall
          = true
      ∧ (updateBullet sampleRaylib (1 / 60) [coveringWall] flyingBullet zombieRow).1.active
          = false
      ∧ (updateBullet sampleRaylib (1 / 60) [coveringWall] flyingBullet zombieRow).2.map
          Zombie.health = [50, 30, 50] := by
  have h1 : flyingBullet.active = true := by decide!
  have h2 : ∃ z ∈ zombieRow,
      Vector2Distance sampleRaylib (flyingBullet.update (1 / 60)).pos z.pos
        < flyingBullet.radius + z.size :=
    ⟨FastZombie ⟨613, 400⟩, List.mem_cons_of_mem _ (List.mem_cons_self _ _), by decide!⟩
  obtain ⟨pre, z, post, -, -, -, -, h5⟩ :=
    bullet_hits_first_zombie sampleRaylib (1 / 60) [coveringWall] flyingBullet zombieRow h1 h2
  exact ⟨h1, h2, by decide!, h5, by decide!⟩

/-- C19. `Player::update` acts on the bullet collection as an order-preserving
filter.  With all bullets of the collection active (as they are between updates),
the collection after the update is the list of the integrated bullets
`b.update deltaTime` filtered, in order, by `bulletSurvives`: within hit distance
of no zombie, inside no wall, and `0 <= x <= W`, `0 <= y <= H`.  Every survivor
is active and is the integrated copy of a bullet that was there before; a bullet
whose integrated position fails the test, in particular one that left the bounds,
is absent afterwards.  (A bullet that is inactive before the update is dropped
without being integrated.) -/
theorem bullets_order_preserving_filter (rl : Raylib F) (p : Player F) (deltaTime : F)
    (zombies : List (Zombie F)) (walls : List (Rectangle F)) :
    (p.update rl deltaTime zombies walls).1.bullets
        = ((p.bullets.filter (fun b => b.active)).map (fun b => b.update deltaTime)).filter
            (bulletSurvives rl zombies walls)
      ∧ ((∀ b ∈ p.bullets, b.active = true) →
          (p.update rl deltaTime zombies walls).1.bullets
            = (p.bullets.map (fun b => b.update deltaTime)).filter
                (bulletSurvives rl zombies walls))
      ∧ (∀ b, bulletSurvives rl zombies walls b = true
          ↔ (∀ z ∈ zombies, ¬ Vector2Distance rl b.pos z.pos < b.radius + z.size)
            ∧ (∀ wall ∈ walls, rl.CheckCollisionPointRec b.pos wall = false)
            ∧ 0 ≤ b.pos.x ∧ b.pos.x ≤ (rl.GetScreenWidth : F)
            ∧ 0 ≤ b.pos.y ∧ b.pos.y ≤ (rl.GetScreenHeight : F))
      ∧ (∀ b ∈ (p.update rl deltaTime zombies walls).1.bullets,
          b.active = true ∧ bulletSurvives rl zombies walls b = true
            ∧ ∃ b0 ∈ p.bullets, b0.active = true ∧ b = b0.update deltaTime)
      ∧ (∀ b0 ∈ p.bullets, bulletSurvives rl zombies walls (b0.update deltaTime) = false →
          b0.update deltaTime ∉ (p.update rl deltaTime zombies walls).1.bullets) := by
  have key := Player.update_bullets rl p deltaTime zombies walls
  have hall : (∀ b ∈ p.bullets, b.active = true) →
      p.bullets.filter (fun b => b.active) = p.bullets := by
    intro h
    exact List.filter_eq_self.2 h
  have hmem : ∀ b ∈ (p.update rl deltaTime zombies walls).1.bullets,
      b.active = true ∧ bulletSurvives rl zombies walls b = true
        ∧ ∃ b0 ∈ p.bullets, b0.active = true ∧ b = b0.update deltaTime := by
    intro b hb
    rw [key] at hb
    obtain ⟨hb1, hb2⟩ := List.mem_filter.1 hb
    obtain ⟨b0, hb0, rfl⟩ := List.mem_map.1 hb1
    obtain ⟨hb01, hb02⟩ := List.mem_filter.1 hb0
    exact ⟨hb02, hb2, b0, hb01, hb02, rfl⟩
  refine ⟨key, fun h => by rw [key, hall h], fun b => bulletSurvives_iff rl zombies walls b,
    hmem, ?_⟩
  intro b0 _ hf hin
  have := (hmem _ hin).2.1
  rw [hf] at this
  exact Bool.noConfusion this

/-- Witness for C19: of the three bullets of the shooting player the first hits
the small zombie, the second leaves the screen on the left and the third
survives at (20, 11). -/
theorem bullets_order_preserving_filter_witness :
    (∀ b ∈ shootingPlayer.bullets, b.active = true)
      ∧ (shootingPlayer.update sampleRaylib (1 / 60) [smallZombie] []).1.bullets
          = (shootingPlayer.bullets.map (fun b => b.update (1 / 60))).filter
              (bulletSurvives sampleRaylib [smallZombie] [])
      ∧ (shootingPlayer.bullets.map
            (fun b => bulletSurvives sampleRaylib [smallZombie] [] (b.update (1 / 60))))
          = [false, false, true]
      ∧ (shootingPlayer.update sampleRaylib (1 / 60) [smallZombie] []).1.bullets.map
            (fun b => (b.pos.x, b.pos.y)) = [(20, 11)] := by
  have h1 : ∀ b ∈ shootingPlayer.bullets, b.active = true := by decide!
  exact ⟨h1,
    (bullets_order_preserving_filter sampleRaylib shootingPlayer (1 / 60) [smallZombie]
      []).2.1 h1,
    by decide!, by decide!⟩

/-- C20. For a weapon with `fireRate > 0`, `Player::shoot(currentTime)` fires if
and only if `currentTime - lastFireTime >= 1/fireRate`.  On success exactly one
active bullet is appended, with position `pos + normalize(facing) * (size * 0.8)`,
velocity `normalize(facing) * bulletSpeed` and the damage of the weapon,
`lastFireTime` becomes `currentTime`, `muzzleFlashTimer` becomes
`MUZZLE_FLASH_DURATION` and no other field changes; otherwise the player, the
bullet collection and `lastFireTime` included, is returned unchanged. -/
theorem shoot_effect (rl : Raylib F) (p : Player F) (currentTime : F)
    (hrate : 0 < p.weapon.fireRate) :
    (currentTime - p.weapon.lastFireTime ≥ 1 / p.weapon.fireRate
        ↔ 1 ≤ (currentTime - p.weapon.lastFireTime) * p.weapon.fireRate)
      ∧ (currentTime - p.weapon.lastFireTime ≥ 1 / p.weapon.fireRate →
          p.shoot rl currentTime
            = { p with
                  weapon := { p.weapon with lastFireTime := currentTime },
                  bullets := p.bullets ++
                    [{ pos := Vector2Add p.pos
                         (Vector2Scale (Vector2Normalize rl p.facing) (p.size * (4 / 5))),
                       velocity := Vector2Scale (Vector2Normalize rl p.facing)
                         p.weapon.bulletSpeed,
                       damage := p.weapon.damage,
                       radius := 3,
                       active := true }],
                  muzzleFlashTimer := MUZZLE_FLASH_DURATION })
      ∧ (¬ (currentTime - p.weapon.lastFireTime ≥ 1 / p.weapon.fireRate) →
          p.shoot rl currentTime = p) := by
  refine ⟨?_, fun h => ?_, fun h => ?_⟩
  · rw [ge_iff_le, div_le_iff₀ hrate]
  · unfold Player.shoot Weapon.canFire
    simp only [if_pos h, if_true]
    rfl
  · unfold Player.shoot Weapon.canFire
    simp only [if_neg h, Bool.false_eq_true, if_false]

/-- Witness for C20: the fresh player, whose pistol fires three times a second,
shoots at time 1 and gets one bullet; the same shot at time 1/10 is refused. -/
theorem shoot_effect_witness :
    0 < freshPlayer.weapon.fireRate
      ∧ (1 : ℚ) - freshPlayer.weapon.lastFireTime ≥ 1 / freshPlayer.weapon.fireRate
      ∧ (freshPlayer.shoot sampleRaylib 1).bullets.length = 1
      ∧ (freshPlayer.shoot sampleRaylib 1).weapon.lastFireTime = 1
      ∧ ¬ ((1 / 10 : ℚ) - freshPlayer.weapon.lastFireTime ≥ 1 / freshPlayer.weapon.fireRate)
      ∧ freshPlayer.shoot sampleRaylib (1 / 10) = freshPlayer := by
  have h1 : 0 < freshPlayer.weapon.fireRate := by decide!
  have h2 : (1 : ℚ) - freshPlayer.weapon.lastFireTime ≥ 1 / freshPlayer.weapon.fireRate := by
    decide!
  have h3 : ¬ ((1 / 10 : ℚ) - freshPlayer.weapon.lastFireTime
      ≥ 1 / freshPlayer.weapon.fireRate) := by decide!
  have key := shoot_effect sampleRaylib freshPlayer 1 h1
  have key2 := shoot_effect sampleRaylib freshPlayer (1 / 10) h1
  refine ⟨h1, h2, ?_, ?_, h3, key2.2.2 h3⟩
  · rw [key.2.1 h2]; rfl
  · rw [key.2.1 h2]

end BulletClaims

/-! ## Regeneration after a reset of the damage clock -/

section RegenFacts

variable {F : Type} [LinearOrderedField F]

lemma CLAMP_le_of_le {h m M : F} (hM : h ≤ M) (h0 : 0 ≤ M) : CLAMP h 0 m ≤ M := by
  unfold CLAMP
  split_ifs with h1 h2
  · exact h0
  · exact le_trans (le_of_lt h2) hM
  · exact hM

lemma Player.updateHealthRegen_suspended (p : Player F) (T dt : F) (hT : 0 ≤ T + dt)
    (hs : p.timeSinceLastDamage ≤ T) (hlt : T + dt < REGEN_COOLDOWN) :
    (p.updateHealthRegen dt).health = p.health
      ∧ (p.updateHealthRegen dt).timeSinceLastDamage ≤ T + dt := by
  unfold Player.updateHealthRegen
  by_cases h1 : p.health ≥ p.maxHealth
  · rw [if_pos h1]
    exact ⟨rfl, hT⟩
  · rw [if_neg h1]
    simp only
    rw [if_neg (by simp only [ge_iff_le, not_le]; linarith)]
    exact ⟨rfl, by simp only; linarith⟩

lemma Player.updateTimers_suspended (p : Player F) (T dt : F) (hT : 0 ≤ T + dt)
    (hs : p.timeSinceLastDamage ≤ T) (hlt : T + dt < REGEN_COOLDOWN) :
    (p.updateTimers dt).health = p.health
      ∧ (p.updateTimers dt).timeSinceLastDamage ≤ T + dt := by
  obtain ⟨a1, -, a3, -⟩ := Player.updateInvulnerability_regen p dt
  obtain ⟨b1, -, b3, -⟩ := Player.updateMuzzleFlash_regen (p.updateInvulnerability dt) dt
  obtain ⟨c1, -, c3, -⟩ := Player.updateDamageFlash_regen
    ((p.updateInvulnerability dt).updateMuzzleFlash dt) dt
  obtain ⟨d1, -, d3, -⟩ := Player.updateDash_regen
    (((p.updateInvulnerability dt).updateMuzzleFlash dt).updateDamageFlash dt) dt
  have key := Player.updateHealthRegen_suspended
    ((((p.updateInvulnerability dt).updateMuzzleFlash dt).updateDamageFlash dt).updateDash dt)
    T dt hT (by rw [d3, c3, b3, a3]; exact hs) hlt
  unfold Player.updateTimers
  rw [d1, c1, b1, a1] at key
  exact key

lemma Player.takeDamage_suspended (p : Player F) (amount T M : F) (ha : 0 ≤ amount)
    (hT : 0 ≤ T) (hs : p.timeSinceLastDamage ≤ T) (hM : p.health ≤ M) :
    (p.takeDamage amount).health ≤ M ∧ (p.takeDamage amount).timeSinceLastDamage ≤ T := by
  unfold Player.takeDamage
  split_ifs
  · exact ⟨by simp only; linarith, hT⟩
  · exact ⟨hM, hs⟩

lemma Player.contactDamage_suspended (rl : Raylib F) (dt T M : F) (hdt : 0 ≤ dt) (hT : 0 ≤ T)
    (zs : List (Zombie F)) :
    ∀ p : Player F, p.timeSinceLastDamage ≤ T → p.health ≤ M →
      (p.contactDamage rl dt zs).health ≤ M
        ∧ (p.contactDamage rl dt zs).timeSinceLastDamage ≤ T := by
  induction zs with
  | nil => intro p hs hM; exact ⟨hM, hs⟩
  | cons z zs ih =>
    intro p hs hM
    unfold Player.contactDamage
    rw [List.foldl_cons]
    have hstep : (if Vector2Distance rl p.pos z.pos < p.size + z.size then
          p.takeDamage (20 * dt) else p).timeSinceLastDamage ≤ T
        ∧ (if Vector2Distance rl p.pos z.pos < p.size + z.size then
          p.takeDamage (20 * dt) else p).health ≤ M := by
      split_ifs
      · have := Player.takeDamage_suspended p (20 * dt) T M (by positivity) hT hs hM
        exact ⟨this.2, this.1⟩
      · exact ⟨hs, hM⟩
    exact ih _ hstep.1 hstep.2

lemma Player.update_suspended (rl : Raylib F) (p : Player F) (f : Frame F) (T M : F)
    (hdt : 0 ≤ f.deltaTime) (hT : 0 ≤ T) (hs : p.timeSinceLastDamage ≤ T) (hM : p.health ≤ M)
    (h0 : 0 ≤ M) (hlt : T + f.deltaTime < REGEN_COOLDOWN) :
    (p.update rl f.deltaTime f.zombies f.walls).1.health ≤ M
      ∧ (p.update rl f.deltaTime f.zombies f.walls).1.timeSinceLastDamage
          ≤ T + f.deltaTime := by
  obtain ⟨t1, t2⟩ := Player.updateTimers_suspended p T f.deltaTime (by linarith) hs hlt
  obtain ⟨c1, c2⟩ := Player.contactDamage_suspended rl f.deltaTime (T + f.deltaTime) M hdt
    (by linarith) f.zombies (p.updateTimers f.deltaTime) t2 (by rw [t1]; exact hM)
  unfold Player.update
  exact ⟨CLAMP_le_of_le c1 h0, c2⟩

lemma Player.updates_suspended (rl : Raylib F) (fs : List (Frame F)) :
    ∀ (p : Player F) (T M : F), 0 ≤ T → p.timeSinceLastDamage ≤ T → p.health ≤ M → 0 ≤ M →
      (∀ f ∈ fs, 0 ≤ f.deltaTime) → T + framesTime fs < REGEN_COOLDOWN →
      (p.updates rl fs).health ≤ M := by
  induction fs with
  | nil => intro p T M _ _ hM _ _ _; exact hM
  | cons f fs ih =>
    intro p T M hT hs hM h0 hdt hlt
    have hf : 0 ≤ f.deltaTime := hdt f (List.mem_cons_self _ _)
    have hfs : ∀ g ∈ fs, 0 ≤ g.deltaTime := fun g hg => hdt g (List.mem_cons_of_mem _ hg)
    have hnn := framesTime_nonneg fs hfs
    rw [framesTime_cons] at hlt
    obtain ⟨u1, u2⟩ := Player.update_suspended rl p f T M hf hT hs hM h0 (by linarith)
    rw [Player.updates_cons]
    exact ih _ (T + f.deltaTime) M (by linarith) u2 u1 h0 hfs (by linarith)

/-- After an accepted `Player::takeDamage` the damage clock is at 0, and over
any following `Player::update` calls with non-negative frame times totalling less
than `REGEN_COOLDOWN` the health never rises above its value after the damage
(or above 0, to which a negative health is clamped): regeneration adds nothing. -/
lemma Player.no_regen_after_takeDamage (rl : Raylib F) (p : Player F) (amount : F)
    (frames : List (Frame F)) (hinv : p.invulnerabilityTimer ≤ 0) (hhealth : 0 < p.health)
    (hdt : ∀ f ∈ frames, 0 ≤ f.deltaTime) (htotal : framesTime frames < REGEN_COOLDOWN) :
    (p.takeDamage amount).timeSinceLastDamage = 0
      ∧ ((p.takeDamage amount).updates rl frames).health
          ≤ max (p.takeDamage amount).health 0 := by
  have h1 : (p.takeDamage amount).timeSinceLastDamage = 0 := by
    unfold Player.takeDamage
    rw [if_pos ⟨hinv, hhealth⟩]
  refine ⟨h1, ?_⟩
  exact Player.updates_suspended rl frames (p.takeDamage amount) 0 _ (le_refl _)
    (le_of_eq h1) (le_max_left _ _) (le_max_right _ _) hdt (by rw [zero_add]; exact htotal)

end RegenFacts

/-! ## Claims about damage and the regeneration clock -/

section RegenClaims

/-- C17 (the code at a failing input). The player took contact damage 0.4 s ago;
in this frame the contact damage is rejected (the player is still invulnerable)
and the tank zombie lands a melee hit: the health goes from 80 to 60 while
`timeSinceLastDamage` is 5/12 after the frame, not 0.  Four further updates of
0.7 s without any zombie (2.8 s, less than `REGEN_COOLDOWN`) then raise the
health to 62. -/
theorem melee_leaves_regen_clock_running :
    (frameUpdate sampleRaylib recentlyHitGame (1 / 60) []).player.health = 60
      ∧ (frameUpdate sampleRaylib recentlyHitGame (1 / 60) []).player.health
          < recentlyHitGame.player.health
      ∧ (frameUpdate sampleRaylib recentlyHitGame (1 / 60) []).player.timeSinceLastDamage
          = 5 / 12
      ∧ (frameUpdate sampleRaylib recentlyHitGame (1 / 60) []).player.timeSinceLastDamage ≠ 0
      ∧ framesTime (longFrames 4) < REGEN_COOLDOWN
      ∧ ((frameUpdate sampleRaylib recentlyHitGame (1 / 60) []).player.updates sampleRaylib
          (longFrames 4)).health = 62 := by
  decide!

end RegenClaims

/-! ## Zombie: health, cooldown and player health across `update` -/

section ZombieUpdateFacts

variable {F : Type} [LinearOrderedField F]

lemma Zombie.updateTimers_attackCooldownTimer_of_nonpos (z : Zombie F) (dt : F)
    (h : z.attackCooldownTimer ≤ 0) :
    (z.updateTimers dt).attackCooldownTimer = z.attackCooldownTimer := by
  unfold Zombie.updateTimers
  simp only
  rw [if_neg (not_lt.2 h)]
  split_ifs <;> rfl

lemma Zombie.updateTimers_attackCooldownTimer_ge (z : Zombie F) (dt : F) (hdt : 0 ≤ dt) :
    z.attackCooldownTimer - dt ≤ (z.updateTimers dt).attackCooldownTimer := by
  have e : (z.updateTimers dt).attackCooldownTimer
      = if z.attackCooldownTimer > 0 then
          (if z.attackCooldownTimer - dt < 0 then 0 else z.attackCooldownTimer - dt)
        else z.attackCooldownTimer := by
    unfold Zombie.updateTimers
    simp only
    split_ifs <;> rfl
  rw [e]
  split_ifs with h1 h2
  · exact le_of_lt h2
  · exact le_refl _
  · linarith

lemma Zombie.healthCheck_health (z : Zombie F) :
    z.healthCheck.health = CLAMP z.health 0 z.maxHealth := by
  unfold Zombie.healthCheck; simp only; split_ifs <;> rfl

lemma Zombie.healthCheck_maxHealth (z : Zombie F) : z.healthCheck.maxHealth = z.maxHealth := by
  unfold Zombie.healthCheck; simp only; split_ifs <;> rfl

lemma Zombie.update_health_of_not_dead (rl : Raylib F) (z : Zombie F) (pp : Vector2 F) (dt : F)
    (walls : List (Rectangle F)) (ph : F) (h : z.currentState ≠ ZombieState.DEAD) :
    (z.update rl pp dt walls ph).1.health = CLAMP z.health 0 z.maxHealth := by
  rw [Zombie.update_of_not_dead rl z pp dt walls ph h]
  show ((z.updateTimers dt).updateSwitch rl pp dt walls ph).1.healthCheck.health = _
  rw [Zombie.healthCheck_health, Zombie.updateSwitch_health, Zombie.updateSwitch_maxHealth,
    z.updateTimers_health, z.updateTimers_maxHealth]

lemma Zombie.update_maxHealth (rl : Raylib F) (z : Zombie F) (pp : Vector2 F) (dt : F)
    (walls : List (Rectangle F)) (ph : F) :
    (z.update rl pp dt walls ph).1.maxHealth = z.maxHealth := by
  by_cases h : z.currentState = ZombieState.DEAD
  · rw [Zombie.update_dead rl z pp dt walls ph h]
  · rw [Zombie.update_of_not_dead rl z pp dt walls ph h]
    show ((z.updateTimers dt).updateSwitch rl pp dt walls ph).1.healthCheck.maxHealth = _
    rw [Zombie.healthCheck_maxHealth, Zombie.updateSwitch_maxHealth, z.updateTimers_maxHealth]

lemma Zombie.updateSwitch_of_not_attacking (rl : Raylib F) (z : Zombie F) (pp : Vector2 F)
    (dt : F) (walls : List (Rectangle F)) (ph : F)
    (h : z.currentState ≠ ZombieState.ATTACKING) :
    (z.updateSwitch rl pp dt walls ph).2 = ph
      ∧ (z.updateSwitch rl pp dt walls ph).1.attackCooldownTimer = z.attackCooldownTimer := by
  unfold Zombie.updateSwitch Zombie.handleChasingState Zombie.handleDyingState
  split
  · simp only; split_ifs <;> exact ⟨rfl, rfl⟩
  · rename_i hs; exact absurd hs h
  · simp only; split_ifs <;> exact ⟨rfl, rfl⟩
  · exact ⟨rfl, rfl⟩

lemma Zombie.update_of_not_attacking (rl : Raylib F) (z : Zombie F) (pp : Vector2 F)
    (dt : F) (walls : List (Rectangle F)) (ph : F)
    (h : z.currentState ≠ ZombieState.ATTACKING) :
    (z.update rl pp dt walls ph).2 = ph
      ∧ (z.currentState ≠ ZombieState.DEAD →
          (z.update rl pp dt walls ph).1.attackCooldownTimer
            = (z.updateTimers dt).attackCooldownTimer) := by
  by_cases hd : z.currentState = ZombieState.DEAD
  · rw [Zombie.update_dead rl z pp dt walls ph hd]
    exact ⟨rfl, fun hn => absurd hd hn⟩
  · have hT : (z.updateTimers dt).currentState ≠ ZombieState.ATTACKING := by
      rw [z.updateTimers_currentState]; exact h
    obtain ⟨h1, h2⟩ := Zombie.updateSwitch_of_not_attacking rl (z.updateTimers dt) pp dt walls
      ph hT
    rw [Zombie.update_of_not_dead rl z pp dt walls ph hd]
    refine ⟨h1, fun _ => ?_⟩
    show ((z.updateTimers dt).updateSwitch rl pp dt walls ph).1.healthCheck.attackCooldownTimer
      = _
    rw [Zombie.healthCheck_attackCooldownTimer, h2]

lemma Zombie.update_attackCooldownTimer_ge (rl : Raylib F) (z : Zombie F) (pp : Vector2 F)
    (dt : F) (walls : List (Rectangle F)) (ph : F) (hdt : 0 ≤ dt) :
    z.attackCooldownTimer - dt ≤ (z.update rl pp dt walls ph).1.attackCooldownTimer := by
  have hge := z.updateTimers_attackCooldownTimer_ge dt hdt
  by_cases ha : z.currentState = ZombieState.ATTACKING
  · obtain ⟨-, -, hcd, -⟩ := Zombie.update_attacking rl z pp dt walls ph ha
    rw [hcd]
    split_ifs with h
    · have : (0 : F) < ZOMBIE_ATTACK_COOLDOWN := by unfold ZOMBIE_ATTACK_COOLDOWN; exact one_pos
      linarith [h.2]
    · exact hge
  · by_cases hd : z.currentState = ZombieState.DEAD
    · rw [Zombie.update_dead rl z pp dt walls ph hd]
      show z.attackCooldownTimer - dt ≤ z.attackCooldownTimer
      linarith
    · rw [(Zombie.update_of_not_attacking rl z pp dt walls ph ha).2 hd]
      exact hge

lemma Zombie.update_attacking_lethal (rl : Raylib F) (z : Zombie F) (pp : Vector2 F) (dt : F)
    (walls : List (Rectangle F)) (ph : F) (hs : z.currentState = ZombieState.ATTACKING)
    (hh : z.health ≤ 0) :
    (z.update rl pp dt walls ph).1.currentState = ZombieState.DYING := by
  have hnd : z.currentState ≠ ZombieState.DEAD := by simp [hs]
  have hT : (z.updateTimers dt).currentState = ZombieState.CHASING
      ∨ (z.updateTimers dt).currentState = ZombieState.ATTACKING := by
    rw [z.updateTimers_currentState, hs]; exact Or.inr rfl
  have hsw := Zombie.updateSwitch_alive rl (z.updateTimers dt) pp dt walls ph hT
  have hhl := Zombie.updateSwitch_health rl (z.updateTimers dt) pp dt walls ph
  rw [z.updateTimers_health] at hhl
  rw [Zombie.update_of_not_dead rl z pp dt walls ph hnd]
  exact (Zombie.healthCheck_lethal _ (by rw [hhl]; exact hh) hsw).1

lemma CLAMP_bounds {α : Type} [LinearOrder α] (x : α) {lo hi : α} (h : lo ≤ hi) :
    lo ≤ CLAMP x lo hi ∧ CLAMP x lo hi ≤ hi := by
  unfold CLAMP
  split_ifs with h1 h2
  · exact ⟨le_refl _, h⟩
  · exact ⟨h, le_refl _⟩
  · exact ⟨not_lt.1 h1, not_lt.1 h2⟩

lemma CLAMP_of_bounds {α : Type} [LinearOrder α] {x lo hi : α} (h1 : lo ≤ x) (h2 : x ≤ hi) :
    CLAMP x lo hi = x := by
  unfold CLAMP
  rw [if_neg (not_lt.2 h1), if_neg (not_lt.2 h2)]

lemma Zombie.takeDamage_fields (z : Zombie F) (dmg : ℤ) :
    (z.takeDamage dmg).currentState = z.currentState
      ∧ (z.takeDamage dmg).maxHealth = z.maxHealth
      ∧ (z.takeDamage dmg).attackCooldownTimer = z.attackCooldownTimer := by
  unfold Zombie.takeDamage
  simp only
  split_ifs <;> exact ⟨rfl, rfl, rfl⟩

lemma ZombieHealthInv.of_update (rl : Raylib F) {h : ℤ} (hh : 0 ≤ h) {z : Zombie F}
    (hz : ZombieHealthInv h z) (pp : Vector2 F) (dt : F) (walls : List (Rectangle F)) (ph : F) :
    ZombieHealthInv h (z.update rl pp dt walls ph).1
      ∧ 0 ≤ (z.update rl pp dt walls ph).1.health
      ∧ (z.update rl pp dt walls ph).1.health ≤ h := by
  have hm : (z.update rl pp dt walls ph).1.maxHealth = h := by
    rw [Zombie.update_maxHealth]; exact hz.1
  by_cases hd : z.currentState = ZombieState.DEAD
  · rw [Zombie.update_dead rl z pp dt walls ph hd]
    exact ⟨hz, hz.2 hd⟩
  · have e := Zombie.update_health_of_not_dead rl z pp dt walls ph hd
    have hb : 0 ≤ (z.update rl pp dt walls ph).1.health
        ∧ (z.update rl pp dt walls ph).1.health ≤ h := by
      rw [e, hz.1]; exact CLAMP_bounds z.health hh
    exact ⟨⟨hm, fun _ => hb⟩, hb⟩

lemma ZombieHealthInv.of_call (rl : Raylib F) {h : ℤ} (hh : 0 ≤ h) {s : Zombie F × F}
    (hs : ZombieHealthInv h s.1) (c : ZombieCall F) :
    ZombieHealthInv h (Zombie.call rl s c).1 := by
  cases c with
  | update pp dt walls => exact (ZombieHealthInv.of_update rl hh hs pp dt walls s.2).1
  | takeDamage dmg =>
    show ZombieHealthInv h (s.1.takeDamage dmg)
    by_cases hd : s.1.currentState = ZombieState.DEAD
    · rw [Zombie.takeDamage_of_dying_or_dead s.1 dmg (Or.inr hd)]; exact hs
    · obtain ⟨h1, h2, -⟩ := s.1.takeDamage_fields dmg
      refine ⟨by rw [h2]; exact hs.1, fun hd2 => ?_⟩
      rw [h1] at hd2
      exact absurd hd2 hd

lemma ZombieHealthInv.of_calls (rl : Raylib F) {h : ℤ} (hh : 0 ≤ h) (cs : List (ZombieCall F)) :
    ∀ s : Zombie F × F, ZombieHealthInv h s.1 → ZombieHealthInv h (Zombie.calls rl s cs).1 := by
  induction cs with
  | nil => intro s hs; exact hs
  | cons c cs ih =>
    intro s hs
    rw [Zombie.calls_cons]
    exact ih _ (ZombieHealthInv.of_call rl hh hs c)

lemma Zombie.updateTimers_speed (z : Zombie F) (dt : F) : (z.updateTimers dt).speed = z.speed := by
  unfold Zombie.updateTimers; simp only; split_ifs <;> rfl

lemma Zombie.update_dying_frame (rl : Raylib F) (z : Zombie F) (pp : Vector2 F) (dt : F)
    (walls : List (Rectangle F)) (ph : F) (h : z.currentState = ZombieState.DYING) :
    (z.update rl pp dt walls ph).1.speed = z.speed
      ∧ (z.update rl pp dt walls ph).1.damage = z.damage
      ∧ (z.update rl pp dt walls ph).1.size = z.size
      ∧ (z.update rl pp dt walls ph).1.attackCooldownTimer
          = (z.updateTimers dt).attackCooldownTimer
      ∧ (z.update rl pp dt walls ph).1.hitFlashTimer = (z.updateTimers dt).hitFlashTimer := by
  have hT := z.updateTimers_currentState dt
  rw [h] at hT
  have h1 := z.updateTimers_speed dt
  have h2 := z.updateTimers_damage dt
  have h3 := z.updateTimers_size dt
  unfold Zombie.update Zombie.updateSwitch Zombie.healthCheck Zombie.handleDyingState
  simp only [h, hT]
  simp only [reduceCtorEq, if_false]
  split_ifs <;> simp_all

lemma Zombie.meleeHits_iff (rl : Raylib F) (z : Zombie F) (pp : Vector2 F) (dt : F) :
    z.meleeHits rl pp dt = true ↔ z.currentState = ZombieState.ATTACKING
      ∧ Vector2Distance rl z.pos pp < z.size + 20 - ZOMBIE_ATTACK_RANGE_BUFFER
      ∧ (z.updateTimers dt).attackCooldownTimer ≤ 0 := by
  unfold Zombie.meleeHits
  exact decide_eq_true_iff

lemma Zombie.healthCheck_currentState_cases (z : Zombie F) :
    z.healthCheck.currentState = z.currentState
      ∨ z.healthCheck.currentState = ZombieState.DYING := by
  unfold Zombie.healthCheck
  simp only
  split_ifs
  · exact Or.inr rfl
  · exact Or.inl rfl

lemma Zombie.update_of_meleeHits (rl : Raylib F) (z : Zombie F) (pp : Vector2 F) (dt : F)
    (walls : List (Rectangle F)) (ph : F) (h : z.meleeHits rl pp dt = true) :
    (z.update rl pp dt walls ph).2 = ph - (z.damage : F)
      ∧ (z.update rl pp dt walls ph).1.attackCooldownTimer = ZOMBIE_ATTACK_COOLDOWN
      ∧ (z.update rl pp dt walls ph).1.currentState ≠ ZombieState.ATTACKING := by
  obtain ⟨hs, hd, hc⟩ := (Zombie.meleeHits_iff rl z pp dt).1 h
  obtain ⟨h1, -, h3, -⟩ := Zombie.update_attacking rl z pp dt walls ph hs
  rw [if_pos ⟨hd, hc⟩] at h1 h3
  refine ⟨h1, h3, ?_⟩
  have hnd : z.currentState ≠ ZombieState.DEAD := by simp [hs]
  have hT : (z.updateTimers dt).currentState = ZombieState.ATTACKING := by
    rw [z.updateTimers_currentState, hs]
  have hsw := Zombie.updateSwitch_attacking rl (z.updateTimers dt) pp dt walls ph hT
  rw [z.updateTimers_pos, z.updateTimers_size, if_pos ⟨hd, hc⟩] at hsw
  rw [Zombie.update_of_not_dead rl z pp dt walls ph hnd]
  show ((z.updateTimers dt).updateSwitch rl pp dt walls ph).1.healthCheck.currentState ≠ _
  rcases Zombie.healthCheck_currentState_cases
    ((z.updateTimers dt).updateSwitch rl pp dt walls ph).1 with e | e
  · rw [e, hsw]; simp
  · rw [e]; simp

lemma Zombie.update_of_not_meleeHits (rl : Raylib F) (z : Zombie F) (pp : Vector2 F) (dt : F)
    (walls : List (Rectangle F)) (ph : F) (h : z.meleeHits rl pp dt = false) :
    (z.update rl pp dt walls ph).2 = ph := by
  by_cases hs : z.currentState = ZombieState.ATTACKING
  · rw [(Zombie.update_attacking rl z pp dt walls ph hs).1, if_neg]
    intro hc
    have : z.meleeHits rl pp dt = true := (Zombie.meleeHits_iff rl z pp dt).2 ⟨hs, hc.1, hc.2⟩
    rw [h] at this
    exact Bool.noConfusion this
  · exact (Zombie.update_of_not_attacking rl z pp dt walls ph hs).1

lemma Zombie.calls_attackCooldownTimer_ge (rl : Raylib F) (cs : List (ZombieCall F)) :
    ∀ s : Zombie F × F, (∀ c ∈ cs, 0 ≤ c.deltaTime) →
      s.1.attackCooldownTimer - callsTime cs ≤ (Zombie.calls rl s cs).1.attackCooldownTimer := by
  induction cs with
  | nil => intro s _; simp [Zombie.calls, callsTime]
  | cons c cs ih =>
    intro s hdt
    have hc : 0 ≤ c.deltaTime := hdt c (List.mem_cons_self _ _)
    have hcs : ∀ d ∈ cs, 0 ≤ d.deltaTime := fun d hd => hdt d (List.mem_cons_of_mem _ hd)
    have h2 := ih (Zombie.call rl s c) hcs
    rw [Zombie.calls_cons, callsTime_cons]
    have h1 : s.1.attackCooldownTimer - c.deltaTime
        ≤ (Zombie.call rl s c).1.attackCooldownTimer := by
      cases c with
      | update pp dt walls => exact Zombie.update_attackCooldownTimer_ge rl s.1 pp dt walls s.2 hc
      | takeDamage dmg =>
        show s.1.attackCooldownTimer - 0 ≤ (s.1.takeDamage dmg).attackCooldownTimer
        rw [(s.1.takeDamage_fields dmg).2.2, sub_zero]
    linarith

lemma Zombie.calls_harmless_update (rl : Raylib F) (cs : List (ZombieCall F)) :
    ∀ s : Zombie F × F, s.1.currentState ≠ ZombieState.ATTACKING →
      (Zombie.calls rl s cs).1.currentState = ZombieState.ATTACKING →
      ∃ pre pp dt walls post, cs = pre ++ ZombieCall.update pp dt walls :: post
        ∧ ((Zombie.calls rl s pre).1.update rl pp dt walls (Zombie.calls rl s pre).2).2
            = (Zombie.calls rl s pre).2 := by
  induction cs with
  | nil => intro s hs he; exact absurd he hs
  | cons c cs ih =>
    intro s hs he
    cases c with
    | update pp dt walls =>
      exact ⟨[], pp, dt, walls, cs, rfl,
        (Zombie.update_of_not_attacking rl s.1 pp dt walls s.2 hs).1⟩
    | takeDamage dmg =>
      rw [Zombie.calls_cons] at he
      have hs2 : (Zombie.call rl s (ZombieCall.takeDamage dmg)).1.currentState
          ≠ ZombieState.ATTACKING := by
        show (s.1.takeDamage dmg).currentState ≠ _
        rw [(s.1.takeDamage_fields dmg).1]; exact hs
      obtain ⟨pre, pp, dt, walls, post, e, h⟩ := ih _ hs2 he
      exact ⟨ZombieCall.takeDamage dmg :: pre, pp, dt, walls, post, by rw [e]; rfl, h⟩

end ZombieUpdateFacts

/-! ## Claims about frame effects of the resolver and the dying state -/

section FrameEffectClaims

variable {F : Type} [LinearOrderedField F]

/-- C24. If the distance from the centre of the circle to its closest point on
the rectangle is >= radius, `resolveSingleWallCollision` leaves the centre
unchanged: first for the distance as the code computes it (through the library
square root), then for the true distance, compared through squares, when the
square root is exact at the squared distance. -/
theorem resolve_far_unchanged (rl : Raylib F) (c : Vector2 F) (r : F) (wall : Rectangle F) :
    (r ≤ Vector2Length rl (Vector2Subtract (closestPoint c wall) c) →
        resolveSingleWallCollision rl c r wall = c)
      ∧ (SqrtExactAt rl (distSqToRect c wall) → (r ≤ 0 ∨ r * r ≤ distSqToRect c wall) →
          resolveSingleWallCollision rl c r wall = c) := by
  constructor
  · intro h
    exact resolve_of_far rl c r wall (not_lt.2 h)
  · rintro ⟨hd0, hdd⟩ h
    apply resolve_of_far rl c r wall
    intro hlt
    rcases h with h | h
    · exact absurd (lt_of_le_of_lt hd0 hlt) (not_lt.2 h)
    · have hr : 0 < r := lt_of_le_of_lt hd0 hlt
      have : rl.sqrtf (distSqToRect c wall) * rl.sqrtf (distSqToRect c wall) < r * r :=
        mul_lt_mul'' hlt hlt hd0 hd0
      rw [hdd] at this
      exact absurd this (not_lt.2 h)

/-- Witness for C24: a circle of radius 10 centred 10 to the left of the flat
wall touches it without overlap and stays where it is. -/
theorem resolve_far_unchanged_witness :
    (10 : ℚ) ≤ Vector2Length sampleRaylib (Vector2Subtract (closestPoint ⟨-10, 5⟩ flatWall)
        ⟨-10, 5⟩)
      ∧ SqrtExactAt sampleRaylib (distSqToRect ⟨-10, 5⟩ flatWall)
      ∧ (10 : ℚ) * 10 ≤ distSqToRect ⟨-10, 5⟩ flatWall
      ∧ resolveSingleWallCollision sampleRaylib ⟨-10, 5⟩ 10 flatWall = ⟨-10, 5⟩ := by
  have h1 : (10 : ℚ) ≤ Vector2Length sampleRaylib
      (Vector2Subtract (closestPoint ⟨-10, 5⟩ flatWall) ⟨-10, 5⟩) := by decide!
  have h2 : SqrtExactAt sampleRaylib (distSqToRect ⟨-10, 5⟩ flatWall) := by
    unfold SqrtExactAt; decide!
  have h3 : (10 : ℚ) * 10 ≤ distSqToRect ⟨-10, 5⟩ flatWall := by decide!
  exact ⟨h1, h2, h3, (resolve_far_unchanged sampleRaylib ⟨-10, 5⟩ 10 flatWall).1 h1⟩

/-- C26 (amended). For every zombie in state `DYING`, `Zombie::update` leaves the
player health, the position, `maxHealth`, `speed`, `damage` and `size`
unchanged and ends in `DYING` or `DEAD`; it re-clamps the health into
`[0, maxHealth]`, which leaves it unchanged when it already lies there; and,
besides `deathTimer` and the explosion radius and alpha, it also runs
`updateTimers`, so both the hit-flash timer and the attack cooldown count down.
`Zombie::takeDamage` leaves a `DYING` zombie unchanged. -/
theorem dying_update_frame (rl : Raylib F) (z : Zombie F) (playerPos : Vector2 F)
    (deltaTime : F) (walls : List (Rectangle F)) (playerHealth : F)
    (hstate : z.currentState = ZombieState.DYING) :
    (z.update rl playerPos deltaTime walls playerHealth).2 = playerHealth
      ∧ (z.update rl playerPos deltaTime walls playerHealth).1.pos = z.pos
      ∧ (z.update rl playerPos deltaTime walls playerHealth).1.health
          = CLAMP z.health 0 z.maxHealth
      ∧ (0 ≤ z.health → z.health ≤ z.maxHealth →
          (z.update rl playerPos deltaTime walls playerHealth).1.health = z.health)
      ∧ (z.update rl playerPos deltaTime walls playerHealth).1.maxHealth = z.maxHealth
      ∧ (z.update rl playerPos deltaTime walls playerHealth).1.speed = z.speed
      ∧ (z.update rl playerPos deltaTime walls playerHealth).1.damage = z.damage
      ∧ (z.update rl playerPos deltaTime walls playerHealth).1.size = z.size
      ∧ (z.update rl playerPos deltaTime walls playerHealth).1.attackCooldownTimer
          = (z.updateTimers deltaTime).attackCooldownTimer
      ∧ (z.update rl playerPos deltaTime walls playerHealth).1.hitFlashTimer
          = (z.updateTimers deltaTime).hitFlashTimer
      ∧ ((z.update rl playerPos deltaTime walls playerHealth).1.currentState
            = ZombieState.DYING
          ∨ (z.update rl playerPos deltaTime walls playerHealth).1.currentState
            = ZombieState.DEAD)
      ∧ ∀ dmg : ℤ, z.takeDamage dmg = z := by
  have hnd : z.currentState ≠ ZombieState.DEAD := by simp [hstate]
  obtain ⟨d1, -, d3, d4⟩ := Zombie.update_dying_fields rl z playerPos deltaTime walls
    playerHealth hstate
  obtain ⟨f1, f2, f3, f4, f5⟩ := Zombie.update_dying_frame rl z playerPos deltaTime walls
    playerHealth hstate
  have hh := Zombie.update_health_of_not_dead rl z playerPos deltaTime walls playerHealth hnd
  refine ⟨d1, d4, hh, fun h0 h1 => by rw [hh]; exact CLAMP_of_bounds h0 h1,
    Zombie.update_maxHealth rl z playerPos deltaTime walls playerHealth, f1, f2, f3, f4, f5,
    ?_, fun dmg => Zombie.takeDamage_of_dying_or_dead z dmg (Or.inl hstate)⟩
  rw [d3]
  split_ifs
  · exact Or.inr rfl
  · exact Or.inl rfl

/-- Witness for C26: the update of a zombie that is `DYING` at health 0 leaves
the player health of 100, the position and the health as they were, and a
further hit is ignored. -/
theorem dying_update_frame_witness :
    dyingZombie.currentState = ZombieState.DYING
      ∧ (dyingZombie.update sampleRaylib ⟨3, 4⟩ (1 / 60) [] 100).2 = 100
      ∧ (dyingZombie.update sampleRaylib ⟨3, 4⟩ (1 / 60) [] 100).1.pos = dyingZombie.pos
      ∧ (dyingZombie.update sampleRaylib ⟨3, 4⟩ (1 / 60) [] 100).1.health = dyingZombie.health
      ∧ dyingZombie.takeDamage 7 = dyingZombie := by
  have h := dying_update_frame sampleRaylib dyingZombie ⟨3, 4⟩ (1 / 60) [] 100 (by decide!)
  exact ⟨by decide!, h.1, h.2.1, h.2.2.2.1 (by decide!) (by decide!), h.2.2.2.2.2.2.2.2.2.2.2 7⟩

/-- Counterexample to C26 as stated: the tank zombie that hit the player, was
killed by a bullet and entered `DYING` has `attackCooldownTimer = 59/60`, and
its next update, in state `DYING`, changes that timer to `58/60`; the attack
cooldown is none of the fields the claim allows to change. -/
theorem dying_update_changes_attack_cooldown :
    dyingCoolingTank.currentState = ZombieState.DYING
      ∧ dyingCoolingTank.attackCooldownTimer = 59 / 60
      ∧ (dyingCoolingTank.update sampleRaylib ⟨600, 400⟩ (1 / 60) [] 80).1.attackCooldownTimer
          = 58 / 60 := by
  decide!

end FrameEffectClaims

/-! ## Claims about melee -/

section MeleeClaims

variable {F : Type} [LinearOrderedField F]

/-- C27. Lethal damage does not cancel the attack of the same update: a zombie
in `ATTACKING` whose health is already `<= 0` when `Zombie::update` starts, with
the player closer than `size + 20 - ZOMBIE_ATTACK_RANGE_BUFFER` and
`attackCooldownTimer <= 0`, still subtracts its damage from the player health in
that update; the update ends in `DYING`, with the health clamped into
`[0, maxHealth]`. -/
theorem lethal_zombie_still_attacks (rl : Raylib F) (z : Zombie F) (playerPos : Vector2 F)
    (deltaTime : F) (walls : List (Rectangle F)) (playerHealth : F)
    (hstate : z.currentState = ZombieState.ATTACKING) (hhealth : z.health ≤ 0)
    (hdist : Vector2Distance rl z.pos playerPos < z.size + 20 - ZOMBIE_ATTACK_RANGE_BUFFER)
    (hcool : z.attackCooldownTimer ≤ 0) :
    (z.update rl playerPos deltaTime walls playerHealth).2 = playerHealth - (z.damage : F)
      ∧ (z.update rl playerPos deltaTime walls playerHealth).1.currentState
          = ZombieState.DYING
      ∧ (z.update rl playerPos deltaTime walls playerHealth).1.health
          = CLAMP z.health 0 z.maxHealth := by
  have hnd : z.currentState ≠ ZombieState.DEAD := by simp [hstate]
  have hcd : (z.updateTimers deltaTime).attackCooldownTimer ≤ 0 := by
    rw [z.updateTimers_attackCooldownTimer_of_nonpos deltaTime hcool]; exact hcool
  refine ⟨?_, Zombie.update_attacking_lethal rl z playerPos deltaTime walls playerHealth hstate
    hhealth, Zombie.update_health_of_not_dead rl z playerPos deltaTime walls playerHealth hnd⟩
  rw [(Zombie.update_attacking rl z playerPos deltaTime walls playerHealth hstate).1,
    if_pos ⟨hdist, hcd⟩]

/-- Witness for C27: the tank zombie that a bullet took to health `-50` still
takes 20 off the player health of 100 in its next update, and ends it `DYING`
at health 0. -/
theorem lethal_zombie_still_attacks_witness :
    lethallyHitTank.currentState = ZombieState.ATTACKING ∧ lethallyHitTank.health = -50
      ∧ (lethallyHitTank.update sampleRaylib ⟨600, 400⟩ (1 / 60) [] 100).2 = 80
      ∧ (lethallyHitTank.update sampleRaylib ⟨600, 400⟩ (1 / 60) [] 100).1.currentState
          = ZombieState.DYING
      ∧ (lethallyHitTank.update sampleRaylib ⟨600, 400⟩ (1 / 60) [] 100).1.health = 0 := by
  have h := lethal_zombie_still_attacks sampleRaylib lethallyHitTank ⟨600, 400⟩ (1 / 60) [] 100
    (by decide!) (by decide!) (by decide!) (by decide!)
  refine ⟨by decide!, by decide!, ?_, h.2.1, ?_⟩
  · rw [h.1]; decide!
  · rw [h.2.2]; decide!

/-- C28. Melee cadence. `Zombie::update` changes the player health only if the
zombie starts that update in `ATTACKING`, indeed only if the attack test of
`handleAttackingState` holds, and then it subtracts the zombie's damage. After
an update in which the zombie hits, let any calls follow whose updates have
`deltaTime >= 0`, and then an update in which it hits again: the `deltaTime`s
of the updates after the first hit up to and including the second sum to at
least `ZOMBIE_ATTACK_COOLDOWN`, and among the calls in between there is an
update that leaves the player health as it was. -/
theorem melee_cadence (rl : Raylib F) :
    (∀ (z : Zombie F) (playerPos : Vector2 F) (deltaTime : F) (walls : List (Rectangle F))
        (playerHealth : F),
        (z.update rl playerPos deltaTime walls playerHealth).2 ≠ playerHealth →
          z.currentState = ZombieState.ATTACKING ∧ z.meleeHits rl playerPos deltaTime = true)
      ∧ (∀ (z : Zombie F) (playerPos : Vector2 F) (deltaTime : F) (walls : List (Rectangle F))
          (playerHealth : F), z.meleeHits rl playerPos deltaTime = true →
            (z.update rl playerPos deltaTime walls playerHealth).2
              = playerHealth - (z.damage : F))
      ∧ (∀ (z : Zombie F) (playerHealth : F) (pos1 : Vector2 F) (dt1 : F)
          (walls1 : List (Rectangle F)) (cs : List (ZombieCall F)) (pos2 : Vector2 F) (dt2 : F),
          z.meleeHits rl pos1 dt1 = true →
          (∀ c ∈ cs, 0 ≤ c.deltaTime) → 0 ≤ dt2 →
          (Zombie.calls rl (z.update rl pos1 dt1 walls1 playerHealth) cs).1.meleeHits rl pos2 dt2
            = true →
          ZOMBIE_ATTACK_COOLDOWN ≤ callsTime cs + dt2
            ∧ ∃ pre pp dt walls post, cs = pre ++ ZombieCall.update pp dt walls :: post
              ∧ ((Zombie.calls rl (z.update rl pos1 dt1 walls1 playerHealth) pre).1.update rl
                    pp dt walls
                    (Zombie.calls rl (z.update rl pos1 dt1 walls1 playerHealth) pre).2).2
                  = (Zombie.calls rl (z.update rl pos1 dt1 walls1 playerHealth) pre).2) := by
  refine ⟨?_, ?_, ?_⟩
  · intro z pp dt walls ph hne
    have hm : z.meleeHits rl pp dt = true := by
      by_contra hc
      exact hne (Zombie.update_of_not_meleeHits rl z pp dt walls ph (Bool.eq_false_iff.2 hc))
    exact ⟨((Zombie.meleeHits_iff rl z pp dt).1 hm).1, hm⟩
  · intro z pp dt walls ph hm
    exact (Zombie.update_of_meleeHits rl z pp dt walls ph hm).1
  · intro z ph pos1 dt1 walls1 cs pos2 dt2 h1 hcs hdt2 h2
    obtain ⟨-, hcd, hst⟩ := Zombie.update_of_meleeHits rl z pos1 dt1 walls1 ph h1
    obtain ⟨hs2, -, hc2⟩ := (Zombie.meleeHits_iff rl _ pos2 dt2).1 h2
    refine ⟨?_, Zombie.calls_harmless_update rl cs _ hst hs2⟩
    have hge := Zombie.calls_attackCooldownTimer_ge rl cs (z.update rl pos1 dt1 walls1 ph) hcs
    have hge2 := Zombie.updateTimers_attackCooldownTimer_ge
      (Zombie.calls rl (z.update rl pos1 dt1 walls1 ph) cs).1 dt2 hdt2
    rw [hcd] at hge
    linarith

/-- Witness for C28: the tank zombie hits the player (100 to 80), is updated
twice for half a second, during which it walks past the player and back with the
cooldown running, and hits again in the update after; the time from the first
hit to the second is `1/2 + 1/2 + 1/60`. -/
theorem melee_cadence_witness :
    attackingTank.meleeHits sampleRaylib ⟨600, 400⟩ (1 / 60) = true
      ∧ (attackingTank.update sampleRaylib ⟨600, 400⟩ (1 / 60) [] 100).2 = 80
      ∧ (Zombie.calls sampleRaylib (attackingTank.update sampleRaylib ⟨600, 400⟩ (1 / 60) [] 100)
          halfSecondCalls).1.meleeHits sampleRaylib ⟨600, 400⟩ (1 / 60) = true
      ∧ (ZOMBIE_ATTACK_COOLDOWN : ℚ) ≤ callsTime halfSecondCalls + 1 / 60 := by
  have h1 : attackingTank.meleeHits sampleRaylib ⟨600, 400⟩ (1 / 60) = true := by decide!
  have h2 : (Zombie.calls sampleRaylib
      (attackingTank.update sampleRaylib ⟨600, 400⟩ (1 / 60) [] 100)
      halfSecondCalls).1.meleeHits sampleRaylib ⟨600, 400⟩ (1 / 60) = true := by decide!
  have ha := (melee_cadence sampleRaylib).2.1 attackingTank ⟨600, 400⟩ (1 / 60) [] 100 h1
  have hb := (melee_cadence sampleRaylib).2.2 attackingTank 100 ⟨600, 400⟩ (1 / 60) []
    halfSecondCalls ⟨600, 400⟩ (1 / 60) h1 (by decide!) (by decide!) h2
  refine ⟨h1, ?_, h2, hb.1⟩
  rw [ha]; decide!

end MeleeClaims

/-! ## Player: the dash fields and `maxHealth` across the calls -/

section PlayerCallFacts

variable {F : Type} [LinearOrderedField F]

lemma Player.updateInvulnerability_eq (p : Player F) (dt : F) :
    p.updateInvulnerability dt
      = { p with invulnerabilityTimer :=
            if p.invulnerabilityTimer > 0 then
              (if p.invulnerabilityTimer - dt < 0 then 0 else p.invulnerabilityTimer - dt)
            else p.invulnerabilityTimer } := by
  unfold Player.updateInvulnerability; simp only; split_ifs <;> rfl

lemma Player.updateMuzzleFlash_eq (p : Player F) (dt : F) :
    p.updateMuzzleFlash dt
      = { p with muzzleFlashTimer :=
            if p.muzzleFlashTimer > 0 then
              (if p.muzzleFlashTimer - dt < 0 then 0 else p.muzzleFlashTimer - dt)
            else p.muzzleFlashTimer } := by
  unfold Player.updateMuzzleFlash; simp only; split_ifs <;> rfl

lemma Player.updateDamageFlash_eq (p : Player F) (dt : F) :
    p.updateDamageFlash dt
      = { p with damageTakenFlashTimer :=
            if p.damageTakenFlashTimer > 0 then
              (if p.damageTakenFlashTimer - dt < 0 then 0 else p.damageTakenFlashTimer - dt)
            else p.damageTakenFlashTimer } := by
  unfold Player.updateDamageFlash; simp only; split_ifs <;> rfl

lemma Player.updateHealthRegen_frame (p : Player F) (dt : F) :
    (p.updateHealthRegen dt).pos = p.pos
      ∧ (p.updateHealthRegen dt).isDashing = p.isDashing
      ∧ (p.updateHealthRegen dt).dashTimer = p.dashTimer
      ∧ (p.updateHealthRegen dt).dashDirection = p.dashDirection
      ∧ (p.updateHealthRegen dt).maxHealth = p.maxHealth
      ∧ (p.updateHealthRegen dt).size = p.size := by
  unfold Player.updateHealthRegen; simp only; split_ifs <;> exact ⟨rfl, rfl, rfl, rfl, rfl, rfl⟩

lemma Player.updateDash_frame (p : Player F) (dt : F) :
    (p.updateDash dt).maxHealth = p.maxHealth ∧ (p.updateDash dt).size = p.size
      ∧ (p.updateDash dt).health = p.health
      ∧ (p.updateDash dt).dashDirection = p.dashDirection := by
  unfold Player.updateDash; simp only; split_ifs <;> exact ⟨rfl, rfl, rfl, rfl⟩

lemma Player.updateDash_cases (p : Player F) (dt : F) :
    (p.isDashing = true ∧ 0 < p.dashTimer - dt
        ∧ (p.updateDash dt).isDashing = true
        ∧ (p.updateDash dt).dashTimer = p.dashTimer - dt
        ∧ (p.updateDash dt).pos
            = Vector2Add p.pos
                (Vector2Scale p.dashDirection (200 * DASH_SPEED_MULTIPLIER * dt)))
      ∨ (p.isDashing = true ∧ p.dashTimer - dt ≤ 0
          ∧ (p.updateDash dt).isDashing = false ∧ (p.updateDash dt).dashTimer = 0
          ∧ (p.updateDash dt).pos = p.pos)
      ∨ (p.isDashing = false ∧ p.updateDash dt = p) := by
  unfold Player.updateDash
  by_cases h : p.isDashing = true
  · rw [if_pos h]
    simp only
    by_cases ht : p.dashTimer - dt ≤ 0
    · rw [if_pos ht]
      exact Or.inr (Or.inl ⟨h, ht, rfl, rfl, rfl⟩)
    · rw [if_neg ht]
      exact Or.inl ⟨h, not_le.1 ht, h, rfl, rfl⟩
  · rw [if_neg h]
    exact Or.inr (Or.inr ⟨by simpa using h, rfl⟩)

lemma Player.updateTimers_dash (p : Player F) (dt : F) :
    (p.updateTimers dt).isDashing = (p.updateDash dt).isDashing
      ∧ (p.updateTimers dt).dashTimer = (p.updateDash dt).dashTimer
      ∧ (p.updateTimers dt).pos = (p.updateDash dt).pos
      ∧ (p.updateTimers dt).dashDirection = p.dashDirection
      ∧ (p.updateTimers dt).maxHealth = p.maxHealth
      ∧ (p.updateTimers dt).size = p.size := by
  unfold Player.updateTimers
  obtain ⟨h1, h2, h3, h4, h5, h6⟩ := Player.updateHealthRegen_frame
    ((((p.updateInvulnerability dt).updateMuzzleFlash dt).updateDamageFlash dt).updateDash dt) dt
  rw [h1, h2, h3, h4, h5, h6, Player.updateDamageFlash_eq, Player.updateMuzzleFlash_eq,
    Player.updateInvulnerability_eq]
  unfold Player.updateDash
  simp only
  split_ifs <;> exact ⟨rfl, rfl, rfl, rfl, rfl, rfl⟩

lemma Player.updateTimers_inv_eq (p : Player F) (dt : F) :
    (p.updateTimers dt).invulnerabilityTimer
      = if p.invulnerabilityTimer > 0 then
          (if p.invulnerabilityTimer - dt < 0 then 0 else p.invulnerabilityTimer - dt)
        else p.invulnerabilityTimer := by
  unfold Player.updateTimers
  rw [Player.updateHealthRegen_invulnerabilityTimer, Player.updateDash_invulnerabilityTimer,
    Player.updateDamageFlash_invulnerabilityTimer, Player.updateMuzzleFlash_invulnerabilityTimer,
    Player.updateInvulnerability_eq]

lemma Player.takeDamage_frame (p : Player F) (amount : F) :
    (p.takeDamage amount).pos = p.pos
      ∧ (p.takeDamage amount).isDashing = p.isDashing
      ∧ (p.takeDamage amount).dashTimer = p.dashTimer
      ∧ (p.takeDamage amount).dashDirection = p.dashDirection
      ∧ (p.takeDamage amount).maxHealth = p.maxHealth
      ∧ (p.takeDamage amount).size = p.size := by
  unfold Player.takeDamage; split_ifs <;> exact ⟨rfl, rfl, rfl, rfl, rfl, rfl⟩

lemma Player.contactDamage_induction (rl : Raylib F) (dt : F) (P : Player F → Prop)
    (hP : ∀ q a, P q → P (q.takeDamage a)) (zs : List (Zombie F)) :
    ∀ p : Player F, P p → P (p.contactDamage rl dt zs) := by
  induction zs with
  | nil => intro p h; exact h
  | cons z zs ih =>
    intro p h
    unfold Player.contactDamage
    rw [List.foldl_cons]
    apply ih
    split_ifs
    · exact hP p _ h
    · exact h

lemma Player.contactDamage_frame (rl : Raylib F) (dt : F) (zs : List (Zombie F)) (p : Player F) :
    (p.contactDamage rl dt zs).pos = p.pos
      ∧ (p.contactDamage rl dt zs).isDashing = p.isDashing
      ∧ (p.contactDamage rl dt zs).dashTimer = p.dashTimer
      ∧ (p.contactDamage rl dt zs).dashDirection = p.dashDirection
      ∧ (p.contactDamage rl dt zs).maxHealth = p.maxHealth
      ∧ (p.contactDamage rl dt zs).size = p.size := by
  refine Player.contactDamage_induction rl dt
    (fun q => q.pos = p.pos ∧ q.isDashing = p.isDashing ∧ q.dashTimer = p.dashTimer
      ∧ q.dashDirection = p.dashDirection ∧ q.maxHealth = p.maxHealth ∧ q.size = p.size)
    ?_ zs p ⟨rfl, rfl, rfl, rfl, rfl, rfl⟩
  intro q a h
  obtain ⟨h1, h2, h3, h4, h5, h6⟩ := q.takeDamage_frame a
  simp only [h1, h2, h3, h4, h5, h6]
  exact h

lemma Player.update_fields (rl : Raylib F) (p : Player F) (dt : F) (zs : List (Zombie F))
    (walls : List (Rectangle F)) :
    (p.update rl dt zs walls).1.pos = ((p.updateTimers dt).contactDamage rl dt zs).pos
      ∧ (p.update rl dt zs walls).1.isDashing
          = ((p.updateTimers dt).contactDamage rl dt zs).isDashing
      ∧ (p.update rl dt zs walls).1.dashTimer
          = ((p.updateTimers dt).contactDamage rl dt zs).dashTimer
      ∧ (p.update rl dt zs walls).1.dashDirection
          = ((p.updateTimers dt).contactDamage rl dt zs).dashDirection
      ∧ (p.update rl dt zs walls).1.maxHealth
          = ((p.updateTimers dt).contactDamage rl dt zs).maxHealth
      ∧ (p.update rl dt zs walls).1.invulnerabilityTimer
          = ((p.updateTimers dt).contactDamage rl dt zs).invulnerabilityTimer
      ∧ (p.update rl dt zs walls).1.health
          = CLAMP ((p.updateTimers dt).contactDamage rl dt zs).health 0
              ((p.updateTimers dt).contactDamage rl dt zs).maxHealth := by
  unfold Player.update
  exact ⟨rfl, rfl, rfl, rfl, rfl, rfl, rfl⟩

lemma Player.update_dash (rl : Raylib F) (p : Player F) (dt : F) (zs : List (Zombie F))
    (walls : List (Rectangle F)) :
    (p.update rl dt zs walls).1.isDashing = (p.updateDash dt).isDashing
      ∧ (p.update rl dt zs walls).1.dashTimer = (p.updateDash dt).dashTimer
      ∧ (p.update rl dt zs walls).1.pos = (p.updateDash dt).pos
      ∧ (p.update rl dt zs walls).1.dashDirection = p.dashDirection
      ∧ (p.update rl dt zs walls).1.maxHealth = p.maxHealth := by
  obtain ⟨u1, u2, u3, u4, u5, -, -⟩ := Player.update_fields rl p dt zs walls
  obtain ⟨c1, c2, c3, c4, c5, -⟩ := Player.contactDamage_frame rl dt zs (p.updateTimers dt)
  obtain ⟨t1, t2, t3, t4, t5, -⟩ := Player.updateTimers_dash p dt
  rw [u1, u2, u3, u4, u5, c1, c2, c3, c4, c5, t1, t2, t3, t4, t5]
  exact ⟨rfl, rfl, rfl, rfl, rfl⟩

lemma Player.dash_maxHealth (rl : Raylib F) (p : Player F) (d : Vector2 F) :
    (p.dash rl d).maxHealth = p.maxHealth := by
  unfold Player.dash; split_ifs <;> rfl

lemma Player.shoot_frame (rl : Raylib F) (p : Player F) (t : F) :
    (p.shoot rl t).maxHealth = p.maxHealth
      ∧ (p.shoot rl t).isDashing = p.isDashing
      ∧ (p.shoot rl t).dashTimer = p.dashTimer
      ∧ (p.shoot rl t).invulnerabilityTimer = p.invulnerabilityTimer := by
  unfold Player.shoot; simp only; split_ifs <;> exact ⟨rfl, rfl, rfl, rfl⟩

lemma Player.call_maxHealth (rl : Raylib F) (p : Player F) (c : PlayerCall F) :
    (Player.call rl p c).maxHealth = p.maxHealth := by
  cases c with
  | dash d => exact Player.dash_maxHealth rl p d
  | takeDamage a => exact (p.takeDamage_frame a).2.2.2.2.1
  | shoot t => exact (Player.shoot_frame rl p t).1
  | update dt zs walls => exact (Player.update_dash rl p dt zs walls).2.2.2.2

lemma Player.calls_maxHealth (rl : Raylib F) (cs : List (PlayerCall F)) :
    ∀ p : Player F, (Player.calls rl p cs).maxHealth = p.maxHealth := by
  induction cs with
  | nil => intro p; rfl
  | cons c cs ih =>
    intro p
    show (Player.calls rl (Player.call rl p c) cs).maxHealth = _
    rw [ih, Player.call_maxHealth]

lemma DashInv.of_takeDamage {p : Player F} (h : DashInv p) (a : F) : DashInv (p.takeDamage a) := by
  by_cases hd : p.isDashing = true
  · obtain ⟨h1, h2⟩ := h hd
    rw [Player.takeDamage_of_invulnerable p a (lt_of_lt_of_le h2 h1)]
    exact h
  · intro hd2
    rw [(p.takeDamage_frame a).2.1] at hd2
    exact absurd hd2 hd

lemma DashInv.of_dash (rl : Raylib F) {p : Player F} (h : DashInv p) (d : Vector2 F) :
    DashInv (p.dash rl d) := by
  unfold Player.dash
  split_ifs
  · intro _
    have : (0 : F) < DASH_DURATION := by unfold DASH_DURATION; norm_num
    exact ⟨le_refl _, this⟩
  · exact h

lemma DashInv.of_shoot (rl : Raylib F) {p : Player F} (h : DashInv p) (t : F) :
    DashInv (p.shoot rl t) := by
  obtain ⟨-, h2, h3, h4⟩ := Player.shoot_frame rl p t
  unfold DashInv
  rw [h2, h3, h4]
  exact h

lemma DashInv.of_updateTimers {p : Player F} (h : DashInv p) (dt : F) :
    DashInv (p.updateTimers dt) := by
  obtain ⟨t1, t2, -, -, -, -⟩ := Player.updateTimers_dash p dt
  intro hd
  rw [t1] at hd
  rw [t2, Player.updateTimers_inv_eq]
  rcases Player.updateDash_cases p dt with ⟨c1, c2, -, c4, -⟩ | ⟨-, -, c3, -, -⟩ | ⟨c1, c2⟩
  · obtain ⟨h1, h2⟩ := h c1
    rw [c4, if_pos (lt_of_lt_of_le h2 h1), if_neg (by linarith)]
    exact ⟨by linarith, c2⟩
  · rw [c3] at hd; exact Bool.noConfusion hd
  · rw [c2, c1] at hd; exact Bool.noConfusion hd

lemma DashInv.of_player_update (rl : Raylib F) {p : Player F} (h : DashInv p) (dt : F)
    (zs : List (Zombie F)) (walls : List (Rectangle F)) :
    DashInv (p.update rl dt zs walls).1 := by
  have hc : DashInv ((p.updateTimers dt).contactDamage rl dt zs) :=
    Player.contactDamage_induction rl dt DashInv (fun q a hq => DashInv.of_takeDamage hq a) zs _
      (DashInv.of_updateTimers h dt)
  obtain ⟨-, u2, u3, -, -, u6, -⟩ := Player.update_fields rl p dt zs walls
  unfold DashInv
  rw [u2, u3, u6]
  exact hc

lemma DashInv.of_player_calls (rl : Raylib F) (cs : List (PlayerCall F)) :
    ∀ p : Player F, DashInv p → DashInv (Player.calls rl p cs) := by
  induction cs with
  | nil => intro p h; exact h
  | cons c cs ih =>
    intro p h
    show DashInv (Player.calls rl (Player.call rl p c) cs)
    apply ih
    cases c with
    | dash d => exact DashInv.of_dash rl h d
    | takeDamage a => exact DashInv.of_takeDamage h a
    | shoot t => exact DashInv.of_shoot rl h t
    | update dt zs walls => exact DashInv.of_player_update rl h dt zs walls

lemma Player.contactDamage_of_contact (rl : Raylib F) (dt : F) (zs : List (Zombie F)) :
    ∀ p : Player F, p.invulnerabilityTimer ≤ 0 → 0 < p.health →
      (∃ z ∈ zs, Vector2Distance rl p.pos z.pos < p.size + z.size) →
      p.contactDamage rl dt zs = p.takeDamage (20 * dt) := by
  induction zs with
  | nil =>
    intro p _ _ h
    obtain ⟨z, hz, -⟩ := h
    exact absurd hz (List.not_mem_nil z)
  | cons w zs ih =>
    intro p hinv hh h
    have hstep : p.contactDamage rl dt (w :: zs)
        = (if Vector2Distance rl p.pos w.pos < p.size + w.size then p.takeDamage (20 * dt)
            else p).contactDamage rl dt zs := rfl
    rw [hstep]
    by_cases hw : Vector2Distance rl p.pos w.pos < p.size + w.size
    · rw [if_pos hw]
      apply Player.contactDamage_of_invulnerable
      unfold Player.takeDamage
      rw [if_pos ⟨hinv, hh⟩]
      show (0 : F) < INVULNERABILITY_DURATION
      unfold INVULNERABILITY_DURATION
      norm_num
    · rw [if_neg hw]
      apply ih p hinv hh
      obtain ⟨z, hz, hd⟩ := h
      rcases List.mem_cons.1 hz with e | e
      · rw [e] at hd; exact absurd hd hw
      · exact ⟨z, e, hd⟩

lemma updateBullets_single (rl : Raylib F) (dt : F) (walls : List (Rectangle F)) (b : Bullet F)
    (zs : List (Zombie F)) :
    updateBullets rl dt walls [b] zs
      = ([(updateBullet rl dt walls b zs).1], (updateBullet rl dt walls b zs).2) := rfl

lemma Player.update_snd (rl : Raylib F) (p : Player F) (dt : F) (zs : List (Zombie F))
    (walls : List (Rectangle F)) :
    (p.update rl dt zs walls).2 = (updateBullets rl dt walls p.bullets zs).2 := by
  unfold Player.update
  simp only
  rw [Player.contactDamage_bullets, Player.updateTimers_bullets]

lemma Vector2Normalize_unit (rl : Raylib F) (v : Vector2 F)
    (hsqrt : SqrtExactAt rl (Vector2LengthSqr v)) (hpos : 0 < Vector2Length rl v) :
    Vector2LengthSqr (Vector2Normalize rl v) = 1 := by
  obtain ⟨-, hdd⟩ := hsqrt
  simp only [Vector2LengthSqr] at hdd
  simp only [Vector2Length] at hpos
  unfold Vector2Normalize
  simp only
  rw [if_pos hpos]
  simp only [Vector2LengthSqr]
  have hne : rl.sqrtf (v.x * v.x + v.y * v.y) ≠ 0 := ne_of_gt hpos
  field_simp
  nlinarith [hdd]

lemma Vector2Add_Scale_Scale (P D : Vector2 F) (s k : F) :
    Vector2Add (Vector2Add P (Vector2Scale D s)) (Vector2Scale D k)
      = Vector2Add P (Vector2Scale D (s + k)) := by
  simp only [Vector2Add, Vector2Scale, Vector2.mk.injEq]
  constructor <;> ring

lemma DashPath.step (rl : Raylib F) {P D : Vector2 F} {p : Player F} {s : F}
    (h : DashPath P D p s) (dt : F) (hdt : 0 ≤ dt) (zs : List (Zombie F))
    (walls : List (Rectangle F)) :
    ∃ s2, DashPath P D (p.update rl dt zs walls).1 s2 := by
  obtain ⟨hD, hP, h0, h1, hT⟩ := h
  obtain ⟨u1, u2, u3, u4, -⟩ := Player.update_dash rl p dt zs walls
  rcases Player.updateDash_cases p dt with ⟨c1, c2, c3, c4, c5⟩ | ⟨-, -, c3, -, c5⟩ | ⟨-, c2⟩
  · obtain ⟨t1, -⟩ := hT c1
    have hk : (0 : F) ≤ 200 * DASH_SPEED_MULTIPLIER * dt := by
      unfold DASH_SPEED_MULTIPLIER; linarith
    refine ⟨s + 200 * DASH_SPEED_MULTIPLIER * dt, ?_, ?_, by linarith, ?_, ?_⟩
    · rw [u4]; exact hD
    · rw [u3, c5, hP, hD]; exact Vector2Add_Scale_Scale P D s _
    · rw [t1] at c2
      unfold DASH_SPEED_MULTIPLIER DASH_DURATION at c2 ⊢
      linarith
    · intro _
      rw [u2, c4]
      refine ⟨?_, c2⟩
      rw [t1]
      unfold DASH_SPEED_MULTIPLIER DASH_DURATION
      ring
  · refine ⟨s, by rw [u4]; exact hD, by rw [u3, c5]; exact hP, h0, h1, ?_⟩
    intro hd
    rw [u1, c3] at hd
    exact Bool.noConfusion hd
  · rw [c2] at u1 u2 u3
    refine ⟨s, by rw [u4]; exact hD, by rw [u3]; exact hP, h0, h1, ?_⟩
    rw [u1, u2]
    exact hT

lemma DashPath.steps (rl : Raylib F) {P D : Vector2 F} (fs : List (Frame F)) :
    ∀ (p : Player F) (s : F), DashPath P D p s → (∀ f ∈ fs, 0 ≤ f.deltaTime) →
      ∃ s2, DashPath P D (p.updates rl fs) s2 := by
  induction fs with
  | nil => intro p s h _; exact ⟨s, h⟩
  | cons f fs ih =>
    intro p s h hdt
    obtain ⟨s1, h1⟩ := DashPath.step rl h f.deltaTime (hdt f (List.mem_cons_self _ _))
      f.zombies f.walls
    rw [Player.updates_cons]
    exact ih _ s1 h1 (fun g hg => hdt g (List.mem_cons_of_mem _ hg))

end PlayerCallFacts

/-! ## Claims about the health bounds -/

section HealthBoundClaims

variable {F : Type} [LinearOrderedField F]

/-- C23. For every zombie constructed with health `h >= 0` and every sequence
of `Zombie::takeDamage` and `Zombie::update` calls, the health after a further
`Zombie::update` satisfies `0 <= health <= maxHealth`, with `maxHealth = h`;
the sequence being arbitrary, this holds after every update, also once the
zombie is `DYING` or `DEAD`. -/
theorem zombie_health_bounds (rl : Raylib F) (pos : Vector2 F) (speed : F) (h damage : ℤ)
    (size : F) (playerHealth : F) (hh : 0 ≤ h) (cs : List (ZombieCall F))
    (playerPos : Vector2 F) (deltaTime : F) (walls : List (Rectangle F)) :
    0 ≤ ((Zombie.calls rl (Zombie.new pos speed h damage size, playerHealth) cs).1.update rl
          playerPos deltaTime walls
          (Zombie.calls rl (Zombie.new pos speed h damage size, playerHealth) cs).2).1.health
      ∧ ((Zombie.calls rl (Zombie.new pos speed h damage size, playerHealth) cs).1.update rl
          playerPos deltaTime walls
          (Zombie.calls rl (Zombie.new pos speed h damage size, playerHealth) cs).2).1.health
        ≤ ((Zombie.calls rl (Zombie.new pos speed h damage size, playerHealth) cs).1.update rl
          playerPos deltaTime walls
          (Zombie.calls rl (Zombie.new pos speed h damage size, playerHealth) cs).2).1.maxHealth
      ∧ ((Zombie.calls rl (Zombie.new pos speed h damage size, playerHealth) cs).1.update rl
          playerPos deltaTime walls
          (Zombie.calls rl (Zombie.new pos speed h damage size, playerHealth) cs).2).1.maxHealth
        = h := by
  have h0 : ZombieHealthInv h (Zombie.new pos speed h damage size, playerHealth).1 :=
    ⟨rfl, fun hd => by simp [Zombie.new] at hd⟩
  have hs := ZombieHealthInv.of_calls rl hh cs _ h0
  obtain ⟨hi, h1, h2⟩ := ZombieHealthInv.of_update rl hh hs playerPos deltaTime walls
    (Zombie.calls rl (Zombie.new pos speed h damage size, playerHealth) cs).2
  rw [hi.1]
  exact ⟨h1, h2, rfl⟩

/-- Witness for C23: a zombie of health 10 is hit for 15, dies and is `DEAD`
after two updates; a further update finds its health at 0, within `[0, 10]`. -/
theorem zombie_health_bounds_witness :
    (Zombie.calls sampleRaylib (Zombie.new ⟨0, 0⟩ 120 10 5 15, (100 : ℚ))
        lethalCalls).1.currentState = ZombieState.DEAD
      ∧ 0 ≤ ((Zombie.calls sampleRaylib (Zombie.new ⟨0, 0⟩ 120 10 5 15, (100 : ℚ))
          lethalCalls).1.update sampleRaylib ⟨3, 4⟩ (1 / 60) []
          (Zombie.calls sampleRaylib (Zombie.new ⟨0, 0⟩ 120 10 5 15, (100 : ℚ))
            lethalCalls).2).1.health
      ∧ ((Zombie.calls sampleRaylib (Zombie.new ⟨0, 0⟩ 120 10 5 15, (100 : ℚ))
          lethalCalls).1.update sampleRaylib ⟨3, 4⟩ (1 / 60) []
          (Zombie.calls sampleRaylib (Zombie.new ⟨0, 0⟩ 120 10 5 15, (100 : ℚ))
            lethalCalls).2).1.health ≤ 10 := by
  have h := zombie_health_bounds sampleRaylib ⟨0, 0⟩ 120 10 5 15 (100 : ℚ) (by decide)
    lethalCalls ⟨3, 4⟩ (1 / 60) []
  refine ⟨by decide!, h.1, ?_⟩
  have h2 := h.2.1
  rw [h.2.2] at h2
  exact h2

/-- C22. For every player state with `maxHealth >= 0`, after any sequence of
`dash`, `takeDamage`, `shoot` and `update` calls, and for every zombie list,
wall list and `deltaTime`, the health right after a further `Player::update`
satisfies `0 <= health <= maxHealth`; `maxHealth` is the one the player started
with. -/
theorem player_health_bounds (rl : Raylib F) (p : Player F) (hmax : 0 ≤ p.maxHealth)
    (cs : List (PlayerCall F)) (deltaTime : F) (zombies : List (Zombie F))
    (walls : List (Rectangle F)) :
    0 ≤ ((Player.calls rl p cs).update rl deltaTime zombies walls).1.health
      ∧ ((Player.calls rl p cs).update rl deltaTime zombies walls).1.health
          ≤ ((Player.calls rl p cs).update rl deltaTime zombies walls).1.maxHealth
      ∧ ((Player.calls rl p cs).update rl deltaTime zombies walls).1.maxHealth
          = p.maxHealth := by
  have hm := (Player.update_dash rl (Player.calls rl p cs) deltaTime zombies walls).2.2.2.2
  rw [Player.calls_maxHealth] at hm
  obtain ⟨-, -, -, -, u5, -, u7⟩ := Player.update_fields rl (Player.calls rl p cs) deltaTime
    zombies walls
  rw [hm] at u5
  rw [u7, ← u5, hm]
  have hb := CLAMP_mem (((Player.calls rl p cs).updateTimers deltaTime).contactDamage rl
    deltaTime zombies).health hmax
  exact ⟨hb.1, hb.2, rfl⟩

/-- Witness for C22: `takeDamage(150)` leaves the fresh player at health -50;
after a dash, a shot and an update the health is back inside `[0, 100]`. -/
theorem player_health_bounds_witness :
    (0 : ℚ) ≤ freshPlayer.maxHealth
      ∧ (Player.calls sampleRaylib freshPlayer roughCalls).health = -50
      ∧ 0 ≤ ((Player.calls sampleRaylib freshPlayer roughCalls).update sampleRaylib (1 / 60)
          [attackingTank] []).1.health
      ∧ ((Player.calls sampleRaylib freshPlayer roughCalls).update sampleRaylib (1 / 60)
          [attackingTank] []).1.health ≤ 100 := by
  have h0 : (0 : ℚ) ≤ freshPlayer.maxHealth := by decide!
  have h := player_health_bounds sampleRaylib freshPlayer h0 roughCalls (1 / 60)
    [attackingTank] []
  refine ⟨h0, by decide!, h.1, ?_⟩
  have h2 := h.2.1
  rw [h.2.2] at h2
  exact h2

end HealthBoundClaims

/-! ## Claims about the dash -/

section DashClaims

variable {F : Type} [LinearOrderedField F]

/-- C25. Dashing implies invulnerable: in every player state reached from the
constructor through `dash`, `takeDamage`, `shoot` and `Player::update` calls, if
`isDashing` is true then `invulnerabilityTimer >= dashTimer > 0`, so
`takeDamage` returns the player unchanged, and so does the contact loop of
`Player::update`, for every amount and every zombie list. -/
theorem dashing_implies_invulnerable (rl : Raylib F) (startPos startFacing : Vector2 F)
    (size : F) (health : ℤ) (weapon : Weapon F) (cs : List (PlayerCall F))
    (hdash : (Player.calls rl (Player.new rl startPos startFacing size health weapon)
      cs).isDashing = true) :
    (Player.calls rl (Player.new rl startPos startFacing size health weapon) cs).dashTimer
        ≤ (Player.calls rl (Player.new rl startPos startFacing size health weapon)
            cs).invulnerabilityTimer
      ∧ 0 < (Player.calls rl (Player.new rl startPos startFacing size health weapon)
          cs).dashTimer
      ∧ (∀ amount : F,
          (Player.calls rl (Player.new rl startPos startFacing size health weapon)
            cs).takeDamage amount
            = Player.calls rl (Player.new rl startPos startFacing size health weapon) cs)
      ∧ ∀ (deltaTime : F) (zombies : List (Zombie F)),
          (Player.calls rl (Player.new rl startPos startFacing size health weapon)
            cs).contactDamage rl deltaTime zombies
            = Player.calls rl (Player.new rl startPos startFacing size health weapon) cs := by
  have h0 : DashInv (Player.new rl startPos startFacing size health weapon) := by
    intro hd
    exact Bool.noConfusion hd
  obtain ⟨h1, h2⟩ := DashInv.of_player_calls rl cs _ h0 hdash
  exact ⟨h1, h2, fun a => Player.takeDamage_of_invulnerable _ a (lt_of_lt_of_le h2 h1),
    fun dt zs => Player.contactDamage_of_invulnerable rl dt zs _ (lt_of_lt_of_le h2 h1)⟩

/-- Witness for C25: the player built as in `main` dashes, is updated for a
hundredth of a second with the attacking tank in contact and is hit for 10: it
is still dashing, the invulnerability timer covers the dash timer and the
health is still 100. -/
theorem dashing_implies_invulnerable_witness :
    (Player.calls sampleRaylib (Player.new sampleRaylib ⟨600, 400⟩ ⟨1, 0⟩ 20 100 CreatePistol)
        dashCalls).isDashing = true
      ∧ (Player.calls sampleRaylib
          (Player.new sampleRaylib ⟨600, 400⟩ ⟨1, 0⟩ 20 100 CreatePistol) dashCalls).dashTimer
          ≤ (Player.calls sampleRaylib
            (Player.new sampleRaylib ⟨600, 400⟩ ⟨1, 0⟩ 20 100 CreatePistol)
            dashCalls).invulnerabilityTimer
      ∧ (Player.calls sampleRaylib
          (Player.new sampleRaylib ⟨600, 400⟩ ⟨1, 0⟩ 20 100 CreatePistol)
          dashCalls).health = 100 := by
  have hd : (Player.calls sampleRaylib
      (Player.new sampleRaylib ⟨600, 400⟩ ⟨1, 0⟩ 20 100 CreatePistol)
      dashCalls).isDashing = true := by decide!
  have h := dashing_implies_invulnerable sampleRaylib ⟨600, 400⟩ ⟨1, 0⟩ 20 100 CreatePistol
    dashCalls hd
  exact ⟨hd, h.1, by decide!⟩
/-- C30. Dash displacement is bounded. After a successful `dash()` (the player
was not dashing and the direction has positive length), any `Player::update`
calls with `deltaTime >= 0`, whatever their zombies and walls, leave the player
at `pos + dashDirection * s` for some `0 <= s < 200 * DASH_SPEED_MULTIPLIER *
DASH_DURATION = 150`, where `dashDirection` is the normalised direction, of unit
length where the square root is exact, so that the squared displacement is
`s * s`. In each update of a dashing player the direction is kept; if the dash
timer stays positive the position moves by `dashDirection * (200 *
DASH_SPEED_MULTIPLIER * deltaTime)`, and in the update that ends the dash it
does not move. -/
theorem dash_displacement_bounded (rl : Raylib F) (p : Player F) (direction : Vector2 F)
    (frames : List (Frame F)) (hidle : p.isDashing = false)
    (hdir : 0 < Vector2Length rl direction) (hdt : ∀ f ∈ frames, 0 ≤ f.deltaTime) :
    (∃ s, 0 ≤ s ∧ s < 200 * DASH_SPEED_MULTIPLIER * DASH_DURATION
        ∧ ((p.dash rl direction).updates rl frames).pos
            = Vector2Add p.pos (Vector2Scale (Vector2Normalize rl direction) s)
        ∧ (SqrtExactAt rl (Vector2LengthSqr direction) →
            Vector2LengthSqr
                (Vector2Subtract ((p.dash rl direction).updates rl frames).pos p.pos)
              = s * s))
      ∧ (200 * DASH_SPEED_MULTIPLIER * DASH_DURATION : F) = 150
      ∧ (p.dash rl direction).dashDirection = Vector2Normalize rl direction
      ∧ (SqrtExactAt rl (Vector2LengthSqr direction) →
          Vector2LengthSqr (p.dash rl direction).dashDirection = 1)
      ∧ ∀ (q : Player F) (deltaTime : F) (zombies : List (Zombie F))
          (walls : List (Rectangle F)), q.isDashing = true →
          (q.update rl deltaTime zombies walls).1.dashDirection = q.dashDirection
            ∧ (0 < q.dashTimer - deltaTime →
                (q.update rl deltaTime zombies walls).1.isDashing = true
                  ∧ (q.update rl deltaTime zombies walls).1.dashTimer = q.dashTimer - deltaTime
                  ∧ (q.update rl deltaTime zombies walls).1.pos
                      = Vector2Add q.pos (Vector2Scale q.dashDirection
                          (200 * DASH_SPEED_MULTIPLIER * deltaTime)))
            ∧ (q.dashTimer - deltaTime ≤ 0 →
                (q.update rl deltaTime zombies walls).1.isDashing = false
                  ∧ (q.update rl deltaTime zombies walls).1.pos = q.pos) := by
  have hdash : p.dash rl direction
      = { p with isDashing := true, dashTimer := DASH_DURATION,
                 dashDirection := Vector2Normalize rl direction,
                 invulnerabilityTimer := DASH_DURATION } := by
    unfold Player.dash
    rw [if_pos ⟨hidle, hdir⟩]
  have hconst : (200 * DASH_SPEED_MULTIPLIER * DASH_DURATION : F) = 150 := by
    unfold DASH_SPEED_MULTIPLIER DASH_DURATION; norm_num
  have h0 : DashPath p.pos (Vector2Normalize rl direction) (p.dash rl direction) 0 := by
    rw [hdash]
    refine ⟨rfl, ?_, le_refl _, by rw [hconst]; norm_num, fun _ => ⟨?_, ?_⟩⟩
    · simp [Vector2Add, Vector2Scale]
    · show (DASH_DURATION : F) = DASH_DURATION - 0 / (200 * DASH_SPEED_MULTIPLIER)
      rw [zero_div, sub_zero]
    · show (0 : F) < DASH_DURATION
      unfold DASH_DURATION; norm_num
  obtain ⟨s, -, hP, hs0, hs1, -⟩ := DashPath.steps rl frames _ 0 h0 hdt
  refine ⟨⟨s, hs0, hs1, hP, fun hsq => ?_⟩, hconst, by rw [hdash], fun hsq => ?_, ?_⟩
  · have hu := Vector2Normalize_unit rl direction hsq hdir
    rw [hP]
    simp only [Vector2LengthSqr, Vector2Subtract, Vector2Add, Vector2Scale] at hu ⊢
    have e : (p.pos.x + (Vector2Normalize rl direction).x * s - p.pos.x)
          * (p.pos.x + (Vector2Normalize rl direction).x * s - p.pos.x)
        + (p.pos.y + (Vector2Normalize rl direction).y * s - p.pos.y)
          * (p.pos.y + (Vector2Normalize rl direction).y * s - p.pos.y)
        = ((Vector2Normalize rl direction).x * (Vector2Normalize rl direction).x
          + (Vector2Normalize rl direction).y * (Vector2Normalize rl direction).y) * (s * s) := by
      ring
    rw [e, hu, one_mul]
  · rw [hdash]
    exact Vector2Normalize_unit rl direction hsq hdir
  · intro q dt zs walls hq
    obtain ⟨u1, u2, u3, u4, -⟩ := Player.update_dash rl q dt zs walls
    refine ⟨u4, fun hpos => ?_, fun hle => ?_⟩
    · rcases Player.updateDash_cases q dt with ⟨-, -, c3, c4, c5⟩ | ⟨-, c2, -, -, -⟩ | ⟨c1, -⟩
      · exact ⟨by rw [u1, c3], by rw [u2, c4], by rw [u3, c5]⟩
      · exact absurd hpos (not_lt.2 c2)
      · rw [c1] at hq; exact Bool.noConfusion hq
    · rcases Player.updateDash_cases q dt with ⟨-, c2, -, -, -⟩ | ⟨-, -, c3, -, c5⟩ | ⟨c1, -⟩
      · exact absurd c2 (not_lt.2 hle)
      · exact ⟨by rw [u1, c3], by rw [u3, c5]⟩
      · rw [c1] at hq; exact Bool.noConfusion hq

/-- Witness for C30: the fresh player dashes to the right and is updated four
times for a twentieth of a second, a wall standing in the way: two updates move
it by 50 each, the third ends the dash, and it stops at (700, 400). -/
theorem dash_displacement_bounded_witness :
    freshPlayer.isDashing = false ∧ 0 < Vector2Length sampleRaylib (⟨3, 0⟩ : Vector2 ℚ)
      ∧ ((freshPlayer.dash sampleRaylib ⟨3, 0⟩).updates sampleRaylib dashFrames).pos.x = 700
      ∧ ((freshPlayer.dash sampleRaylib ⟨3, 0⟩).updates sampleRaylib dashFrames).pos.y = 400
      ∧ ((freshPlayer.dash sampleRaylib ⟨3, 0⟩).updates sampleRaylib dashFrames).isDashing
          = false
      ∧ ∃ s : ℚ, 0 ≤ s ∧ s < 200 * DASH_SPEED_MULTIPLIER * DASH_DURATION
          ∧ ((freshPlayer.dash sampleRaylib ⟨3, 0⟩).updates sampleRaylib dashFrames).pos
              = Vector2Add freshPlayer.pos
                  (Vector2Scale (Vector2Normalize sampleRaylib ⟨3, 0⟩) s) := by
  have h1 : freshPlayer.isDashing = false := by decide!
  have h2 : 0 < Vector2Length sampleRaylib (⟨3, 0⟩ : Vector2 ℚ) := by decide!
  obtain ⟨⟨s, hs0, hs1, hP, -⟩, -⟩ := dash_displacement_bounded sampleRaylib freshPlayer
    ⟨3, 0⟩ dashFrames h1 h2 (by decide!)
  exact ⟨h1, h2, by decide!, by decide!, by decide!, s, hs0, hs1, hP⟩
end DashClaims

/-! ## Claims about contact damage and absorbed bullets -/

section ContactClaims

variable {F : Type} [LinearOrderedField F]

/-- C21. Contact damage in `Player::update`. If, after the timer, dash and
regeneration steps, the player has `invulnerabilityTimer <= 0` and `health > 0`
and some zombie of the collection, whatever its state, is at distance
`< player.size + zombie.size`, then the whole contact loop amounts to one
`takeDamage(20 * deltaTime)`: the health drops by exactly `20 * deltaTime`, once,
however many zombies are in contact, the invulnerability window is armed, and
the update ends with the health clamped into `[0, maxHealth]`. If no zombie is
within that distance the contact loop changes nothing. -/
theorem contact_damage_once (rl : Raylib F) (p : Player F) (deltaTime : F)
    (zombies : List (Zombie F)) (walls : List (Rectangle F)) :
    ((p.updateTimers deltaTime).invulnerabilityTimer ≤ 0 → 0 < (p.updateTimers deltaTime).health →
        (∃ z ∈ zombies, Vector2Distance rl (p.updateTimers deltaTime).pos z.pos
          < (p.updateTimers deltaTime).size + z.size) →
        (p.updateTimers deltaTime).contactDamage rl deltaTime zombies
            = (p.updateTimers deltaTime).takeDamage (20 * deltaTime)
          ∧ ((p.updateTimers deltaTime).contactDamage rl deltaTime zombies).health
              = (p.updateTimers deltaTime).health - 20 * deltaTime
          ∧ (p.update rl deltaTime zombies walls).1.health
              = CLAMP ((p.updateTimers deltaTime).health - 20 * deltaTime) 0
                  (p.updateTimers deltaTime).maxHealth
          ∧ (p.update rl deltaTime zombies walls).1.invulnerabilityTimer
              = INVULNERABILITY_DURATION)
      ∧ ((∀ z ∈ zombies, ¬ (Vector2Distance rl (p.updateTimers deltaTime).pos z.pos
            < (p.updateTimers deltaTime).size + z.size)) →
          (p.updateTimers deltaTime).contactDamage rl deltaTime zombies
              = p.updateTimers deltaTime
            ∧ (p.update rl deltaTime zombies walls).1.health
                = CLAMP (p.updateTimers deltaTime).health 0
                    (p.updateTimers deltaTime).maxHealth) := by
  obtain ⟨-, -, -, -, u5, u6, u7⟩ := Player.update_fields rl p deltaTime zombies walls
  constructor
  · intro hinv hh hz
    have hc := Player.contactDamage_of_contact rl deltaTime zombies (p.updateTimers deltaTime)
      hinv hh hz
    have ht : (p.updateTimers deltaTime).takeDamage (20 * deltaTime)
        = { p.updateTimers deltaTime with
              health := (p.updateTimers deltaTime).health - 20 * deltaTime,
              invulnerabilityTimer := INVULNERABILITY_DURATION,
              damageTakenFlashTimer := DAMAGE_FLASH_DURATION,
              timeSinceLastDamage := 0 } := by
      unfold Player.takeDamage
      rw [if_pos ⟨hinv, hh⟩]
    refine ⟨hc, ?_, ?_, ?_⟩
    · rw [hc, ht]
    · rw [u7, hc, ht]
    · rw [u6, hc, ht]
  · intro hno
    have hc := Player.contactDamage_of_noContact rl deltaTime zombies (p.updateTimers deltaTime)
      hno
    refine ⟨hc, ?_⟩
    rw [u7, hc]

/-- Witness for C21: the player at health 80 with two of three zombies in
contact loses `20 * 1/20 = 1` health, once, and is invulnerable for half a
second; with one zombie out of contact it keeps its 80. -/
theorem contact_damage_once_witness :
    (scratchedPlayer.update sampleRaylib (1 / 20) zombieRow []).1.health = 79
      ∧ (scratchedPlayer.update sampleRaylib (1 / 20) zombieRow []).1.invulnerabilityTimer
          = 1 / 2
      ∧ (scratchedPlayer.update sampleRaylib (1 / 20) [Zombie.new ⟨600, 421⟩ 120 50 5 1] []).1.health
          = 80 := by
  have h1 := (contact_damage_once sampleRaylib scratchedPlayer (1 / 20) zombieRow []).1
    (by decide!) (by decide!)
    ⟨FastZombie ⟨613, 400⟩, List.mem_cons_of_mem _ (List.mem_cons_self _ _), by decide!⟩
  have h2 := (contact_damage_once sampleRaylib scratchedPlayer (1 / 20)
    [Zombie.new ⟨600, 421⟩ 120 50 5 1] []).2 (by decide!)
  refine ⟨?_, h1.2.2.2, ?_⟩
  · rw [h1.2.2.1]; decide!
  · rw [h2.2]; decide!

/-- C29. A dying enemy absorbs projectiles. In the bullet loop of
`Player::update`, if the first zombie in collection order within hit distance of
the integrated position of an active bullet is in state `DYING`, the bullet is
switched off and the zombie collection is left exactly as it was, whatever
zombies follow in the collection; the bullet fails the survival test of the
update, and for a player holding just this bullet the update ends with no
bullets and hands back the zombies unchanged. -/
theorem dying_zombie_absorbs_bullet (rl : Raylib F) (deltaTime : F)
    (walls : List (Rectangle F)) (bullet : Bullet F) (pre : List (Zombie F)) (z : Zombie F)
    (post : List (Zombie F)) (hactive : bullet.active = true)
    (hpre : ∀ w ∈ pre,
      ¬ Vector2Distance rl (bullet.update deltaTime).pos w.pos < bullet.radius + w.size)
    (hz : Vector2Distance rl (bullet.update deltaTime).pos z.pos < bullet.radius + z.size)
    (hdying : z.currentState = ZombieState.DYING) :
    updateBullet rl deltaTime walls bullet (pre ++ z :: post)
        = ({ bullet.update deltaTime with active := false }, pre ++ z :: post)
      ∧ bulletSurvives rl (pre ++ z :: post) walls (bullet.update deltaTime) = false
      ∧ ∀ p : Player F, p.bullets = [bullet] →
          (p.update rl deltaTime (pre ++ z :: post) walls).1.bullets = []
            ∧ (p.update rl deltaTime (pre ++ z :: post) walls).2 = pre ++ z :: post := by
  have hu := updateBullet_of_hit rl deltaTime walls bullet hactive pre z post
    (fun w hw => (bulletHits_eq_false_iff rl (bullet.update deltaTime) w).2 (hpre w hw))
    ((bulletHits_iff rl (bullet.update deltaTime) z).2 hz)
  rw [Zombie.takeDamage_of_dying_or_dead z bullet.damage (Or.inl hdying)] at hu
  have hs : bulletSurvives rl (pre ++ z :: post) walls (bullet.update deltaTime) = false := by
    rw [Bool.eq_false_iff]
    intro h
    exact ((bulletSurvives_iff rl _ walls _).1 h).1 z (List.mem_append_right _
      (List.mem_cons_self _ _)) hz
  refine ⟨hu, hs, fun p hp => ⟨?_, ?_⟩⟩
  · rw [Player.update_bullets, hp]
    simp [hactive, hs]
  · rw [Player.update_snd, hp, updateBullets_single, hu]

/-- Witness for C29: the bullet flies to (610, 400); the first zombie of the
row is out of hit distance, the second is `DYING` and within it, the third is
`CHASING` and within it too. The update leaves the player without bullets and
the row as it was. -/
theorem dying_zombie_absorbs_bullet_witness :
    dyingFast.currentState = ZombieState.DYING
      ∧ (FastZombie ⟨610, 404⟩ : Zombie ℚ).currentState = ZombieState.CHASING
      ∧ Vector2Distance sampleRaylib (flyingBullet.update (1 / 60)).pos
          (FastZombie ⟨610, 404⟩ : Zombie ℚ).pos
          < flyingBullet.radius + (FastZombie ⟨610, 404⟩ : Zombie ℚ).size
      ∧ ({ freshPlayer with bullets := [flyingBullet] }.update sampleRaylib (1 / 60) dyingRow
          []).1.bullets = []
      ∧ ({ freshPlayer with bullets := [flyingBullet] }.update sampleRaylib (1 / 60) dyingRow
          []).2 = dyingRow := by
  have h := dying_zombie_absorbs_bullet sampleRaylib (1 / 60) [] flyingBullet
    [FastZombie ⟨610, 382⟩] dyingFast [FastZombie ⟨610, 404⟩] (by decide!)
    (by decide!) (by decide!) (by decide!)
  exact ⟨by decide!, by decide!, by decide!,
    (h.2.2 { freshPlayer with bullets := [flyingBullet] } rfl).1,
    (h.2.2 { freshPlayer with bullets := [flyingBullet] } rfl).2⟩
end ContactClaims

end ZombieHunter
